import Mathlib

/-!
# g10/mainproc.c : packet grouping, payload handling and signature checking

A shallow embedding of `src/g10/mainproc.c`.

* The processing context `CTX` is an explicit record; every C function taking
  `CTX c` becomes a state transformer `Proc α` over `Sys` (the context together
  with the chronological trace of observable effects).
* A function can stop the process (`g10_exit`, `BUG()`, a failed `assert`, a
  NULL dereference); `Res.halt` records that together with the state reached.
* Functions, constants and tables that live outside `mainproc.c` (parser,
  cipher layer, key database, header constants, options) are fields of `Env`.
  An external function receives the trace so far as its first argument, so
  its answer may depend on everything that happened before the call.
-/

namespace G10

/-! ## Data model -/

/-- The packet type tags used as `case` labels in `proc_packets`; the C `switch`
forces them to be pairwise distinct.  `PKT_OTHER` is every other value of
`pkt->pkttype` (the `default:` label). -/
inductive PktType
  | PKT_PUBKEY_ENC
  | PKT_SIGNATURE
  | PKT_ONEPASS_SIG
  | PKT_SECRET_CERT
  | PKT_PUBLIC_CERT
  | PKT_COMPRESSED
  | PKT_ENCRYPTED
  | PKT_PLAINTEXT
  | PKT_USER_ID
  | PKT_OTHER (tag : Nat)
  deriving DecidableEq, Repr

/-- Modelled from the spec: the digest context (`MD_HANDLE`, cipher/md.c is not
part of the source).  A digest context is the set of enabled algorithms, kept in
the order they were enabled, and the bytes written so far. -/
structure MD where
  algos : List Int
  data : List Nat
  deriving DecidableEq, Repr

/-- Modelled from the spec: `md_open(algo, secure)`; a fresh context with `algo`
enabled, or with no algorithm enabled when `algo` is 0. -/
def md_open (algo : Int) (_secure : Int) : MD :=
  { algos := if algo = 0 then [] else [algo], data := [] }

/-- Modelled from the spec: `md_enable(md, algo)` enables one more algorithm. -/
def md_enable (md : MD) (algo : Int) : MD :=
  { md with algos := md.algos ++ [algo] }

/-- Modelled from the spec: `md_write(md, buf, len)` feeds bytes. -/
def md_write (md : MD) (buf : List Nat) : MD :=
  { md with data := md.data ++ buf }

/-- Modelled from the spec: `md_copy(md)` is an independent copy of the running
state; in a value model the copy is the value itself. -/
def md_copy (md : MD) : MD := md

/-- The symmetric key with its algorithm (`DEK`). -/
structure DEK where
  algo : Int
  key : List Nat
  deriving DecidableEq, Repr

/-- The fields of `PKT_public_cert` that `mainproc.c` reads: `mfx.md` is the
certificate's own digest state (it may be NULL). -/
structure PKT_public_cert where
  pubkey_algo : Int
  keyid : Nat
  timestamp : Nat
  mfx_md : Option MD
  deriving DecidableEq, Repr

structure PKT_secret_cert where
  pubkey_algo : Int
  keyid : Nat
  timestamp : Nat
  deriving DecidableEq, Repr

/-- The field `len` of the C struct is the length of `name`. -/
structure PKT_user_id where
  name : List Nat
  deriving DecidableEq, Repr

/-- The fields of `PKT_signature` read here.  `d` is a union in C; its two
members `d.elg.digest_algo` and `d.rsa.digest_algo` are kept apart.
`sig_class` is a `byte`. -/
structure PKT_signature where
  keyid0 : Nat
  keyid1 : Nat
  timestamp : Nat
  sig_class : Nat
  pubkey_algo : Int
  elg_digest_algo : Int
  rsa_digest_algo : Int
  deriving DecidableEq, Repr

structure PKT_onepass_sig where
  keyid : Nat
  sig_class : Nat
  digest_algo : Int
  pubkey_algo : Int
  deriving DecidableEq, Repr

structure PKT_pubkey_enc where
  keyid : Nat
  pubkey_algo : Int
  data : List Nat
  deriving DecidableEq, Repr

structure PKT_encrypted where
  data : List Nat
  deriving DecidableEq, Repr

structure PKT_plaintext where
  name : List Nat
  data : List Nat
  deriving DecidableEq, Repr

structure PKT_compressed where
  algorithm : Int
  data : List Nat
  deriving DecidableEq, Repr

/-- The struct `PACKET`: the tag `pkttype` together with the member of the union
`pkt` that the tag selects. -/
inductive Packet
  | public_cert (pkc : PKT_public_cert)
  | secret_cert (skc : PKT_secret_cert)
  | user_id (uid : PKT_user_id)
  | signature (sig : PKT_signature)
  | onepass_sig (ops : PKT_onepass_sig)
  | pubkey_enc (enc : PKT_pubkey_enc)
  | encrypted (ed : PKT_encrypted)
  | plaintext (pt : PKT_plaintext)
  | compressed (zd : PKT_compressed)
  | other (tag : Nat)
  deriving DecidableEq, Repr

/-- The field `pkt->pkttype`. -/
def Packet.pkttype : Packet → PktType
  | .public_cert _ => .PKT_PUBLIC_CERT
  | .secret_cert _ => .PKT_SECRET_CERT
  | .user_id _ => .PKT_USER_ID
  | .signature _ => .PKT_SIGNATURE
  | .onepass_sig _ => .PKT_ONEPASS_SIG
  | .pubkey_enc _ => .PKT_PUBKEY_ENC
  | .encrypted _ => .PKT_ENCRYPTED
  | .plaintext _ => .PKT_PLAINTEXT
  | .compressed _ => .PKT_COMPRESSED
  | .other t => .PKT_OTHER t

/-- The input buffer; only its file name is used (`iobuf_get_fname`). -/
structure IOBUF where
  fname : List Nat
  deriving DecidableEq, Repr

/-- The struct behind `CTX`.  `list` is the current list of packets: a `KBNODE`
chain is the list of the packets its nodes own, the NULL pointer is `[]`, and a
node of the chain is addressed by its position. `mfx_md` is `mfx.md`. -/
structure CTX where
  last_pubkey : Option PKT_public_cert
  last_seckey : Option PKT_secret_cert
  last_user_id : Option PKT_user_id
  mfx_md : Option MD
  dek : Option DEK
  last_was_pubkey_enc : Int
  list : List Packet
  have_data : Int
  iobuf : IOBUF
  deriving DecidableEq, Repr

/-- The context `m_alloc_clear` returns, with `c->iobuf = a`. -/
def CTX.clear (a : IOBUF) : CTX :=
  { last_pubkey := none, last_seckey := none, last_user_id := none, mfx_md := none,
    dek := none, last_was_pubkey_enc := 0, list := [], have_data := 0, iobuf := a }

/-! ## Observable effects -/

/-- The text of each `log_error` / `log_info` call, with its arguments. -/
inductive Msg
  | another_packet_in_the_way
  | orphaned_user_id
  | good_dek
  | pubkey_enc_packet (result : Int)
  | encryption_okay
  | encryption_failed (result : Int)
  | original_file_name (name : List Nat)
  | handle_plaintext_failed (rc : Int)
  | uncompressing_failed (rc : Int)
  | invalid_parent_packet_for_sigclass_0x10
  | invalid_root_packet_for_sigclass_0x10
  | invalid_node_with_packet_of_type (t : PktType)
  | oops_valid_pubkey_enc_packet_not_followed_by_data
  | good_signature_from (keyid0 keyid1 : Nat)
  | bad_signature_from (keyid0 keyid1 : Nat)
  | cant_check_signature_made_by (keyid1 : Nat) (rc : Int)
  | cant_hash_datafile (rc : Int)
  | old_style_signature
  | proc_tree_invalid_root_packet
  deriving DecidableEq, Repr

/-- The status codes given to `write_status`. -/
inductive Status
  | STATUS_GOODSIG
  | STATUS_BADSIG
  | STATUS_ERRSIG
  deriving DecidableEq, Repr

/-- What `list_node` and its helpers write to stdout, one value per call. -/
inductive Out
  | pub_line (pkc : PKT_public_cert)
  | sec_line (skc : PKT_secret_cert)
  | indent
  | userid (name : List Nat)
  | unexpected_packet_type (t : PktType)
  | newline
  | fingerprint_pkc (pkc : PKT_public_cert)
  | fingerprint_skc (skc : PKT_secret_cert)
  | no_user_id
  | sig_tag
  | sig_line (sigrc : Char) (keyid1 : Nat) (timestamp : Nat)
  | errstr (rc : Int)
  | signer (keyid0 keyid1 : Nat)
  deriving DecidableEq, Repr

/-- One observable step: a log line, a status line, output, the release of a
packet or of a DEK, or a call of an external function with its arguments and
what it returned. -/
inductive Event
  | log_error (m : Msg)
  | log_info (m : Msg)
  | write_status (s : Status)
  | stdout (o : Out)
  | free_packet (pkt : Packet)
  | m_free_dek (dek : DEK)
  | get_session_key (enc : PKT_pubkey_enc) (rc : Int)
  | make_dek_from_passphrase (dek : DEK) (mode : Int) (rc : Int)
  | decrypt_data (ed : PKT_encrypted) (dek : Option DEK) (rc : Int)
  | handle_plaintext (pt : PKT_plaintext) (rc : Int)
  | handle_compressed (zd : PKT_compressed) (rc : Int)
  | check_digest_algo (algo : Int) (rc : Int)
  | signature_check (sig : PKT_signature) (md : Option MD) (rc : Int)
  | ask_for_detached_datafile (md : Option MD) (fname : List Nat) (rc : Int)
  deriving DecidableEq, Repr

/-- The options read by `mainproc.c` (the global `opt`). -/
structure Opt where
  list_packets : Bool
  verbose : Int
  def_cipher_algo : Int
  fingerprint : Bool
  list_sigs : Bool
  check_sigs : Bool
  batch : Bool

/-- Everything `mainproc.c` takes from outside: the options, the constants of
the headers, and the external functions.  Each external function gets the trace
so far and returns its result code, and the value it stores through a pointer
argument where it has one. -/
structure Env where
  opt : Opt
  G10ERR_PUBKEY_ALGO : Int
  G10ERR_SIG_CLASS : Int
  G10ERR_BAD_SIGN : Int
  G10ERR_NO_PUBKEY : Int
  G10ERR_NO_SECKEY : Int
  G10ERR_INVALID_PACKET : Int
  PUBKEY_ALGO_ELGAMAL : Int
  PUBKEY_ALGO_RSA : Int
  DIGEST_ALGO_RMD160 : Int
  DIGEST_ALGO_MD5 : Int
  get_session_key : List Event → PKT_pubkey_enc → Int × DEK
  make_dek_from_passphrase : List Event → DEK → Int → Int × DEK
  decrypt_data : List Event → PKT_encrypted → Option DEK → Int
  handle_plaintext : List Event → PKT_plaintext → Option MD → Int × Option MD
  handle_compressed : List Event → PKT_compressed → Int
  check_digest_algo : List Event → Int → Int
  signature_check : List Event → PKT_signature → Option MD → Int
  digest_algo_from_sig : PKT_signature → Int
  ask_for_detached_datafile : List Event → Option MD → List Nat → Int × Option MD

/-! ## The state monad of the embedding -/

/-- The context and the trace of effects, oldest first. -/
structure Sys where
  c : CTX
  trace : List Event
  deriving DecidableEq, Repr

/-- The ways the process stops inside `mainproc.c`. -/
inductive Halt
  | g10_exit (code : Int)
  | BUG
  | assert_failed
  | null_deref
  deriving DecidableEq, Repr

/-- The outcome of running a function: it returns `a` in state `s`, or the
process stopped in state `s`. -/
inductive Res (α : Type)
  | ret (a : α) (s : Sys)
  | halt (h : Halt) (s : Sys)
  deriving DecidableEq, Repr

/-- A C function over the context. -/
def Proc (α : Type) : Type := Sys → Res α

def Proc.pure {α : Type} (a : α) : Proc α := fun s => Res.ret a s

def Proc.bind {α β : Type} (x : Proc α) (f : α → Proc β) : Proc β := fun s =>
  match x s with
  | Res.ret a s1 => f a s1
  | Res.halt h s1 => Res.halt h s1

instance : Monad Proc where
  pure := Proc.pure
  bind := Proc.bind

/-- Read the context. -/
def getc : Proc CTX := fun s => Res.ret s.c s

/-- Update the context. -/
def modc (f : CTX → CTX) : Proc Unit := fun s => Res.ret () { s with c := f s.c }

/-- Record an effect. -/
def emit (e : Event) : Proc Unit := fun s => Res.ret () { s with trace := s.trace ++ [e] }

/-- Call an external function and record the call. -/
def call {α : Type} (f : List Event → α) (ev : α → Event) : Proc α := fun s =>
  Res.ret (f s.trace) { s with trace := s.trace ++ [ev (f s.trace)] }

/-- Stop the process. -/
def halt {α : Type} (h : Halt) : Proc α := fun s => Res.halt h s

/-- The state an outcome carries. -/
def Res.sys {α : Type} : Res α → Sys
  | Res.ret _ s => s
  | Res.halt _ s => s

/-- The outcome is a return. -/
def Res.returned {α : Type} : Res α → Bool
  | Res.ret _ _ => true
  | Res.halt _ _ => false

/-- How the process stopped, if it did. -/
def Res.stopped {α : Type} : Res α → Option Halt
  | Res.ret _ _ => none
  | Res.halt h _ => some h

/-! ## kbnode.c -/

/-- Modelled from the spec: `new_kbnode(pkt)`, a chain of one node owning `pkt`
(kbnode.c is not part of the source). -/
def new_kbnode (pkt : Packet) : List Packet := [pkt]

/-- Modelled from the spec: `add_kbnode(root, node)` appends `node` at the end
of the chain starting at `root` (arrival order).  `root` is passed by value, so
with `root == NULL` there is no chain to extend: the walk to the last node
dereferences NULL. -/
def add_kbnode (root : List Packet) (node : List Packet) : Option (List Packet) :=
  match root with
  | [] => none
  | p :: rest => some (p :: rest ++ node)

/-- Scan of `find_next_kbnode`: the first position from `i` on whose packet has
type `t`, in the chain `l` that starts at position `i`. -/
def find_from (t : PktType) : Nat → List Packet → Option Nat
  | _, [] => none
  | i, p :: rest => if p.pkttype = t then some i else find_from t (i + 1) rest

/-- Modelled from the spec: `find_next_kbnode(node, pkttype)` is a linear scan
forward from `node->next` for the first node of that type; NULL if there is
none. -/
def find_next_kbnode (l : List Packet) (node : Nat) (t : PktType) : Option Nat :=
  find_from t (node + 1) (l.drop (node + 1))

/-- Scan of `find_prev_kbnode`: `n1` is the last match seen so far. -/
def find_prev_scan (node : Nat) (t : PktType) : Nat → List Packet → Option Nat → Option Nat
  | _, [], n1 => n1
  | i, p :: rest, n1 =>
    if i = node then n1
    else find_prev_scan node t (i + 1) rest (if p.pkttype = t then some i else n1)

/-- Modelled from the spec: `find_prev_kbnode(root, node, pkttype)` scans from
`root` up to, not including, `node` and returns the last node of that type
(the nearest one preceding `node`); NULL if there is none. -/
def find_prev_kbnode (root : List Packet) (node : Nat) (t : PktType) : Option Nat :=
  find_prev_scan node t 0 root none

/-! ## mainproc.c -/

/-- The expression `x & ~3` for a non-negative `x`: the two low bits cleared. -/
def and_not_3 (x : Nat) : Nat := x - x % 4

/-- The end of `do_check_sig`: `rc = signature_check( sig, md ); md_close(md);
return rc;`. -/
def do_check_sig_finish (E : Env) (sig : PKT_signature) (md : Option MD) : Proc Int :=
  call (fun h => E.signature_check h sig md) (Event.signature_check sig md)

/-- The branch of `do_check_sig` for the classes 0x10 .. 0x13, which leaves `md`
set for the final call or returns early. -/
def do_check_sig_keysig (E : Env) (node : Nat) (sig : PKT_signature) : Proc Int := do
  let c ← getc
  match c.list with
  | [] => halt Halt.null_deref
  | Packet.public_cert pkc :: _ =>
    match find_prev_kbnode c.list node PktType.PKT_USER_ID with
    | some n1 =>
      match pkc.mfx_md with
      | some m =>
        match c.list[n1]? with
        | some (Packet.user_id uid) =>
          do_check_sig_finish E sig (some (md_write (md_copy m) uid.name))
        | _ => halt Halt.null_deref
      | none => halt Halt.BUG
    | none => do
      emit (Event.log_error Msg.invalid_parent_packet_for_sigclass_0x10)
      pure E.G10ERR_SIG_CLASS
  | _ :: _ => do
    emit (Event.log_error Msg.invalid_root_packet_for_sigclass_0x10)
    pure E.G10ERR_SIG_CLASS

/-- The part of `do_check_sig` after the digest algorithm `algo` is resolved. -/
def do_check_sig_class (E : Env) (node : Nat) (sig : PKT_signature) (algo : Int) :
    Proc Int := do
  let rc ← call (fun h => E.check_digest_algo h algo) (Event.check_digest_algo algo)
  if rc ≠ 0 then pure rc
  else do
    let c ← getc
    if sig.sig_class = 0x00 then
      do_check_sig_finish E sig (c.mfx_md.map md_copy)
    else if sig.sig_class = 0x01 then
      do_check_sig_finish E sig (c.mfx_md.map md_copy)
    else if and_not_3 sig.sig_class = 0x10 then
      do_check_sig_keysig E node sig
    else pure E.G10ERR_SIG_CLASS

/-- The function `do_check_sig( CTX c, KBNODE node )`: `node` is a position in
`c->list`.  Returns 0 for a valid signature or an error code. -/
def do_check_sig (E : Env) (node : Nat) : Proc Int := do
  let c ← getc
  match c.list[node]? with
  | none => halt Halt.null_deref
  | some (Packet.signature sig) =>
    if sig.pubkey_algo = E.PUBKEY_ALGO_ELGAMAL then
      do_check_sig_class E node sig sig.elg_digest_algo
    else if sig.pubkey_algo = E.PUBKEY_ALGO_RSA then
      do_check_sig_class E node sig sig.rsa_digest_algo
    else pure E.G10ERR_PUBKEY_ALGO
  | some _ => halt Halt.assert_failed

/-- The function `print_userid( PACKET *pkt )`. -/
def print_userid (pkt : Packet) : Proc Unit :=
  match pkt with
  | Packet.user_id uid => emit (Event.stdout (Out.userid uid.name))
  | p => emit (Event.stdout (Out.unexpected_packet_type p.pkttype))

/-- The function `print_fingerprint( pkc, skc )`: the fingerprint comes from
`fingerprint_from_skc` / `fingerprint_from_pkc`; its formatted output is one
value. -/
def print_fingerprint (pkc : Option PKT_public_cert) (skc : Option PKT_secret_cert) :
    Proc Unit :=
  match skc, pkc with
  | some k, _ => emit (Event.stdout (Out.fingerprint_skc k))
  | none, some k => emit (Event.stdout (Out.fingerprint_pkc k))
  | none, none => halt Halt.null_deref

/-- The `PKT_SIGNATURE` branch of `list_node( c, node )`. -/
def list_node_signature (E : Env) (node : Nat) (sig : PKT_signature) : Proc Unit := do
  if E.opt.list_sigs = false then pure ()
  else do
    emit (Event.stdout Out.sig_tag)
    let r ← (if E.opt.check_sigs then do
        let rc2 ← do_check_sig E node
        pure (rc2,
          if rc2 = 0 then '!'
          else if rc2 = E.G10ERR_BAD_SIGN then '-'
          else if rc2 = E.G10ERR_NO_PUBKEY then '?'
          else '%')
      else pure ((0 : Int), ' '))
    emit (Event.stdout (Out.sig_line r.2 sig.keyid1 sig.timestamp))
    if r.2 = '%' then emit (Event.stdout (Out.errstr r.1))
    else if r.2 = '?' then pure ()
    else emit (Event.stdout (Out.signer sig.keyid0 sig.keyid1))
    emit (Event.stdout Out.newline)

/-- The inner loop of `list_node`, `for( n=node->next; n; n = n->next )`: `n` is
the position of the head of the remaining chain `l`.  The recursive call
`list_node(c, n)` is made on a signature node only, so it is the signature
branch. -/
def list_node_sigs (E : Env) : Nat → List Packet → Proc Unit
  | _, [] => pure ()
  | n, p :: rest =>
    match p with
    | Packet.user_id _ => pure ()
    | Packet.signature sig => do
      list_node_signature E n sig
      list_node_sigs E (n + 1) rest
    | _ => list_node_sigs E (n + 1) rest

/-- The outer loop of `list_node` for a public certificate,
`for( node = node->next; node; node = node->next )`; returns `any`. -/
def list_node_uids (E : Env) (pkc : PKT_public_cert) :
    Nat → List Packet → Bool → Proc Bool
  | _, [], any => pure any
  | node, p :: rest, any =>
    match p with
    | Packet.user_id uid => do
      if any then emit (Event.stdout Out.indent)
      print_userid (Packet.user_id uid)
      emit (Event.stdout Out.newline)
      if E.opt.fingerprint && !any then print_fingerprint (some pkc) none
      list_node_sigs E (node + 1) rest
      list_node_uids E pkc (node + 1) rest true
    | _ => list_node_uids E pkc (node + 1) rest any

/-- The loop of `list_node` for a secret certificate,
`while( (node = find_next_kbnode(node, PKT_USER_ID)) )`; `fuel` bounds the
number of rounds by the length of the chain; returns `any`. -/
def list_node_sec_uids (E : Env) (skc : PKT_secret_cert) (l : List Packet) :
    Nat → Nat → Bool → Proc Bool
  | 0, _, any => pure any
  | fuel + 1, node, any =>
    match find_next_kbnode l node PktType.PKT_USER_ID with
    | none => pure any
    | some n => do
      match l[n]? with
      | some p => print_userid p
      | none => halt Halt.null_deref
      emit (Event.stdout Out.newline)
      if E.opt.fingerprint && !any then print_fingerprint none (some skc)
      list_node_sec_uids E skc l fuel n true

/-- The function `list_node( CTX c, KBNODE node )` for a node of `c->list`. -/
def list_node (E : Env) (node : Nat) : Proc Unit := do
  let c ← getc
  match c.list[node]? with
  | none => pure ()
  | some (Packet.public_cert pkc) => do
    emit (Event.stdout (Out.pub_line pkc))
    let any ← list_node_uids E pkc (node + 1) (c.list.drop (node + 1)) false
    if any = false then emit (Event.stdout Out.no_user_id)
  | some (Packet.secret_cert skc) => do
    emit (Event.stdout (Out.sec_line skc))
    let any ← list_node_sec_uids E skc c.list c.list.length node false
    if any = false then emit (Event.stdout Out.no_user_id)
  | some (Packet.signature sig) => list_node_signature E node sig
  | some p => emit (Event.log_error (Msg.invalid_node_with_packet_of_type p.pkttype))

/-- The function `check_sig_and_print( CTX c, KBNODE node )`. -/
def check_sig_and_print (E : Env) (node : Nat) : Proc Int := do
  let c ← getc
  let rc ← do_check_sig E node
  match c.list[node]? with
  | some (Packet.signature sig) =>
    if rc = 0 then do
      emit (Event.write_status Status.STATUS_GOODSIG)
      emit (Event.log_info (Msg.good_signature_from sig.keyid0 sig.keyid1))
      pure rc
    else if rc = E.G10ERR_BAD_SIGN then do
      emit (Event.write_status Status.STATUS_BADSIG)
      emit (Event.log_error (Msg.bad_signature_from sig.keyid0 sig.keyid1))
      if E.opt.batch then halt (Halt.g10_exit 1)
      else pure rc
    else do
      emit (Event.write_status Status.STATUS_ERRSIG)
      emit (Event.log_error (Msg.cant_check_signature_made_by sig.keyid1 rc))
      pure rc
  | _ => halt Halt.assert_failed

/-- The function `free_md_filter_context( &c->mfx )`: closes `mfx.md` and clears
the filter context. -/
def free_md_filter_context : Proc Unit :=
  modc (fun c => { c with mfx_md := none })

/-- The loop `for( n1 = node; (n1 = find_next_kbnode(n1, PKT_SIGNATURE )); )
md_enable( c->mfx.md, digest_algo_from_sig(n1->pkt->pkt.signature))` of
`proc_tree`; `fuel` bounds the number of rounds by the length of the chain. -/
def proc_tree_enable (E : Env) : Nat → Nat → Proc Unit
  | 0, _ => pure ()
  | fuel + 1, n1 => do
    let c ← getc
    match find_next_kbnode c.list n1 PktType.PKT_SIGNATURE with
    | none => pure ()
    | some n =>
      match c.list[n]? with
      | some (Packet.signature sig) => do
        modc (fun c =>
          { c with mfx_md := Option.map (fun m => md_enable m (E.digest_algo_from_sig sig)) c.mfx_md })
        proc_tree_enable E fuel n
      | _ => halt Halt.null_deref

/-- The loop `for( n1 = node; (n1 = find_next_kbnode(n1, PKT_SIGNATURE )); )
check_sig_and_print( c, n1 )` of `proc_tree`; `fuel` bounds the number of
rounds by the length of the chain. -/
def proc_tree_check (E : Env) : Nat → Nat → Proc Unit
  | 0, _ => pure ()
  | fuel + 1, n1 => do
    let c ← getc
    match find_next_kbnode c.list n1 PktType.PKT_SIGNATURE with
    | none => pure ()
    | some n => do
      let _ ← check_sig_and_print E n
      proc_tree_check E fuel n

/-- The function `proc_tree( CTX c, KBNODE node )`: process the tree which
starts at `node`. -/
def proc_tree (E : Env) (node : Nat) : Proc Unit := do
  if E.opt.list_packets then pure ()
  else do
    let c ← getc
    match c.list[node]? with
    | none => halt Halt.null_deref
    | some (Packet.public_cert _) => list_node E node
    | some (Packet.secret_cert _) => list_node E node
    | some (Packet.onepass_sig _) =>
      if c.have_data = 0 then do
        free_md_filter_context
        modc (fun c => { c with mfx_md := some (md_open 0 0) })
        proc_tree_enable E c.list.length node
        let c1 ← getc
        let r ← call (fun h => E.ask_for_detached_datafile h c1.mfx_md c1.iobuf.fname)
          (fun r => Event.ask_for_detached_datafile c1.mfx_md c1.iobuf.fname r.1)
        modc (fun c => { c with mfx_md := r.2 })
        if r.1 ≠ 0 then
          emit (Event.log_error (Msg.cant_hash_datafile r.1))
        else proc_tree_check E c.list.length node
      else proc_tree_check E c.list.length node
    | some (Packet.signature sig) =>
      if c.have_data = 0 ∧ and_not_3 sig.sig_class = 0x10 then do
        emit (Event.log_info Msg.old_style_signature)
        free_md_filter_context
        modc (fun c => { c with mfx_md := some (md_open (E.digest_algo_from_sig sig) 0) })
        let c1 ← getc
        let r ← call (fun h => E.ask_for_detached_datafile h c1.mfx_md c1.iobuf.fname)
          (fun r => Event.ask_for_detached_datafile c1.mfx_md c1.iobuf.fname r.1)
        modc (fun c => { c with mfx_md := r.2 })
        if r.1 ≠ 0 then
          emit (Event.log_error (Msg.cant_hash_datafile r.1))
        else do
          let _ ← check_sig_and_print E node
          pure ()
      else do
        let _ ← check_sig_and_print E node
        pure ()
    | some _ => emit (Event.log_error Msg.proc_tree_invalid_root_packet)

/-- The function `release_list( CTX c )`: `release_kbnode` frees the chain. -/
def release_list (E : Env) : Proc Unit := do
  let c ← getc
  match c.list with
  | [] => pure ()
  | _ :: _ => do
    proc_tree E 0
    modc (fun c => { c with list := [] })

/-- The statement `add_kbnode( c->list, node )`: the chain `c->list` points to
is extended in place; with `c->list == NULL` the call dereferences NULL. -/
def add_to_list (node : List Packet) : Proc Unit := do
  let c ← getc
  match add_kbnode c.list node with
  | some l => modc (fun c => { c with list := l })
  | none => halt Halt.null_deref

/-- The function `add_onepass_sig( CTX c, PACKET *pkt )`. -/
def add_onepass_sig (E : Env) (pkt : Packet) : Proc Int := do
  let c ← getc
  match c.list with
  | root :: _ => do
    if root.pkttype ≠ PktType.PKT_ONEPASS_SIG then do
      emit (Event.log_error Msg.another_packet_in_the_way)
      release_list E
    add_to_list (new_kbnode pkt)
    pure 1
  | [] => do
    modc (fun c => { c with list := new_kbnode pkt })
    pure 1

/-- The function `add_public_cert( CTX c, PACKET *pkt )`. -/
def add_public_cert (E : Env) (pkt : Packet) : Proc Int := do
  release_list E
  modc (fun c => { c with list := new_kbnode pkt })
  pure 1

/-- The function `add_secret_cert( CTX c, PACKET *pkt )`. -/
def add_secret_cert (E : Env) (pkt : Packet) : Proc Int := do
  release_list E
  modc (fun c => { c with list := new_kbnode pkt })
  pure 1

/-- The function `add_user_id( CTX c, PACKET *pkt )`. -/
def add_user_id (pkt : Packet) : Proc Int := do
  let c ← getc
  match c.list with
  | [] => do
    emit (Event.log_error Msg.orphaned_user_id)
    pure 0
  | _ :: _ => do
    add_to_list (new_kbnode pkt)
    pure 1

/-- The function `add_signature( CTX c, PACKET *pkt )`.  A node of the chain
always owns a packet here, so `!c->list->pkt` (the `BUG()` branch) is false. -/
def add_signature (pkt : Packet) : Proc Int := do
  let c ← getc
  match c.list with
  | [] =>
    if pkt.pkttype = PktType.PKT_SIGNATURE then do
      modc (fun c => { c with list := new_kbnode pkt })
      pure 1
    else pure 0
  | _ :: _ => do
    add_to_list (new_kbnode pkt)
    pure 1

/-- The statements `m_free(c->dek); c->dek = NULL;`: releasing a NULL pointer
does nothing. -/
def free_dek : Proc Unit := do
  let c ← getc
  match c.dek with
  | some d => emit (Event.m_free_dek d)
  | none => pure ()
  modc (fun c => { c with dek := none })

/-- Lines 157-167 of `proc_pubkey_enc`: the value of `result`.  The block
`m_alloc_secure` returns is filled by `get_session_key`. -/
def proc_pubkey_enc_result (E : Env) (enc : PKT_pubkey_enc) : Proc Int := do
  if enc.pubkey_algo = E.PUBKEY_ALGO_ELGAMAL ∨ enc.pubkey_algo = E.PUBKEY_ALGO_RSA then do
    free_dek
    let r ← call (fun h => E.get_session_key h enc) (fun r => Event.get_session_key enc r.1)
    modc (fun c => { c with dek := some r.2 })
    if r.1 ≠ 0 then free_dek
    pure r.1
  else pure E.G10ERR_PUBKEY_ALGO

/-- The function `proc_pubkey_enc( CTX c, PACKET *pkt )` for a packet whose
member is `enc`. -/
def proc_pubkey_enc (E : Env) (enc : PKT_pubkey_enc) : Proc Unit := do
  modc (fun c => { c with last_was_pubkey_enc := 1 })
  let result ← proc_pubkey_enc_result E enc
  if result = -1 then pure ()
  else if result = 0 then
    (if E.opt.verbose > 1 then emit (Event.log_info Msg.good_dek) else pure ())
  else emit (Event.log_error (Msg.pubkey_enc_packet result))
  emit (Event.free_packet (Packet.pubkey_enc enc))

/-- Lines 188-197 of `proc_encrypted`: the value of `result`. -/
def proc_encrypted_result (E : Env) (ed : PKT_encrypted) : Proc Int := do
  let c ← getc
  let result ← (
    if c.dek = none ∧ c.last_was_pubkey_enc = 0 then do
      let r ← call
        (fun h => E.make_dek_from_passphrase h { algo := E.opt.def_cipher_algo, key := [] } 0)
        (fun r => Event.make_dek_from_passphrase
          { algo := E.opt.def_cipher_algo, key := [] } 0 r.1)
      modc (fun c => { c with dek := some r.2 })
      pure r.1
    else if c.dek = none then pure E.G10ERR_NO_SECKEY
    else pure 0)
  if result = 0 then do
    let c1 ← getc
    call (fun h => E.decrypt_data h ed c1.dek) (Event.decrypt_data ed c1.dek)
  else pure result

/-- The function `proc_encrypted( CTX c, PACKET *pkt )` for a packet whose
member is `ed`. -/
def proc_encrypted (E : Env) (ed : PKT_encrypted) : Proc Unit := do
  let result ← proc_encrypted_result E ed
  free_dek
  if result = -1 then pure ()
  else if result = 0 then
    (if E.opt.verbose > 1 then emit (Event.log_info Msg.encryption_okay) else pure ())
  else emit (Event.log_error (Msg.encryption_failed result))
  emit (Event.free_packet (Packet.encrypted ed))
  modc (fun c => { c with last_was_pubkey_enc := 0 })

/-- The function `proc_plaintext( CTX c, PACKET *pkt )` for a packet whose
member is `pt`. -/
def proc_plaintext (E : Env) (pt : PKT_plaintext) : Proc Unit := do
  if E.opt.verbose ≠ 0 then emit (Event.log_info (Msg.original_file_name pt.name))
  free_md_filter_context
  modc (fun c => { c with mfx_md := some (md_open E.DIGEST_ALGO_RMD160 0) })
  modc (fun c =>
    { c with mfx_md := Option.map (fun m => md_enable m E.DIGEST_ALGO_MD5) c.mfx_md })
  let c ← getc
  let r ← call (fun h => E.handle_plaintext h pt c.mfx_md)
    (fun r => Event.handle_plaintext pt r.1)
  modc (fun c => { c with mfx_md := r.2 })
  if r.1 ≠ 0 then emit (Event.log_error (Msg.handle_plaintext_failed r.1))
  emit (Event.free_packet (Packet.plaintext pt))
  modc (fun c => { c with last_was_pubkey_enc := 0 })

/-- The function `proc_compressed( CTX c, PACKET *pkt )` for a packet whose
member is `zd`. -/
def proc_compressed (E : Env) (zd : PKT_compressed) : Proc Unit := do
  let rc ← call (fun h => E.handle_compressed h zd) (Event.handle_compressed zd)
  if rc ≠ 0 then emit (Event.log_error (Msg.uncompressing_failed rc))
  emit (Event.free_packet (Packet.compressed zd))
  modc (fun c => { c with last_was_pubkey_enc := 0 })

/-- Lines 466-469 of `proc_packets`, "cleanup if we have an illegal data
  structure": a pending DEK is burnt unless the packet is encrypted data. -/
def burn_dek (pkt : Packet) : Proc Unit := do
  let c ← getc
  if c.dek ≠ none ∧ pkt.pkttype ≠ PktType.PKT_ENCRYPTED then do
    emit (Event.log_error Msg.oops_valid_pubkey_enc_packet_not_followed_by_data)
    free_dek

/-- Lines 477-499 of `proc_packets`: the two `switch` statements; returns
`newpkt`. -/
def dispatch (E : Env) (pkt : Packet) : Proc Int :=
  if E.opt.list_packets then
    match pkt with
    | Packet.pubkey_enc enc => do proc_pubkey_enc E enc; pure (-1)
    | Packet.encrypted ed => do proc_encrypted E ed; pure (-1)
    | Packet.compressed zd => do proc_compressed E zd; pure (-1)
    | _ => pure 0
  else
    match pkt with
    | Packet.public_cert _ => add_public_cert E pkt
    | Packet.secret_cert _ => add_secret_cert E pkt
    | Packet.user_id _ => add_user_id pkt
    | Packet.signature _ => add_signature pkt
    | Packet.pubkey_enc enc => do proc_pubkey_enc E enc; pure (-1)
    | Packet.encrypted ed => do proc_encrypted E ed; pure (-1)
    | Packet.plaintext pt => do proc_plaintext E pt; pure (-1)
    | Packet.compressed zd => do proc_compressed E zd; pure (-1)
    | Packet.onepass_sig _ => add_onepass_sig E pkt
    | Packet.other _ => pure 0

/-- Lines 477-510 of `proc_packets`: the body of the loop for a packet that
`parse_packet` returned with `rc == 0`. -/
def process_packet (E : Env) (pkt : Packet) : Proc Unit := do
  let newpkt ← dispatch E pkt
  if pkt.pkttype ≠ PktType.PKT_SIGNATURE then
    modc (fun c => { c with have_data := if pkt.pkttype = PktType.PKT_PLAINTEXT then 1 else 0 })
  if newpkt = -1 then pure ()
  else if newpkt ≠ 0 then pure ()
  else emit (Event.free_packet pkt)

/-- The loop `while( (rc=parse_packet(a, pkt)) != -1 )` of `proc_packets`.  The
stream is the list of what `parse_packet` returns call by call, the code `rc`
and the packet left in `pkt`; at the end of the list it returns -1. -/
def proc_packets_loop (E : Env) : List (Int × Packet) → Proc Unit
  | [] => pure ()
  | (rc, pkt) :: rest =>
    if rc = -1 then pure ()
    else do
      burn_dek pkt
      if rc ≠ 0 then do
        emit (Event.free_packet pkt)
        if rc = E.G10ERR_INVALID_PACKET then pure ()
        else proc_packets_loop E rest
      else do
        process_packet E pkt
        proc_packets_loop E rest

/-- The function `proc_packets( IOBUF a )` on the stream `parse_packet` reads
from `a`.  The context is allocated cleared; after the loop the open list is
released, then the pending DEK and the filter context. -/
def proc_packets (E : Env) (a : IOBUF) (stream : List (Int × Packet)) : Proc Int := do
  modc (fun _ => CTX.clear a)
  proc_packets_loop E stream
  release_list E
  let c ← getc
  match c.dek with
  | some d => emit (Event.m_free_dek d)
  | none => pure ()
  free_md_filter_context
  pure 0

/-! ## Packet sequences and sample environments used in the statements -/

/-- A public certificate followed by `N` user ids, each followed by `M`
signatures, in arrival order. -/
def cert_packets (pkc : PKT_public_cert) (N M : Nat) (uid : Nat → PKT_user_id)
    (sig : Nat → Nat → PKT_signature) : List Packet :=
  Packet.public_cert pkc ::
    ((List.range N).map (fun i =>
      Packet.user_id (uid i) ::
        (List.range M).map (fun j => Packet.signature (sig i j)))).flatten

/-- Hand the packets one after the other to the `switch` of `proc_packets`,
collecting what the handlers return. -/
def dispatch_all (E : Env) : List Packet → Proc (List Int)
  | [] => pure []
  | p :: ps => do
    let r ← dispatch E p
    let rs ← dispatch_all E ps
    pure (r :: rs)

/-- Normal mode, interactive, signatures listed and checked. -/
def sampleOpt : Opt :=
  { list_packets := false, verbose := 0, def_cipher_algo := 1, fingerprint := false,
    list_sigs := true, check_sigs := true, batch := false }

/-- An environment with sample header values, in which every external function
succeeds and `signature_check` answers `sigrc`. -/
def sampleEnv (opt : Opt) (sigrc : Int) : Env :=
  { opt := opt,
    G10ERR_PUBKEY_ALGO := 4, G10ERR_SIG_CLASS := 29, G10ERR_BAD_SIGN := 8,
    G10ERR_NO_PUBKEY := 9, G10ERR_NO_SECKEY := 17, G10ERR_INVALID_PACKET := 14,
    PUBKEY_ALGO_ELGAMAL := 16, PUBKEY_ALGO_RSA := 1,
    DIGEST_ALGO_RMD160 := 3, DIGEST_ALGO_MD5 := 1,
    get_session_key := fun _ enc => (0, { algo := 1, key := enc.data }),
    make_dek_from_passphrase := fun _ d _ => (0, d),
    decrypt_data := fun _ _ _ => 0,
    handle_plaintext := fun _ pt m => (0, Option.map (fun x => md_write x pt.data) m),
    handle_compressed := fun _ _ => 0,
    check_digest_algo := fun _ _ => 0,
    signature_check := fun _ _ _ => sigrc,
    digest_algo_from_sig := fun sg =>
      if sg.pubkey_algo = 16 then sg.elg_digest_algo
      else if sg.pubkey_algo = 1 then sg.rsa_digest_algo else 0,
    ask_for_detached_datafile := fun _ m _ => (0, m) }

/-- An RSA signature of the given class, digest algorithm MD5. -/
def sampleSig (cls : Nat) : PKT_signature :=
  { keyid0 := 0, keyid1 := 7, timestamp := 0, sig_class := cls, pubkey_algo := 1,
    elg_digest_algo := 0, rsa_digest_algo := 1 }

def sampleOnepass : PKT_onepass_sig :=
  { keyid := 7, sig_class := 0, digest_algo := 1, pubkey_algo := 1 }

/-- A certificate that carries its digest state. -/
def sampleCert : PKT_public_cert :=
  { pubkey_algo := 1, keyid := 7, timestamp := 0, mfx_md := some (md_open 1 0) }

/-- A state with the given open list and `have_data`, nothing else pending. -/
def sampleSys (l : List Packet) (have_data : Int) : Sys :=
  { c := { CTX.clear { fname := [] } with list := l, have_data := have_data }, trace := [] }

/-- The digest algorithm `do_check_sig` resolves for a signature whose
public-key algorithm is ElGamal or RSA. -/
def resolved_algo (E : Env) (sig : PKT_signature) : Int :=
  if sig.pubkey_algo = E.PUBKEY_ALGO_ELGAMAL then sig.elg_digest_algo else sig.rsa_digest_algo

/-- The event is a `write_status` call. -/
def Event.is_status : Event → Bool
  | Event.write_status _ => true
  | _ => false

/-- The number of `write_status` calls in a trace. -/
def count_status (t : List Event) : Nat := List.countP Event.is_status t

/-- The signature nodes of a chain `l` whose head has position `i`, each with its
position, in the order of the chain. -/
def sig_nodes_from : Nat → List Packet → List (Nat × PKT_signature)
  | _, [] => []
  | i, Packet.signature sig :: rest => (i, sig) :: sig_nodes_from (i + 1) rest
  | i, _ :: rest => sig_nodes_from (i + 1) rest

/-- The signature nodes that follow the root of the group `l`. -/
def trailing_sigs (l : List Packet) : List (Nat × PKT_signature) :=
  sig_nodes_from 1 (l.drop 1)

/-- Call `check_sig_and_print` once for each of the nodes, in the order given. -/
def check_each (E : Env) : List (Nat × PKT_signature) → Proc Unit
  | [] => pure ()
  | nd :: rest => do
    let _ ← check_sig_and_print E nd.1
    check_each E rest

/-- The digest context `proc_tree` hands to `ask_for_detached_datafile` for the
one-pass group `l`. -/
def detached_md (E : Env) (l : List Packet) : MD :=
  List.foldl md_enable (md_open 0 0)
    ((trailing_sigs l).map (fun nd => E.digest_algo_from_sig nd.2))

/-- What `proc_packets` does after the final `release_list`: the pending DEK and
the filter context are released and 0 is returned. -/
def proc_packets_end (s : Sys) : Sys :=
  { c := { s.c with mfx_md := none },
    trace := s.trace ++ (match s.c.dek with
      | some d => [Event.m_free_dek d]
      | none => []) }

/-- Every run of `x` takes a state `s` to a state related to `s` by `R`. -/
def steps {α : Type} (R : Sys → Sys → Prop) (x : Proc α) : Prop :=
  ∀ s, R s (x s).sys

/-- The context is left as it was and every event added to the trace satisfies `P`. -/
def frame (P : Event → Bool) (s s1 : Sys) : Prop :=
  s1.c = s.c ∧ ∃ t, s1.trace = s.trace ++ t ∧ ∀ e ∈ t, P e = true

/-- Only `mfx.md` may differ in the context and every event added satisfies `P`. -/
def frame_md (P : Event → Bool) (s s1 : Sys) : Prop :=
  s1.c = { s.c with mfx_md := s1.c.mfx_md } ∧
    ∃ t, s1.trace = s.trace ++ t ∧ ∀ e ∈ t, P e = true

/-- Events of `do_check_sig`: calls of `check_digest_algo` and `signature_check`
and its two error lines. -/
def Event.is_check : Event → Bool
  | Event.check_digest_algo _ _ => true
  | Event.signature_check _ _ _ => true
  | Event.log_error Msg.invalid_parent_packet_for_sigclass_0x10 => true
  | Event.log_error Msg.invalid_root_packet_for_sigclass_0x10 => true
  | _ => false

/-- No condition on an event. -/
def Event.any (_ : Event) : Bool := true

/-- Only `mfx.md` and `list` may differ in the context. -/
def frame_grp (s s1 : Sys) : Prop :=
  s1.c = { s.c with mfx_md := s1.c.mfx_md, list := s1.c.list }

/-- Every run of `x` returns, in a state related to the start by `R`. -/
def total {α : Type} (R : Sys → Sys → Prop) (x : Proc α) : Prop :=
  ∀ s, ∃ a s1, x s = Res.ret a s1 ∧ R s s1

/-- The list and `have_data` are left as they were and every event added
satisfies `P`. -/
def frame_pay (P : Event → Bool) (s s1 : Sys) : Prop :=
  s1.c.list = s.c.list ∧ s1.c.have_data = s.c.have_data ∧
    ∃ t, s1.trace = s.trace ++ t ∧ ∀ e ∈ t, P e = true

/-- Events of session-key recovery, decryption and decompression: log lines,
releases, and calls of `get_session_key`, `make_dek_from_passphrase`,
`decrypt_data` and `handle_compressed`. -/
def Event.is_decrypt_step : Event → Bool
  | Event.log_error _ => true
  | Event.log_info _ => true
  | Event.free_packet _ => true
  | Event.m_free_dek _ => true
  | Event.get_session_key _ _ => true
  | Event.make_dek_from_passphrase _ _ _ => true
  | Event.decrypt_data _ _ _ => true
  | Event.handle_compressed _ _ => true
  | _ => false

/-- The contexts before and after are related by `C`. -/
def frame_c (C : CTX → CTX → Prop) (s s1 : Sys) : Prop := C s.c s1.c

/-- The flag `last_was_pubkey_enc` is the same. -/
def same_flag (c c1 : CTX) : Prop :=
  c1.last_was_pubkey_enc = c.last_was_pubkey_enc

/-- The value of `last_was_pubkey_enc` after a packet has been dispatched, from
its value before: set by a session-key packet, cleared by encrypted and
compressed data and, in normal mode, by literal data; every other packet leaves
it as it is. -/
def flag_step (list_mode : Bool) (pkt : Packet) (flag : Int) : Int :=
  match pkt with
  | Packet.pubkey_enc _ => 1
  | Packet.encrypted _ => 0
  | Packet.compressed _ => 0
  | Packet.plaintext _ => if list_mode then flag else 0
  | _ => flag

/-- The value of `last_was_pubkey_enc` after the packets have been dispatched
one after the other. -/
def flag_after (list_mode : Bool) : List Packet → Int → Int
  | [], flag => flag
  | p :: ps, flag => flag_after list_mode ps (flag_step list_mode p flag)

/-- The rule for `have_data` in the loop of `proc_packets`. -/
def have_data_step (pkt : Packet) (have_data : Int) : Int :=
  if pkt.pkttype = PktType.PKT_SIGNATURE then have_data
  else if pkt.pkttype = PktType.PKT_PLAINTEXT then 1 else 0

/-- The packets whose handlers clear `last_was_pubkey_enc`: encrypted data,
compressed data and, in normal mode, literal data. -/
def resets_flag (list_mode : Bool) (pkt : Packet) : Bool :=
  match pkt with
  | Packet.encrypted _ => true
  | Packet.compressed _ => true
  | Packet.plaintext _ => !list_mode
  | _ => false

/-- The list is left as it was and every event added satisfies `P`. -/
def frame_list (P : Event → Bool) (s s1 : Sys) : Prop :=
  s1.c.list = s.c.list ∧ ∃ t, s1.trace = s.trace ++ t ∧ ∀ e ∈ t, P e = true

/-- The value returned, if the function returned. -/
def Res.val {α : Type} : Res α → Option α
  | Res.ret a _ => some a
  | Res.halt _ _ => none

/-- Two runs, from `s` and from `s1`, end the same way: same value or same stop,
same context, and the same events added to the trace. -/
def same_run {α : Type} (s s1 : Sys) (r r1 : Res α) : Prop :=
  r.val = r1.val ∧ r.stopped = r1.stopped ∧ r.sys.c = r1.sys.c ∧
    ∃ t, r.sys.trace = s.trace ++ t ∧ r1.sys.trace = s1.trace ++ t

/-- In every run of `x` from the context `c` the context is left as it was and
`signature_check` is called with the signature and digest `d` only. -/
def hands {α : Type} (c : CTX) (d : Option (PKT_signature × Option MD)) (x : Proc α) : Prop :=
  ∀ s, s.c = c → (x s).sys.c = c ∧ ∃ t, (x s).sys.trace = s.trace ++ t ∧
    ∀ sig md rc, Event.signature_check sig md rc ∈ t → d = some (sig, md)

/-- Runs of `x` from two states with the same context end the same way. -/
def stable {α : Type} (x : Proc α) : Prop :=
  ∀ s s1, s.c = s1.c → same_run s s1 (x s) (x s1)

/-- The event is neither the status line `STATUS_GOODSIG` nor a call of
`signature_check`. -/
def Event.no_good_sig : Event → Bool
  | Event.write_status Status.STATUS_GOODSIG => false
  | Event.signature_check _ _ _ => false
  | _ => true

/-- A step of `list_node` over the nodes after a public certificate: the line of
a user id (with the value of `any` at that point), or the visit `list_node(c, n)`
of the signature node at position `n`. -/
inductive Visit
  | uid (uid : PKT_user_id) (any : Bool)
  | sig (n : Nat) (sig : PKT_signature)
  deriving DecidableEq, Repr

/-- The steps the specification gives for the chain `l`, whose head has position
`n`, in chain order: one line for every user id, one visit for every signature
node that has a user id before it (`any` tells whether one came before `l`), no
visit for a signature node that has none. -/
def visits : Nat → List Packet → Bool → List Visit
  | _, [], _ => []
  | n, Packet.user_id uid :: rest, any => Visit.uid uid any :: visits (n + 1) rest true
  | n, Packet.signature sig :: rest, any =>
    if any then Visit.sig n sig :: visits (n + 1) rest any else visits (n + 1) rest any
  | n, _ :: rest, any => visits (n + 1) rest any

/-- Run the steps in the order given: the user id lines as `list_node` prints
them, the visits as calls of `list_node` on the signature node. -/
def run_visits (E : Env) (pkc : PKT_public_cert) : List Visit → Proc Unit
  | [] => pure ()
  | Visit.uid uid any :: vs => do
    if any then emit (Event.stdout Out.indent)
    print_userid (Packet.user_id uid)
    emit (Event.stdout Out.newline)
    if E.opt.fingerprint && !any then print_fingerprint (some pkc) none
    run_visits E pkc vs
  | Visit.sig n sig :: vs => do
    list_node_signature E n sig
    run_visits E pkc vs

/-! ## Running the embedding -/

@[simp] theorem bind_run {α β : Type} (x : Proc α) (f : α → Proc β) (s : Sys) :
    (x >>= f) s = match x s with
      | Res.ret a s1 => f a s1
      | Res.halt h s1 => Res.halt h s1 := rfl

@[simp] theorem pure_run {α : Type} (a : α) (s : Sys) :
    (pure a : Proc α) s = Res.ret a s := rfl

@[simp] theorem getc_run (s : Sys) : getc s = Res.ret s.c s := rfl

@[simp] theorem modc_run (f : CTX → CTX) (s : Sys) :
    modc f s = Res.ret () { s with c := f s.c } := rfl

@[simp] theorem emit_run (e : Event) (s : Sys) :
    emit e s = Res.ret () { s with trace := s.trace ++ [e] } := rfl

@[simp] theorem call_run {α : Type} (f : List Event → α) (ev : α → Event) (s : Sys) :
    call f ev s = Res.ret (f s.trace) { s with trace := s.trace ++ [ev (f s.trace)] } := rfl

@[simp] theorem halt_run {α : Type} (h : Halt) (s : Sys) :
    (halt h : Proc α) s = Res.halt h s := rfl

/-! ## Grouping -/

theorem add_to_list_run (node : List Packet) (s : Sys) (h : s.c.list ≠ []) :
    add_to_list node s = Res.ret () { s with c := { s.c with list := s.c.list ++ node } } := by
  unfold add_to_list
  cases hl : s.c.list with
  | nil => exact absurd hl h
  | cons p rest => simp [add_kbnode, hl]

theorem dispatch_append (E : Env) (hE : E.opt.list_packets = false) (p : Packet)
    (hp : p.pkttype = PktType.PKT_USER_ID ∨ p.pkttype = PktType.PKT_SIGNATURE)
    (s : Sys) (h : s.c.list ≠ []) :
    dispatch E p s = Res.ret 1 { s with c := { s.c with list := s.c.list ++ [p] } } := by
  cases hl : s.c.list with
  | nil => exact absurd hl h
  | cons q rest =>
    cases p <;> simp [Packet.pkttype] at hp <;>
      simp [dispatch, hE, add_user_id, add_signature, hl, add_to_list_run, new_kbnode]

theorem dispatch_all_append (E : Env) (hE : E.opt.list_packets = false) (ps : List Packet)
    (hp : ∀ p ∈ ps, p.pkttype = PktType.PKT_USER_ID ∨ p.pkttype = PktType.PKT_SIGNATURE)
    (s : Sys) (h : s.c.list ≠ []) :
    dispatch_all E ps s =
      Res.ret (List.replicate ps.length 1)
        { s with c := { s.c with list := s.c.list ++ ps } } := by
  induction ps generalizing s with
  | nil => simp [dispatch_all]
  | cons p ps ih =>
    have h1 := dispatch_append E hE p (hp p (List.mem_cons_self _ _)) s h
    have h2 := ih (fun q hq => hp q (List.mem_cons_of_mem _ hq))
      { s with c := { s.c with list := s.c.list ++ [p] } } (by simp)
    simp [dispatch_all, h1, h2, List.replicate_succ]

theorem cert_packets_length (pkc : PKT_public_cert) (N M : Nat) (uid : Nat → PKT_user_id)
    (sig : Nat → Nat → PKT_signature) :
    (cert_packets pkc N M uid sig).length = 1 + N + N * M := by
  simp [cert_packets, List.length_flatten, Function.comp_def]
  ring

/-- If the flush returns, it returns with the list released. -/
theorem release_list_ret (E : Env) (s s1 : Sys) (h : release_list E s = Res.ret () s1) :
    s1.c.list = [] := by
  unfold release_list at h
  cases hl : s.c.list with
  | nil =>
    simp [hl] at h
    rw [← h]; exact hl
  | cons p rest =>
    simp [hl] at h
    cases hp : proc_tree E 0 s with
    | ret a s2 =>
      simp [hp] at h
      rw [← h]
    | halt x s2 => simp [hp] at h

/-- C1 (as amended): in normal mode, for every `N`, `M` and every starting
context on which the flush of the previously open group returns (`release_list`
in `add_public_cert` does not stop the process), dispatching a public
certificate followed by `N` user ids, each followed by `M` signatures, leaves
`c->list` as the one group made of those `1 + N + N*M` packets in arrival
order with the certificate as root, and every handler returns 1. -/
theorem C1_cert_group_in_arrival_order (E : Env) (hE : E.opt.list_packets = false)
    (pkc : PKT_public_cert) (N M : Nat) (uid : Nat → PKT_user_id)
    (sig : Nat → Nat → PKT_signature) (s s1 : Sys)
    (hflush : release_list E s = Res.ret () s1) :
    dispatch_all E (cert_packets pkc N M uid sig) s =
        Res.ret (List.replicate (1 + N + N * M) 1)
          { s1 with c := { s1.c with list := cert_packets pkc N M uid sig } } ∧
      (cert_packets pkc N M uid sig).length = 1 + N + N * M ∧
      (cert_packets pkc N M uid sig).head? = some (Packet.public_cert pkc) := by
  refine ⟨?_, cert_packets_length pkc N M uid sig, rfl⟩
  have hlen := cert_packets_length pkc N M uid sig
  have htail : ∀ p ∈ ((List.range N).map (fun i =>
      Packet.user_id (uid i) ::
        (List.range M).map (fun j => Packet.signature (sig i j)))).flatten,
      p.pkttype = PktType.PKT_USER_ID ∨ p.pkttype = PktType.PKT_SIGNATURE := by
    intro p hp
    simp only [List.mem_flatten, List.mem_map, List.mem_range] at hp
    obtain ⟨l, ⟨i, _, rfl⟩, hp⟩ := hp
    simp only [List.mem_cons, List.mem_map, List.mem_range] at hp
    rcases hp with rfl | ⟨j, _, rfl⟩
    · exact Or.inl rfl
    · exact Or.inr rfl
  have hrest := dispatch_all_append E hE _ htail
    { s1 with c := { s1.c with list := [Packet.public_cert pkc] } } (by simp)
  have hcert : dispatch E (Packet.public_cert pkc) s =
      Res.ret 1 { s1 with c := { s1.c with list := [Packet.public_cert pkc] } } := by
    simp [dispatch, hE, add_public_cert, hflush, new_kbnode]
  simp only [cert_packets, List.length_cons] at hlen
  rw [← hlen]
  simp [cert_packets, dispatch_all, hcert, hrest, List.replicate_succ]

/-- C1, an instance: a context with no pending flush effects other than listing
the old certificate; one user id with one signature. -/
theorem C1_cert_group_in_arrival_order_witness :
    dispatch_all (sampleEnv sampleOpt 0)
        (cert_packets sampleCert 1 1 (fun _ => { name := [65] }) (fun _ _ => sampleSig 16))
        (sampleSys [Packet.public_cert sampleCert] 0) =
        Res.ret (List.replicate (1 + 1 + 1 * 1) 1)
          { c := { CTX.clear { fname := [] } with
                   list := cert_packets sampleCert 1 1 (fun _ => { name := [65] })
                     (fun _ _ => sampleSig 16) },
            trace := [Event.stdout (Out.pub_line sampleCert), Event.stdout Out.no_user_id] } ∧
      (cert_packets sampleCert 1 1 (fun _ => { name := [65] })
        (fun _ _ => sampleSig 16)).length = 1 + 1 + 1 * 1 ∧
      (cert_packets sampleCert 1 1 (fun _ => { name := [65] })
        (fun _ _ => sampleSig 16)).head? = some (Packet.public_cert sampleCert) :=
  C1_cert_group_in_arrival_order (sampleEnv sampleOpt 0) rfl sampleCert 1 1
    (fun _ => { name := [65] }) (fun _ _ => sampleSig 16)
    (sampleSys [Packet.public_cert sampleCert] 0)
    { c := CTX.clear { fname := [] },
      trace := [Event.stdout (Out.pub_line sampleCert), Event.stdout Out.no_user_id] }
    (by decide)

/-- C1 as stated fails: from a context whose open group is a one-pass group with
a bad signature, in batch mode, `add_public_cert` stops the process while it
flushes that group; no handler returns and the certificate opens no group. -/
theorem C1_flush_can_stop_the_process :
    (sampleEnv { sampleOpt with batch := true } 8).opt.list_packets = false ∧
    dispatch_all (sampleEnv { sampleOpt with batch := true } 8)
        (cert_packets sampleCert 0 0 (fun _ => { name := [] }) (fun _ _ => sampleSig 16))
        (sampleSys [Packet.onepass_sig sampleOnepass, Packet.signature (sampleSig 0)] 1) =
      Res.halt (Halt.g10_exit 1)
        { c := (sampleSys [Packet.onepass_sig sampleOnepass,
                  Packet.signature (sampleSig 0)] 1).c,
          trace := [Event.check_digest_algo 1 0,
            Event.signature_check (sampleSig 0) none 8,
            Event.write_status Status.STATUS_BADSIG,
            Event.log_error (Msg.bad_signature_from 0 7)] } := by
  decide

/-- After the flush inside `add_onepass_sig` the list is NULL, and the
`add_kbnode` that follows dereferences it: the handler does not return. -/
theorem add_onepass_sig_after_flush (E : Env) (pkt root : Packet)
    (rest : List Packet) (s : Sys) (hl : s.c.list = root :: rest)
    (hroot : root.pkttype ≠ PktType.PKT_ONEPASS_SIG) :
    (add_onepass_sig E pkt s).returned = false := by
  unfold add_onepass_sig
  simp only [bind_run, getc_run, hl, hroot, ne_eq, not_false_eq_true, if_true, emit_run]
  cases hr : release_list E
      { s with trace := s.trace ++ [Event.log_error Msg.another_packet_in_the_way] } with
  | halt h s1 => simp [Res.returned]
  | ret a s1 =>
    have h1 := release_list_ret E _ _ hr
    simp [add_to_list, h1, add_kbnode, Res.returned]

/-- C2, the code at the failing input: the open group is rooted at a public
certificate and a one-pass signature packet arrives.  The old group is flushed
(`proc_tree` lists it, the list is released), then `add_kbnode( c->list, .. )`
runs with `c->list == NULL`: the handler does not return 1 and no group holding
the packet is started.  The same happens when `proc_packets` reads the two
packets from a stream. -/
theorem C2_add_onepass_sig_null_list_after_flush :
    add_onepass_sig (sampleEnv sampleOpt 0) (Packet.onepass_sig sampleOnepass)
        (sampleSys [Packet.public_cert sampleCert] 0) =
      Res.halt Halt.null_deref
        { c := CTX.clear { fname := [] },
          trace := [Event.log_error Msg.another_packet_in_the_way,
            Event.stdout (Out.pub_line sampleCert), Event.stdout Out.no_user_id] } ∧
    proc_packets (sampleEnv sampleOpt 0) { fname := [] }
        [(0, Packet.public_cert sampleCert), (0, Packet.onepass_sig sampleOnepass)]
        (sampleSys [] 0) =
      Res.halt Halt.null_deref
        { c := CTX.clear { fname := [] },
          trace := [Event.log_error Msg.another_packet_in_the_way,
            Event.stdout (Out.pub_line sampleCert), Event.stdout Out.no_user_id] } := by
  decide

/-! ## Session key and encrypted data -/

theorem free_dek_run (s : Sys) :
    free_dek s = Res.ret ()
      { c := { s.c with dek := none },
        trace := s.trace ++ (match s.c.dek with
          | some d => [Event.m_free_dek d]
          | none => []) } := by
  unfold free_dek
  cases h : s.c.dek <;> simp [h]

theorem burn_dek_returns (pkt : Packet) (s : Sys) :
    ∃ s1, burn_dek pkt s = Res.ret () s1 ∧
      (pkt.pkttype ≠ PktType.PKT_ENCRYPTED → s1.c.dek = none) ∧
      (pkt.pkttype = PktType.PKT_ENCRYPTED → s1 = s) ∧
      (s.c.dek = none → s1 = s) ∧
      s1.c.list = s.c.list := by
  unfold burn_dek
  simp only [bind_run, getc_run]
  split_ifs with h
  · simp [free_dek_run, h.2]
    exact fun h1 => absurd h1 h.1
  · simp
    intro h1
    by_contra h2
    exact h ⟨h2, h1⟩

theorem proc_pubkey_enc_result_unsupported (E : Env) (enc : PKT_pubkey_enc)
    (h1 : enc.pubkey_algo ≠ E.PUBKEY_ALGO_ELGAMAL) (h2 : enc.pubkey_algo ≠ E.PUBKEY_ALGO_RSA)
    (s : Sys) : proc_pubkey_enc_result E enc s = Res.ret E.G10ERR_PUBKEY_ALGO s := by
  simp [proc_pubkey_enc_result, h1, h2]

theorem dispatch_pubkey_enc (E : Env) (enc : PKT_pubkey_enc) (s : Sys) :
    dispatch E (Packet.pubkey_enc enc) s = (do proc_pubkey_enc E enc; pure (-1)) s := by
  unfold dispatch
  split_ifs <;> rfl

theorem dispatch_encrypted (E : Env) (ed : PKT_encrypted) (s : Sys) :
    dispatch E (Packet.encrypted ed) s = (do proc_encrypted E ed; pure (-1)) s := by
  unfold dispatch
  split_ifs <;> rfl

theorem proc_encrypted_result_returns (E : Env) (ed : PKT_encrypted) (s : Sys) :
    ∃ r s1, proc_encrypted_result E ed s = Res.ret r s1 := by
  unfold proc_encrypted_result
  simp only [bind_run, getc_run]
  split_ifs <;> simp <;> split_ifs <;> simp

/-- C3: for every context and every encrypted-data packet `proc_encrypted`
returns, and in the context it leaves no DEK is pending (`c->dek == NULL`) and
`last_was_pubkey_enc` is 0, whichever branch was taken and whatever
`make_dek_from_passphrase` or `decrypt_data` returned. -/
theorem C3_proc_encrypted_leaves_no_dek (E : Env) (ed : PKT_encrypted) (s : Sys) :
    ∃ s1, proc_encrypted E ed s = Res.ret () s1 ∧ s1.c.dek = none ∧
      s1.c.last_was_pubkey_enc = 0 := by
  obtain ⟨r, s1, h1⟩ := proc_encrypted_result_returns E ed s
  unfold proc_encrypted
  simp only [bind_run, h1, free_dek_run]
  split_ifs <;> simp

/-- C4: in the main loop, from every context, a session-key packet whose
`pubkey_algo` is neither ElGamal nor RSA leaves no DEK pending (state `s1`) and
`result` is `G10ERR_PUBKEY_ALGO` without any call; if the next packet is
encrypted data, `proc_encrypted` computes `result = G10ERR_NO_SECKEY` without
changing the state, so without calling `make_dek_from_passphrase` or
`decrypt_data`: all it adds to the trace is the error line and the release of
the packet.  The code `G10ERR_NO_SECKEY` is taken to be non-zero. -/
theorem C4_unsupported_session_key_then_no_seckey (E : Env) (enc : PKT_pubkey_enc) (ed : PKT_encrypted)
    (rest : List (Int × Packet)) (s : Sys)
    (h1 : enc.pubkey_algo ≠ E.PUBKEY_ALGO_ELGAMAL) (h2 : enc.pubkey_algo ≠ E.PUBKEY_ALGO_RSA)
    (h3 : E.G10ERR_NO_SECKEY ≠ 0) :
    ∃ s1 s2 : Sys,
      proc_packets_loop E [(0, Packet.pubkey_enc enc)] s = Res.ret () s1 ∧
      s1.c.dek = none ∧
      (∀ s0, proc_pubkey_enc_result E enc s0 = Res.ret E.G10ERR_PUBKEY_ALGO s0) ∧
      proc_encrypted_result E ed s1 = Res.ret E.G10ERR_NO_SECKEY s1 ∧
      proc_encrypted E ed s1 = Res.ret () s2 ∧
      (∃ tail, s2.trace = s1.trace ++ tail ∧ ∀ e ∈ tail,
        e = Event.log_error (Msg.encryption_failed E.G10ERR_NO_SECKEY) ∨
        e = Event.free_packet (Packet.encrypted ed)) ∧
      proc_packets_loop E ((0, Packet.pubkey_enc enc) :: (0, Packet.encrypted ed) :: rest) s =
        proc_packets_loop E rest { s2 with c := { s2.c with have_data := 0 } } := by
  obtain ⟨sb, hb, hbd, -, -, -⟩ := burn_dek_returns (Packet.pubkey_enc enc) s
  have hbd := hbd (by simp [Packet.pkttype])
  have hres := proc_pubkey_enc_result_unsupported E enc h1 h2
  obtain ⟨sp, hp, hpc⟩ : ∃ sp, proc_pubkey_enc E enc sb = Res.ret () sp ∧
      sp.c = { sb.c with last_was_pubkey_enc := 1 } := by
    unfold proc_pubkey_enc
    simp only [bind_run, modc_run, hres]
    split_ifs <;> simp
  have hproc : process_packet E (Packet.pubkey_enc enc) sb =
      Res.ret () { sp with c := { sp.c with have_data := 0 } } := by
    simp [process_packet, dispatch_pubkey_enc, hp, Packet.pkttype]
  have hdek : ({ sp with c := { sp.c with have_data := 0 } } : Sys).c.dek = none := by
    simp [hpc, hbd]
  have hflag : ({ sp with c := { sp.c with have_data := 0 } } : Sys).c.last_was_pubkey_enc = 1 := by
    simp [hpc]
  generalize ({ sp with c := { sp.c with have_data := 0 } } : Sys) = s1 at hproc hdek hflag
  have hloop1 : ∀ tl, proc_packets_loop E ((0, Packet.pubkey_enc enc) :: tl) s =
      proc_packets_loop E tl s1 := by
    intro tl
    simp [proc_packets_loop, hb, hproc]
  have hres2 : proc_encrypted_result E ed s1 = Res.ret E.G10ERR_NO_SECKEY s1 := by
    simp [proc_encrypted_result, hdek, hflag, h3]
  obtain ⟨s2, he, htr⟩ : ∃ s2, proc_encrypted E ed s1 = Res.ret () s2 ∧
      ∃ tail, s2.trace = s1.trace ++ tail ∧ ∀ e ∈ tail,
        e = Event.log_error (Msg.encryption_failed E.G10ERR_NO_SECKEY) ∨
        e = Event.free_packet (Packet.encrypted ed) := by
    unfold proc_encrypted
    simp only [bind_run, hres2, free_dek_run, hdek]
    split_ifs with h4
    · exact ⟨_, rfl, [Event.free_packet (Packet.encrypted ed)], by simp, by simp⟩
    · exact ⟨_, rfl, [Event.log_error (Msg.encryption_failed E.G10ERR_NO_SECKEY),
        Event.free_packet (Packet.encrypted ed)], by simp, by simp⟩
  obtain ⟨sb2, hb2, -, hb2e, -, -⟩ := burn_dek_returns (Packet.encrypted ed) s1
  have hb2e := hb2e rfl
  subst hb2e
  refine ⟨sb2, s2, ?_, hdek, hres, hres2, he, htr, ?_⟩
  · simpa [proc_packets_loop] using hloop1 []
  · rw [hloop1]
    simp [proc_packets_loop, hb2, process_packet, dispatch_encrypted, he, Packet.pkttype]

/-- C4, an instance: algorithm 3 is neither RSA (1) nor ElGamal (16). -/
theorem C4_unsupported_session_key_then_no_seckey_witness :
    ((3 : Int) ≠ 16 ∧ (3 : Int) ≠ 1 ∧ (17 : Int) ≠ 0) ∧
    ∃ s1 s2 : Sys,
      proc_packets_loop (sampleEnv sampleOpt 0)
        [(0, Packet.pubkey_enc { keyid := 7, pubkey_algo := 3, data := [] })]
        (sampleSys [] 0) = Res.ret () s1 ∧
      s1.c.dek = none ∧
      (∀ s0, proc_pubkey_enc_result (sampleEnv sampleOpt 0)
        { keyid := 7, pubkey_algo := 3, data := [] } s0 =
          Res.ret (sampleEnv sampleOpt 0).G10ERR_PUBKEY_ALGO s0) ∧
      proc_encrypted_result (sampleEnv sampleOpt 0) { data := [1] } s1 =
        Res.ret (sampleEnv sampleOpt 0).G10ERR_NO_SECKEY s1 ∧
      proc_encrypted (sampleEnv sampleOpt 0) { data := [1] } s1 = Res.ret () s2 ∧
      (∃ tail, s2.trace = s1.trace ++ tail ∧ ∀ e ∈ tail,
        e = Event.log_error (Msg.encryption_failed (sampleEnv sampleOpt 0).G10ERR_NO_SECKEY) ∨
        e = Event.free_packet (Packet.encrypted { data := [1] })) ∧
      proc_packets_loop (sampleEnv sampleOpt 0)
          ((0, Packet.pubkey_enc { keyid := 7, pubkey_algo := 3, data := [] }) ::
            (0, Packet.encrypted { data := [1] }) :: []) (sampleSys [] 0) =
        proc_packets_loop (sampleEnv sampleOpt 0) []
          { s2 with c := { s2.c with have_data := 0 } } :=
  ⟨by decide, C4_unsupported_session_key_then_no_seckey (sampleEnv sampleOpt 0)
    { keyid := 7, pubkey_algo := 3, data := [] } { data := [1] } [] (sampleSys [] 0)
    (by decide) (by decide) (by decide)⟩

/-! ## Signature checking -/

theorem find_prev_scan_no_match (node : Nat) (t : PktType) :
    ∀ (l : List Packet) (i : Nat) (acc : Option Nat), i ≤ node →
      (∀ k, i ≤ k → k < node → ∀ q, l[k - i]? = some q → q.pkttype ≠ t) →
      find_prev_scan node t i l acc = acc := by
  intro l
  induction l with
  | nil => intro i acc _ _; rfl
  | cons x rest ih =>
    intro i acc hle h
    unfold find_prev_scan
    by_cases hi : i = node
    · simp [hi]
    · simp only [hi, if_false]
      have hlt : i < node := by omega
      have hx : x.pkttype ≠ t := h i (le_refl i) hlt x (by simp)
      simp only [hx, if_false]
      apply ih (i + 1) acc (by omega)
      intro k hk hkn q hq
      apply h k (by omega) hkn q
      have : k - i = (k - (i + 1)) + 1 := by omega
      rw [this]; simpa using hq

theorem find_prev_scan_match (node : Nat) (t : PktType) (j : Nat) (p : Packet)
    (hp : p.pkttype = t) (hj : j < node) :
    ∀ (l : List Packet) (i : Nat) (acc : Option Nat), i ≤ j →
      l[j - i]? = some p →
      (∀ k, j < k → k < node → ∀ q, l[k - i]? = some q → q.pkttype ≠ t) →
      find_prev_scan node t i l acc = some j := by
  intro l
  induction l with
  | nil => intro i acc _ h _; simp at h
  | cons x rest ih =>
    intro i acc hle hjp h
    unfold find_prev_scan
    have hi : i ≠ node := by omega
    simp only [hi, if_false]
    by_cases hij : i = j
    · subst hij
      simp at hjp
      subst hjp
      simp only [hp, if_true]
      apply find_prev_scan_no_match node _ rest (i + 1) (some i) (by omega)
      intro k hk hkn q hq
      apply h k (by omega) hkn q
      have : k - i = (k - (i + 1)) + 1 := by omega
      rw [this]; simpa using hq
    · apply ih (i + 1) _ (by omega)
      · have : j - i = (j - (i + 1)) + 1 := by omega
        rw [this] at hjp; simpa using hjp
      · intro k hk hkn q hq
        apply h k hk hkn q
        have : k - i = (k - (i + 1)) + 1 := by omega
        rw [this]; simpa using hq

theorem find_prev_kbnode_none (root : List Packet) (node : Nat) (t : PktType)
    (h : ∀ k, k < node → ∀ q, root[k]? = some q → q.pkttype ≠ t) :
    find_prev_kbnode root node t = none :=
  find_prev_scan_no_match node t root 0 none (Nat.zero_le _)
    (fun k _ hk q hq => h k hk q (by simpa using hq))

theorem find_prev_kbnode_some (root : List Packet) (node : Nat) (t : PktType) (j : Nat)
    (p : Packet) (hj : j < node) (hjp : root[j]? = some p) (hp : p.pkttype = t)
    (h : ∀ k, j < k → k < node → ∀ q, root[k]? = some q → q.pkttype ≠ t) :
    find_prev_kbnode root node t = some j :=
  find_prev_scan_match node t j p hp hj root 0 none (Nat.zero_le _) (by simpa using hjp)
    (fun k hk hkn q hq => h k hk hkn q (by simpa using hq))

theorem do_check_sig_keysig_reached (E : Env) (node : Nat) (sig : PKT_signature) (s : Sys)
    (hnode : s.c.list[node]? = some (Packet.signature sig))
    (hclass : 0x10 ≤ sig.sig_class ∧ sig.sig_class ≤ 0x13)
    (halgo : sig.pubkey_algo = E.PUBKEY_ALGO_ELGAMAL ∨ sig.pubkey_algo = E.PUBKEY_ALGO_RSA)
    (hdig : E.check_digest_algo s.trace (resolved_algo E sig) = 0) :
    do_check_sig E node s = do_check_sig_keysig E node sig
      { s with trace := s.trace ++ [Event.check_digest_algo (resolved_algo E sig) 0] } := by
  have h0 : sig.sig_class ≠ 0 := by omega
  have h1 : sig.sig_class ≠ 1 := by omega
  have h2 : and_not_3 sig.sig_class = 16 := by unfold and_not_3; omega
  by_cases he : sig.pubkey_algo = E.PUBKEY_ALGO_ELGAMAL
  · have hres : resolved_algo E sig = sig.elg_digest_algo := by simp [resolved_algo, he]
    rw [hres] at hdig ⊢
    unfold do_check_sig
    simp only [bind_run, getc_run, hnode]
    simp [do_check_sig_class, hdig, h0, h1, h2, he]
  · have hr : sig.pubkey_algo = E.PUBKEY_ALGO_RSA := by tauto
    have hres : resolved_algo E sig = sig.rsa_digest_algo := by simp [resolved_algo, he]
    rw [hres] at hdig ⊢
    unfold do_check_sig
    simp only [bind_run, getc_run, hnode]
    rw [if_neg he, if_pos hr]
    simp [do_check_sig_class, hdig, h0, h1, h2]


/-- C5 (as amended): for a signature node of class 0x10..0x13 whose public-key
algorithm is RSA or ElGamal and whose digest algorithm passes
`check_digest_algo`, `do_check_sig` returns `G10ERR_SIG_CLASS` without calling
`signature_check` if the root of the group is not a public certificate or if no
user id node precedes the node; otherwise, if the certificate carries a digest
state, it calls `signature_check` exactly once, with a copy of that state
extended by the name of the nearest preceding user id, and returns the result
of the call; if the certificate carries no digest state it stops at `BUG()`
without calling `signature_check`. -/
theorem C5_key_signature_check (E : Env) (node : Nat) (sig : PKT_signature) (s : Sys)
    (hnode : s.c.list[node]? = some (Packet.signature sig))
    (hclass : 0x10 ≤ sig.sig_class ∧ sig.sig_class ≤ 0x13)
    (halgo : sig.pubkey_algo = E.PUBKEY_ALGO_ELGAMAL ∨ sig.pubkey_algo = E.PUBKEY_ALGO_RSA)
    (hdig : E.check_digest_algo s.trace (resolved_algo E sig) = 0) :
    ((∀ pkc, s.c.list.head? ≠ some (Packet.public_cert pkc)) →
      do_check_sig E node s = Res.ret E.G10ERR_SIG_CLASS
        { s with trace := s.trace ++ [Event.check_digest_algo (resolved_algo E sig) 0,
            Event.log_error Msg.invalid_root_packet_for_sigclass_0x10] }) ∧
    (∀ pkc, s.c.list.head? = some (Packet.public_cert pkc) →
      (∀ k, k < node → ∀ q, s.c.list[k]? = some q → q.pkttype ≠ PktType.PKT_USER_ID) →
      do_check_sig E node s = Res.ret E.G10ERR_SIG_CLASS
        { s with trace := s.trace ++ [Event.check_digest_algo (resolved_algo E sig) 0,
            Event.log_error Msg.invalid_parent_packet_for_sigclass_0x10] }) ∧
    (∀ pkc j uid, s.c.list.head? = some (Packet.public_cert pkc) →
      j < node → s.c.list[j]? = some (Packet.user_id uid) →
      (∀ k, j < k → k < node → ∀ q, s.c.list[k]? = some q → q.pkttype ≠ PktType.PKT_USER_ID) →
      (∀ m, pkc.mfx_md = some m →
        do_check_sig E node s =
          Res.ret
            (E.signature_check
              (s.trace ++ [Event.check_digest_algo (resolved_algo E sig) 0]) sig
              (some (md_write (md_copy m) uid.name)))
            { s with trace := s.trace ++ [Event.check_digest_algo (resolved_algo E sig) 0,
                Event.signature_check sig (some (md_write (md_copy m) uid.name))
                  (E.signature_check
                    (s.trace ++ [Event.check_digest_algo (resolved_algo E sig) 0]) sig
                    (some (md_write (md_copy m) uid.name)))] }) ∧
      (pkc.mfx_md = none →
        do_check_sig E node s = Res.halt Halt.BUG
          { s with trace := s.trace ++ [Event.check_digest_algo (resolved_algo E sig) 0] })) := by
  rw [do_check_sig_keysig_reached E node sig s hnode hclass halgo hdig]
  refine ⟨?_, ?_, ?_⟩
  · intro hroot
    unfold do_check_sig_keysig
    cases hl : s.c.list with
    | nil => simp [hl] at hnode
    | cons p rest =>
      cases p with
      | public_cert pkc => exact absurd (by simp [hl]) (hroot pkc)
      | _ => simp [hl]
  · intro pkc hroot hno
    have hf := find_prev_kbnode_none s.c.list node PktType.PKT_USER_ID hno
    unfold do_check_sig_keysig
    cases hl : s.c.list with
    | nil => simp [hl] at hnode
    | cons p rest =>
      simp only [hl, List.head?_cons, Option.some.injEq] at hroot
      subst hroot
      rw [hl] at hf
      simp [hl, hf]
  · intro pkc j uid hroot hj hju hnear
    have hf := find_prev_kbnode_some s.c.list node PktType.PKT_USER_ID j _ hj hju rfl hnear
    unfold do_check_sig_keysig
    cases hl : s.c.list with
    | nil => simp [hl] at hnode
    | cons p rest =>
      simp only [hl, List.head?_cons, Option.some.injEq] at hroot
      subst hroot
      rw [hl] at hf hju
      constructor
      · intro m hm
        simp [hl, hf, hm, hju, do_check_sig_finish]
      · intro hm
        simp [hl, hf, hm]

/-- C5, an instance: certificate, user id `A`, signature of class 0x10. -/
theorem C5_key_signature_check_witness :
    do_check_sig (sampleEnv sampleOpt 0) 2
        (sampleSys [Packet.public_cert sampleCert, Packet.user_id { name := [65] },
          Packet.signature (sampleSig 0x10)] 0) =
      Res.ret 0
        { c := (sampleSys [Packet.public_cert sampleCert, Packet.user_id { name := [65] },
            Packet.signature (sampleSig 0x10)] 0).c,
          trace := [Event.check_digest_algo 1 0,
            Event.signature_check (sampleSig 0x10)
              (some (md_write (md_copy (md_open 1 0)) [65])) 0] } :=
  ((C5_key_signature_check (sampleEnv sampleOpt 0) 2 (sampleSig 0x10)
    (sampleSys [Packet.public_cert sampleCert, Packet.user_id { name := [65] },
      Packet.signature (sampleSig 0x10)] 0)
    rfl (by decide) (Or.inr rfl) rfl).2.2 sampleCert 1 { name := [65] } rfl (by decide) rfl
    (by intro k h1 h2; omega)).1 (md_open 1 0) rfl

/-- C5 as stated fails: the root is a public certificate, a user id precedes the
signature of class 0x10, the algorithms pass, but the certificate carries no
digest state: `do_check_sig` stops at `BUG()`; `signature_check` is not
called and nothing is returned. -/
theorem C5_certificate_without_digest_state :
    do_check_sig (sampleEnv sampleOpt 0) 2
        (sampleSys [Packet.public_cert { sampleCert with mfx_md := none },
          Packet.user_id { name := [65] }, Packet.signature (sampleSig 0x10)] 0) =
      Res.halt Halt.BUG
        { c := (sampleSys [Packet.public_cert { sampleCert with mfx_md := none },
            Packet.user_id { name := [65] }, Packet.signature (sampleSig 0x10)] 0).c,
          trace := [Event.check_digest_algo 1 0] } := by
  decide

/-- C6 (as amended): for a signature node whose class is none of 0x00, 0x01,
0x10..0x13, `do_check_sig` never calls `signature_check`.  The algorithms are
looked at before the class: it returns `G10ERR_PUBKEY_ALGO` (and has done
nothing) if the public-key algorithm is neither ElGamal nor RSA; otherwise it
calls `check_digest_algo` and returns its result if that is non-zero, and
`G10ERR_SIG_CLASS` if it is zero. -/
theorem C6_unsupported_class (E : Env) (node : Nat) (sig : PKT_signature) (s : Sys)
    (hnode : s.c.list[node]? = some (Packet.signature sig))
    (hclass : sig.sig_class ≠ 0x00 ∧ sig.sig_class ≠ 0x01 ∧
      ¬ (0x10 ≤ sig.sig_class ∧ sig.sig_class ≤ 0x13)) :
    ((sig.pubkey_algo ≠ E.PUBKEY_ALGO_ELGAMAL ∧ sig.pubkey_algo ≠ E.PUBKEY_ALGO_RSA) →
      do_check_sig E node s = Res.ret E.G10ERR_PUBKEY_ALGO s) ∧
    ((sig.pubkey_algo = E.PUBKEY_ALGO_ELGAMAL ∨ sig.pubkey_algo = E.PUBKEY_ALGO_RSA) →
      do_check_sig E node s =
        Res.ret
          (if E.check_digest_algo s.trace (resolved_algo E sig) ≠ 0
            then E.check_digest_algo s.trace (resolved_algo E sig)
            else E.G10ERR_SIG_CLASS)
          { s with trace := s.trace ++ [Event.check_digest_algo (resolved_algo E sig)
              (E.check_digest_algo s.trace (resolved_algo E sig))] }) := by
  obtain ⟨h0, h1, h2⟩ := hclass
  have h3 : and_not_3 sig.sig_class ≠ 16 := by unfold and_not_3; omega
  constructor
  · rintro ⟨he, hr⟩
    unfold do_check_sig
    simp [hnode, he, hr]
  · intro halgo
    by_cases he : sig.pubkey_algo = E.PUBKEY_ALGO_ELGAMAL
    · have hres : resolved_algo E sig = sig.elg_digest_algo := by simp [resolved_algo, he]
      rw [hres]
      unfold do_check_sig
      simp only [bind_run, getc_run, hnode]
      rw [if_pos he]
      unfold do_check_sig_class
      simp only [bind_run, call_run, getc_run]
      split_ifs <;> simp_all
    · have hr : sig.pubkey_algo = E.PUBKEY_ALGO_RSA := by tauto
      have hres : resolved_algo E sig = sig.rsa_digest_algo := by simp [resolved_algo, he]
      rw [hres]
      unfold do_check_sig
      simp only [bind_run, getc_run, hnode]
      rw [if_neg he, if_pos hr]
      unfold do_check_sig_class
      simp only [bind_run, call_run, getc_run]
      split_ifs <;> simp_all

/-- C6, an instance: class 0x20 with RSA and an accepted digest algorithm is
rejected with `G10ERR_SIG_CLASS`. -/
theorem C6_unsupported_class_witness :
    do_check_sig (sampleEnv sampleOpt 0) 0 (sampleSys [Packet.signature (sampleSig 0x20)] 0) =
      Res.ret 29
        { c := (sampleSys [Packet.signature (sampleSig 0x20)] 0).c,
          trace := [Event.check_digest_algo 1 0] } :=
  (C6_unsupported_class (sampleEnv sampleOpt 0) 0 (sampleSig 0x20)
    (sampleSys [Packet.signature (sampleSig 0x20)] 0) rfl (by decide)).2 (Or.inr rfl)

/-- C6 as stated fails: a signature of class 0x20 whose public-key algorithm is
unknown is answered with `G10ERR_PUBKEY_ALGO`, and one whose digest algorithm
`check_digest_algo` rejects (here with code 5) with that code, not with
`G10ERR_SIG_CLASS`. -/
theorem C6_algorithm_errors_come_first :
    do_check_sig (sampleEnv sampleOpt 0) 0
        (sampleSys [Packet.signature { sampleSig 0x20 with pubkey_algo := 3 }] 0) =
      Res.ret (sampleEnv sampleOpt 0).G10ERR_PUBKEY_ALGO
        (sampleSys [Packet.signature { sampleSig 0x20 with pubkey_algo := 3 }] 0) ∧
    (sampleEnv sampleOpt 0).G10ERR_PUBKEY_ALGO ≠ (sampleEnv sampleOpt 0).G10ERR_SIG_CLASS ∧
    (do_check_sig { sampleEnv sampleOpt 0 with check_digest_algo := fun _ _ => 5 } 0
        (sampleSys [Packet.signature (sampleSig 0x20)] 0) =
      Res.ret 5
        { c := (sampleSys [Packet.signature (sampleSig 0x20)] 0).c,
          trace := [Event.check_digest_algo 1 5] }) ∧
    (5 : Int) ≠ (sampleEnv sampleOpt 0).G10ERR_SIG_CLASS := by
  decide

theorem do_check_sig_finish_frame (E : Env) (sig : PKT_signature) (md : Option MD) (s : Sys) :
    (do_check_sig_finish E sig md s).sys.c = s.c ∧
      count_status (do_check_sig_finish E sig md s).sys.trace = count_status s.trace := by
  simp [do_check_sig_finish, Res.sys, count_status, List.countP_append, Event.is_status]

theorem do_check_sig_keysig_frame (E : Env) (node : Nat) (sig : PKT_signature) (s : Sys) :
    (do_check_sig_keysig E node sig s).sys.c = s.c ∧
      count_status (do_check_sig_keysig E node sig s).sys.trace = count_status s.trace := by
  unfold do_check_sig_keysig
  simp only [bind_run, getc_run]
  cases hl : s.c.list with
  | nil => simp [Res.sys]
  | cons p rest =>
    cases p with
    | public_cert pkc =>
      simp only []
      cases hf : find_prev_kbnode (Packet.public_cert pkc :: rest) node PktType.PKT_USER_ID with
      | none => simp [Res.sys, count_status, List.countP_append, Event.is_status]
      | some n1 =>
        simp only []
        cases hm : pkc.mfx_md with
        | none => simp [Res.sys]
        | some m =>
          simp only []
          cases hn : (Packet.public_cert pkc :: rest)[n1]? with
          | none => simp [Res.sys]
          | some q =>
            cases q with
            | user_id uid => exact do_check_sig_finish_frame E sig _ s
            | _ => simp [Res.sys]
    | _ => simp [Res.sys, count_status, List.countP_append, Event.is_status]

theorem do_check_sig_class_frame (E : Env) (node : Nat) (sig : PKT_signature) (algo : Int)
    (s : Sys) :
    (do_check_sig_class E node sig algo s).sys.c = s.c ∧
      count_status (do_check_sig_class E node sig algo s).sys.trace = count_status s.trace := by
  have hs : count_status (s.trace ++ [Event.check_digest_algo algo (E.check_digest_algo s.trace algo)])
      = count_status s.trace := by
    simp [count_status, List.countP_append, Event.is_status]
  unfold do_check_sig_class
  simp only [bind_run, call_run, getc_run]
  split_ifs
  · simpa [Res.sys] using hs
  · have := do_check_sig_finish_frame E sig (Option.map md_copy s.c.mfx_md)
      { s with trace := s.trace ++ [Event.check_digest_algo algo (E.check_digest_algo s.trace algo)] }
    simpa [hs] using this
  · have := do_check_sig_finish_frame E sig (Option.map md_copy s.c.mfx_md)
      { s with trace := s.trace ++ [Event.check_digest_algo algo (E.check_digest_algo s.trace algo)] }
    simpa [hs] using this
  · have := do_check_sig_keysig_frame E node sig
      { s with trace := s.trace ++ [Event.check_digest_algo algo (E.check_digest_algo s.trace algo)] }
    simpa [hs] using this
  · simpa [Res.sys] using hs

theorem do_check_sig_frame (E : Env) (node : Nat) (s : Sys) :
    (do_check_sig E node s).sys.c = s.c ∧
      count_status (do_check_sig E node s).sys.trace = count_status s.trace := by
  unfold do_check_sig
  simp only [bind_run, getc_run]
  cases hl : s.c.list[node]? with
  | none => simp [Res.sys]
  | some p =>
    cases p with
    | signature sig =>
      simp only []
      split_ifs
      · exact do_check_sig_class_frame E node _ _ s
      · exact do_check_sig_class_frame E node _ _ s
      · simp [Res.sys]
    | _ => simp [Res.sys]

theorem do_check_sig_ret_signature (E : Env) (node : Nat) (s s1 : Sys) (rc : Int)
    (h : do_check_sig E node s = Res.ret rc s1) :
    ∃ sig, s.c.list[node]? = some (Packet.signature sig) := by
  unfold do_check_sig at h
  simp only [bind_run, getc_run] at h
  cases hl : s.c.list[node]? with
  | none => simp [hl] at h
  | some p =>
    cases p with
    | signature sig => exact ⟨sig, rfl⟩
    | _ => simp [hl] at h

/-- C7: whenever `do_check_sig` returns `rc`, `check_sig_and_print` adds to
the trace exactly one `write_status` call, followed by one log line:
`STATUS_GOODSIG` iff `rc = 0`, `STATUS_BADSIG` iff `rc = G10ERR_BAD_SIGN`,
`STATUS_ERRSIG` for every other `rc`; it ends the process with `g10_exit(1)`
iff `rc = G10ERR_BAD_SIGN` and batch mode is on, and otherwise returns `rc`.
`G10ERR_BAD_SIGN` is non-zero (it is a `case` label next to `case 0` in
`list_node`). -/
theorem C7_one_status_event_per_check (E : Env) (node : Nat) (s s1 : Sys) (rc : Int)
    (hbad : E.G10ERR_BAD_SIGN ≠ 0)
    (hrc : do_check_sig E node s = Res.ret rc s1) :
    ∃ st msg,
      (check_sig_and_print E node s).sys =
        { s1 with trace := s1.trace ++ [Event.write_status st, msg] } ∧
      msg.is_status = false ∧
      count_status (check_sig_and_print E node s).sys.trace = count_status s.trace + 1 ∧
      (st = Status.STATUS_GOODSIG ↔ rc = 0) ∧
      (st = Status.STATUS_BADSIG ↔ rc = E.G10ERR_BAD_SIGN) ∧
      (st = Status.STATUS_ERRSIG ↔ (rc ≠ 0 ∧ rc ≠ E.G10ERR_BAD_SIGN)) ∧
      (check_sig_and_print E node s =
          Res.halt (Halt.g10_exit 1) (check_sig_and_print E node s).sys ↔
        (rc = E.G10ERR_BAD_SIGN ∧ E.opt.batch = true)) ∧
      (¬ (rc = E.G10ERR_BAD_SIGN ∧ E.opt.batch = true) →
        check_sig_and_print E node s = Res.ret rc (check_sig_and_print E node s).sys) := by
  obtain ⟨sig, hsig⟩ := do_check_sig_ret_signature E node s s1 rc hrc
  have hfr := (do_check_sig_frame E node s).2
  rw [hrc] at hfr
  simp only [Res.sys] at hfr
  unfold check_sig_and_print
  simp only [bind_run, getc_run, hrc, hsig]
  by_cases h0 : rc = 0
  · subst h0
    refine ⟨Status.STATUS_GOODSIG, Event.log_info (Msg.good_signature_from sig.keyid0 sig.keyid1), ?_⟩
    simp [Res.sys, count_status, List.countP_append, Event.is_status, hbad.symm]
    simpa [count_status] using hfr
  · by_cases hb : rc = E.G10ERR_BAD_SIGN
    · subst hb
      refine ⟨Status.STATUS_BADSIG, Event.log_error (Msg.bad_signature_from sig.keyid0 sig.keyid1), ?_⟩
      cases hbatch : E.opt.batch <;>
        simp [Res.sys, count_status, List.countP_append, Event.is_status, hbad, hbatch] <;>
        simpa [count_status] using hfr
    · refine ⟨Status.STATUS_ERRSIG, Event.log_error (Msg.cant_check_signature_made_by sig.keyid1 rc), ?_⟩
      simp [Res.sys, count_status, List.countP_append, Event.is_status, h0, hb]
      simpa [count_status] using hfr

/-- C7, an instance: a bad signature in interactive mode is reported and
returned. -/
theorem C7_one_status_event_per_check_witness :
    ((8 : Int) ≠ 0) ∧
    ∃ st msg,
      (check_sig_and_print (sampleEnv sampleOpt 8) 1
        (sampleSys [Packet.onepass_sig sampleOnepass, Packet.signature (sampleSig 0)] 1)).sys =
        { c := (sampleSys [Packet.onepass_sig sampleOnepass,
            Packet.signature (sampleSig 0)] 1).c,
          trace := [Event.check_digest_algo 1 0, Event.signature_check (sampleSig 0) none 8] ++
            [Event.write_status st, msg] } ∧
      msg.is_status = false ∧
      count_status (check_sig_and_print (sampleEnv sampleOpt 8) 1
        (sampleSys [Packet.onepass_sig sampleOnepass,
          Packet.signature (sampleSig 0)] 1)).sys.trace =
        count_status (sampleSys [Packet.onepass_sig sampleOnepass,
          Packet.signature (sampleSig 0)] 1).trace + 1 ∧
      (st = Status.STATUS_GOODSIG ↔ (8 : Int) = 0) ∧
      (st = Status.STATUS_BADSIG ↔ (8 : Int) = (sampleEnv sampleOpt 8).G10ERR_BAD_SIGN) ∧
      (st = Status.STATUS_ERRSIG ↔
        ((8 : Int) ≠ 0 ∧ (8 : Int) ≠ (sampleEnv sampleOpt 8).G10ERR_BAD_SIGN)) ∧
      (check_sig_and_print (sampleEnv sampleOpt 8) 1
          (sampleSys [Packet.onepass_sig sampleOnepass, Packet.signature (sampleSig 0)] 1) =
          Res.halt (Halt.g10_exit 1) (check_sig_and_print (sampleEnv sampleOpt 8) 1
            (sampleSys [Packet.onepass_sig sampleOnepass,
              Packet.signature (sampleSig 0)] 1)).sys ↔
        ((8 : Int) = (sampleEnv sampleOpt 8).G10ERR_BAD_SIGN ∧
          (sampleEnv sampleOpt 8).opt.batch = true)) ∧
      (¬ ((8 : Int) = (sampleEnv sampleOpt 8).G10ERR_BAD_SIGN ∧
          (sampleEnv sampleOpt 8).opt.batch = true) →
        check_sig_and_print (sampleEnv sampleOpt 8) 1
          (sampleSys [Packet.onepass_sig sampleOnepass, Packet.signature (sampleSig 0)] 1) =
          Res.ret 8 (check_sig_and_print (sampleEnv sampleOpt 8) 1
            (sampleSys [Packet.onepass_sig sampleOnepass,
              Packet.signature (sampleSig 0)] 1)).sys) :=
  ⟨by decide, C7_one_status_event_per_check (sampleEnv sampleOpt 8) 1
    (sampleSys [Packet.onepass_sig sampleOnepass, Packet.signature (sampleSig 0)] 1)
    { c := (sampleSys [Packet.onepass_sig sampleOnepass, Packet.signature (sampleSig 0)] 1).c,
      trace := [Event.check_digest_algo 1 0, Event.signature_check (sampleSig 0) none 8] }
    8 (by decide) (by decide)⟩

/-! ## Finalizing a one-pass group -/

theorem find_from_signature (l : List Packet) :
    ∀ i, (find_from PktType.PKT_SIGNATURE i l = none ∧ sig_nodes_from i l = []) ∨
      ∃ n sig, find_from PktType.PKT_SIGNATURE i l = some n ∧ i ≤ n ∧
        l[n - i]? = some (Packet.signature sig) ∧
        sig_nodes_from i l = (n, sig) :: sig_nodes_from (n + 1) (l.drop (n + 1 - i)) := by
  induction l with
  | nil => intro i; left; simp [find_from, sig_nodes_from]
  | cons p rest ih =>
    intro i
    by_cases hp : p.pkttype = PktType.PKT_SIGNATURE
    · right
      cases p <;> simp [Packet.pkttype] at hp
      rename_i sig
      refine ⟨i, sig, by simp [find_from, Packet.pkttype], le_refl _, by simp, ?_⟩
      simp [sig_nodes_from]
    · have hs : sig_nodes_from i (p :: rest) = sig_nodes_from (i + 1) rest := by
        cases p <;> simp [Packet.pkttype] at hp <;> simp [sig_nodes_from]
      have hf : find_from PktType.PKT_SIGNATURE i (p :: rest) =
          find_from PktType.PKT_SIGNATURE (i + 1) rest := by
        simp [find_from, hp]
      rw [hs, hf]
      rcases ih (i + 1) with h | ⟨n, sig, h1, h2, h3, h4⟩
      · left; exact h
      · right
        refine ⟨n, sig, h1, by omega, ?_, ?_⟩
        · have : n - i = (n - (i + 1)) + 1 := by omega
          rw [this]; simpa using h3
        · have : n + 1 - i = (n + 1 - (i + 1)) + 1 := by omega
          rw [this]; simpa using h4

theorem find_next_signature (l : List Packet) (n1 : Nat) :
    (find_next_kbnode l n1 PktType.PKT_SIGNATURE = none ∧
        sig_nodes_from (n1 + 1) (l.drop (n1 + 1)) = []) ∨
      ∃ n sig, find_next_kbnode l n1 PktType.PKT_SIGNATURE = some n ∧ n1 < n ∧
        l[n]? = some (Packet.signature sig) ∧
        sig_nodes_from (n1 + 1) (l.drop (n1 + 1)) =
          (n, sig) :: sig_nodes_from (n + 1) (l.drop (n + 1)) := by
  unfold find_next_kbnode
  rcases find_from_signature (l.drop (n1 + 1)) (n1 + 1) with h | ⟨n, sig, h1, h2, h3, h4⟩
  · left; exact h
  · right
    refine ⟨n, sig, h1, by omega, ?_, ?_⟩
    · rw [List.getElem?_drop] at h3
      have : n1 + 1 + (n - (n1 + 1)) = n := by omega
      rwa [this] at h3
    · rw [h4, List.drop_drop]
      have : n1 + 1 + (n + 1 - (n1 + 1)) = n + 1 := by omega
      rw [this]

theorem sig_nodes_from_nil_of_length_le (l : List Packet) (n : Nat) (h : l.length ≤ n) (i : Nat) :
    sig_nodes_from i (l.drop n) = [] := by
  rw [List.drop_eq_nil_of_le h]; rfl


theorem check_sig_and_print_c (E : Env) (node : Nat) (s : Sys) :
    (check_sig_and_print E node s).sys.c = s.c := by
  have hf := (do_check_sig_frame E node s).1
  unfold check_sig_and_print
  simp only [bind_run, getc_run]
  cases hd : do_check_sig E node s with
  | halt h s1 => rw [hd] at hf; simpa [Res.sys] using hf
  | ret rc s1 =>
    rw [hd] at hf
    simp only [Res.sys] at hf
    simp only []
    cases hn : s.c.list[node]? with
    | none => simpa [Res.sys] using hf
    | some p =>
      cases p with
      | signature sig =>
        simp only []
        split_ifs <;> simpa [Res.sys] using hf
      | _ => simpa [Res.sys] using hf

theorem proc_tree_check_eq (E : Env) :
    ∀ (fuel n1 : Nat) (s : Sys), s.c.list.length ≤ fuel + n1 →
      proc_tree_check E fuel n1 s =
        check_each E (sig_nodes_from (n1 + 1) (s.c.list.drop (n1 + 1))) s := by
  intro fuel
  induction fuel with
  | zero =>
    intro n1 s h
    rw [sig_nodes_from_nil_of_length_le _ _ (by omega)]
    rfl
  | succ fuel ih =>
    intro n1 s h
    unfold proc_tree_check
    simp only [bind_run, getc_run]
    rcases find_next_signature s.c.list n1 with ⟨h1, h2⟩ | ⟨n, sig, h1, h2, h3, h4⟩
    · rw [h1, h2]; rfl
    · rw [h1, h4]
      simp only [check_each, bind_run]
      have hc := check_sig_and_print_c E n s
      cases hr : check_sig_and_print E n s with
      | halt h s1 => rfl
      | ret rc s1 =>
        rw [hr] at hc
        simp only [Res.sys] at hc
        simp only []
        rw [ih n s1 (by rw [hc]; omega), hc]


theorem foldl_md_enable_algos (as : List Int) : ∀ m : MD,
    (List.foldl md_enable m as).algos = m.algos ++ as := by
  induction as with
  | nil => intro m; simp
  | cons a as ih => intro m; simp [ih, md_enable]

theorem proc_tree_enable_eq (E : Env) :
    ∀ (fuel n1 : Nat) (s : Sys), s.c.list.length ≤ fuel + n1 →
      proc_tree_enable E fuel n1 s =
        Res.ret () { s with c := { s.c with mfx_md := (Option.map
          (fun m => List.foldl md_enable m
            ((sig_nodes_from (n1 + 1) (s.c.list.drop (n1 + 1))).map
              (fun nd => E.digest_algo_from_sig nd.2))) s.c.mfx_md) } } := by
  intro fuel
  induction fuel with
  | zero =>
    intro n1 s h
    rw [sig_nodes_from_nil_of_length_le _ _ (by omega)]
    simp [proc_tree_enable]
  | succ fuel ih =>
    intro n1 s h
    unfold proc_tree_enable
    simp only [bind_run, getc_run]
    rcases find_next_signature s.c.list n1 with ⟨h1, h2⟩ | ⟨n, sig, h1, h2, h3, h4⟩
    · rw [h1, h2]; simp
    · rw [h1, h4]
      simp only [h3, bind_run, modc_run]
      rw [ih n _ (by simp only []; omega)]
      cases hm : s.c.mfx_md <;> simp

theorem check_sig_and_print_count (E : Env) (node : Nat) (s s1 : Sys) (rc : Int)
    (h : check_sig_and_print E node s = Res.ret rc s1) :
    count_status s1.trace = count_status s.trace + 1 := by
  have hf := (do_check_sig_frame E node s).2
  unfold check_sig_and_print at h
  simp only [bind_run, getc_run] at h
  cases hd : do_check_sig E node s with
  | halt x s2 => simp [hd] at h
  | ret rc2 s2 =>
    rw [hd] at hf h
    simp only [Res.sys] at hf
    simp only [] at h
    cases hn : s.c.list[node]? with
    | none => simp [hn] at h
    | some p =>
      cases p with
      | signature sig =>
        simp only [hn] at h
        split_ifs at h <;> simp at h <;> obtain ⟨-, rfl⟩ := h <;>
          simp [count_status, List.countP_append, Event.is_status] <;>
          simpa [count_status] using hf
      | _ => simp [hn] at h

theorem check_each_count (E : Env) : ∀ (nodes : List (Nat × PKT_signature)) (s s1 : Sys),
    check_each E nodes s = Res.ret () s1 →
    count_status s1.trace = count_status s.trace + nodes.length := by
  intro nodes
  induction nodes with
  | nil =>
    intro s s1 h
    simp [check_each] at h
    simp [h]
  | cons nd rest ih =>
    intro s s1 h
    simp only [check_each, bind_run] at h
    cases hr : check_sig_and_print E nd.1 s with
    | halt x s2 => simp [hr] at h
    | ret rc s2 =>
      rw [hr] at h
      simp only [] at h
      have h1 := check_sig_and_print_count E nd.1 s s2 rc hr
      have h2 := ih s2 s1 h
      simp only [List.length_cons]
      omega

theorem sig_nodes_from_mem (l : List Packet) : ∀ (i n : Nat) (sig : PKT_signature),
    (n, sig) ∈ sig_nodes_from i l ↔ i ≤ n ∧ l[n - i]? = some (Packet.signature sig) := by
  induction l with
  | nil => intro i n sig; simp [sig_nodes_from]
  | cons p rest ih =>
    intro i n sig
    have hstep : ∀ m, i + 1 ≤ m → (p :: rest)[m - i]? = rest[m - (i + 1)]? := by
      intro m hm
      have : m - i = (m - (i + 1)) + 1 := by omega
      rw [this]; simp
    have hmem := ih (i + 1) n sig
    by_cases hni : n = i
    · subst hni
      have h1 : ¬ n + 1 ≤ n := by omega
      cases p <;> simp [sig_nodes_from, hmem, h1]
      exact eq_comm
    · by_cases hlt : n < i
      · have h1 : ¬ i + 1 ≤ n := by omega
        have h2 : ¬ i ≤ n := by omega
        cases p <;> simp [sig_nodes_from, hmem, h1, h2, hni]
      · have hge : i + 1 ≤ n := by omega
        have h2 : i ≤ n := by omega
        rw [hstep n hge]
        cases p <;> simp [sig_nodes_from, hmem, hni, hge, h2]

theorem sig_nodes_from_sorted (l : List Packet) : ∀ i : Nat,
    List.Pairwise (fun a b => a.1 < b.1) (sig_nodes_from i l) := by
  induction l with
  | nil => intro i; simp [sig_nodes_from]
  | cons p rest ih =>
    intro i
    cases p <;> simp only [sig_nodes_from] <;> try exact ih (i + 1)
    rw [List.pairwise_cons]
    refine ⟨?_, ih (i + 1)⟩
    intro b hb
    have := (sig_nodes_from_mem rest (i + 1) b.1 b.2).1 hb
    simp only []
    omega


theorem trailing_sigs_mem (l : List Packet) (n : Nat) (sig : PKT_signature) :
    (n, sig) ∈ trailing_sigs l ↔ 1 ≤ n ∧ l[n]? = some (Packet.signature sig) := by
  unfold trailing_sigs
  rw [sig_nodes_from_mem, List.getElem?_drop]
  constructor
  · rintro ⟨h1, h2⟩
    have : 1 + (n - 1) = n := by omega
    rw [this] at h2
    exact ⟨h1, h2⟩
  · rintro ⟨h1, h2⟩
    have : 1 + (n - 1) = n := by omega
    rw [this]
    exact ⟨h1, h2⟩

/-- C8: `proc_tree` on a group rooted at a one-pass signature, in normal mode.
`trailing_sigs` lists exactly the signature nodes after the root, in the order
of the chain, and `check_each` calls `check_sig_and_print` once for each in that
order, stopping only if a call ends the process.  With `have_data` set,
`proc_tree` is `check_each` on those nodes.  With `have_data` clear, the digest
context handed to `ask_for_detached_datafile` has enabled exactly the digest
algorithms of those nodes; if that call fails, the only further effect is the
error line (no signature is checked), and if it succeeds `proc_tree` is
`check_each` on those nodes.  Every run of `check_each` that returns has made
one `write_status` call per node. -/
theorem C8_onepass_group_finalization (E : Env) (hE : E.opt.list_packets = false) (s : Sys) (ops : PKT_onepass_sig)
    (rest : List Packet) (hl : s.c.list = Packet.onepass_sig ops :: rest) :
    (∀ n sig, (n, sig) ∈ trailing_sigs s.c.list ↔
      1 ≤ n ∧ s.c.list[n]? = some (Packet.signature sig)) ∧
    List.Pairwise (fun a b => a.1 < b.1) (trailing_sigs s.c.list) ∧
    (s.c.have_data ≠ 0 →
      proc_tree E 0 s = check_each E (trailing_sigs s.c.list) s) ∧
    (s.c.have_data = 0 →
      (∀ a, a ∈ (detached_md E s.c.list).algos ↔
        ∃ nd ∈ trailing_sigs s.c.list, E.digest_algo_from_sig nd.2 = a) ∧
      ((E.ask_for_detached_datafile s.trace (some (detached_md E s.c.list))
          s.c.iobuf.fname).1 ≠ 0 →
        proc_tree E 0 s = Res.ret ()
          { c := { s.c with mfx_md := (E.ask_for_detached_datafile s.trace
                (some (detached_md E s.c.list)) s.c.iobuf.fname).2 },
            trace := s.trace ++
              [Event.ask_for_detached_datafile (some (detached_md E s.c.list)) s.c.iobuf.fname
                (E.ask_for_detached_datafile s.trace (some (detached_md E s.c.list))
                  s.c.iobuf.fname).1,
               Event.log_error (Msg.cant_hash_datafile
                (E.ask_for_detached_datafile s.trace (some (detached_md E s.c.list))
                  s.c.iobuf.fname).1)] }) ∧
      ((E.ask_for_detached_datafile s.trace (some (detached_md E s.c.list))
          s.c.iobuf.fname).1 = 0 →
        proc_tree E 0 s = check_each E (trailing_sigs s.c.list)
          { c := { s.c with mfx_md := (E.ask_for_detached_datafile s.trace
                (some (detached_md E s.c.list)) s.c.iobuf.fname).2 },
            trace := s.trace ++
              [Event.ask_for_detached_datafile (some (detached_md E s.c.list)) s.c.iobuf.fname
                0] })) ∧
    (∀ s0 s1, check_each E (trailing_sigs s.c.list) s0 = Res.ret () s1 →
      count_status s1.trace = count_status s0.trace + (trailing_sigs s.c.list).length) := by
  refine ⟨trailing_sigs_mem s.c.list, sig_nodes_from_sorted _ _, ?_, ?_,
    check_each_count E _⟩
  · intro hd
    unfold proc_tree
    simp only [hE, Bool.false_eq_true, if_false, bind_run, getc_run, hl, List.getElem?_cons_zero,
      hd]
    have := proc_tree_check_eq E s.c.list.length 0 s (by omega)
    rw [hl] at this
    simpa [trailing_sigs] using this
  · intro hd
    refine ⟨?_, ?_, ?_⟩
    · intro a
      simp [detached_md, foldl_md_enable_algos, md_open]
    · intro hr
      unfold proc_tree
      simp only [hE, Bool.false_eq_true, if_false, bind_run, getc_run, hl,
        List.getElem?_cons_zero, hd, if_true, free_md_filter_context, modc_run]
      rw [proc_tree_enable_eq E _ 0 _ (by simp)]
      rw [hl] at hr
      simp [detached_md, trailing_sigs] at hr ⊢
      simp [hr]
    · intro hr
      unfold proc_tree
      simp only [hE, Bool.false_eq_true, if_false, bind_run, getc_run, hl,
        List.getElem?_cons_zero, hd, if_true, free_md_filter_context, modc_run]
      rw [proc_tree_enable_eq E _ 0 _ (by simp)]
      rw [hl] at hr
      simp [detached_md, trailing_sigs] at hr ⊢
      simp [hr]
      rw [proc_tree_check_eq E _ 0 _ (by simp)]
      simp

/-- C8, an instance: a one-pass group with one trailing signature, data seen. -/
theorem C8_onepass_group_finalization_witness :
    proc_tree (sampleEnv sampleOpt 0) 0
        (sampleSys [Packet.onepass_sig sampleOnepass, Packet.signature (sampleSig 0)] 1) =
      check_each (sampleEnv sampleOpt 0) [(1, sampleSig 0)]
        (sampleSys [Packet.onepass_sig sampleOnepass, Packet.signature (sampleSig 0)] 1) :=
  (C8_onepass_group_finalization (sampleEnv sampleOpt 0) rfl
    (sampleSys [Packet.onepass_sig sampleOnepass, Packet.signature (sampleSig 0)] 1)
    sampleOnepass [Packet.signature (sampleSig 0)] rfl).2.2.1 (by decide)

/-! ## The main loop -/

theorem proc_packets_run (E : Env) (a : IOBUF) (stream : List (Int × Packet)) (s s1 : Sys)
    (hloop : proc_packets_loop E stream { s with c := CTX.clear a } = Res.ret () s1) :
    proc_packets E a stream s =
      match release_list E s1 with
      | Res.ret _ s2 => Res.ret 0 (proc_packets_end s2)
      | Res.halt h s2 => Res.halt h s2 := by
  unfold proc_packets
  simp only [bind_run, modc_run, hloop]
  cases hr : release_list E s1 with
  | halt h s2 => rfl
  | ret u s2 =>
    simp only [getc_run, free_md_filter_context]
    cases hd : s2.c.dek <;> simp [proc_packets_end, hd]

theorem proc_packets_ret_zero (E : Env) (a : IOBUF) (stream : List (Int × Packet)) (s s1 : Sys)
    (r : Int) (h : proc_packets E a stream s = Res.ret r s1) : r = 0 := by
  unfold proc_packets at h
  simp only [bind_run, modc_run] at h
  cases hloop : proc_packets_loop E stream { s with c := CTX.clear a } with
  | halt x s2 => simp [hloop] at h
  | ret u s2 =>
    rw [hloop] at h
    simp only [] at h
    cases hr : release_list E s2 with
    | halt x s3 => simp [hr] at h
    | ret u s3 =>
      rw [hr] at h
      simp only [getc_run, free_md_filter_context] at h
      cases hd : s3.c.dek <;> simp [hd] at h <;> exact h.1.symm

theorem loop_fatal (E : Env) (hinv0 : E.G10ERR_INVALID_PACKET ≠ 0) (p : Packet)
    (post : List (Int × Packet)) (s : Sys) :
    proc_packets_loop E ((E.G10ERR_INVALID_PACKET, p) :: post) s =
      proc_packets_loop E [(E.G10ERR_INVALID_PACKET, p)] s := by
  simp only [proc_packets_loop, bind_run]
  split_ifs with h1
  · rfl
  · obtain ⟨s1, hb, -⟩ := burn_dek_returns p s
    simp [hb, hinv0]

theorem loop_fatal_cut (E : Env) (hinv0 : E.G10ERR_INVALID_PACKET ≠ 0) (p : Packet)
    (post : List (Int × Packet)) : ∀ (pre : List (Int × Packet)) (s : Sys),
    proc_packets_loop E (pre ++ (E.G10ERR_INVALID_PACKET, p) :: post) s =
      proc_packets_loop E (pre ++ [(E.G10ERR_INVALID_PACKET, p)]) s := by
  intro pre
  induction pre with
  | nil => intro s; simpa using loop_fatal E hinv0 p post s
  | cons x pre ih =>
    intro s
    obtain ⟨rc, q⟩ := x
    obtain ⟨s1, hb, -⟩ := burn_dek_returns q s
    simp only [List.cons_append, proc_packets_loop, bind_run, hb]
    by_cases h1 : rc = -1
    · simp [h1]
    · simp only [h1, if_false, bind_run, hb]
      by_cases h2 : rc = 0
      · simp only [h2, ne_eq, not_true_eq_false, if_false, bind_run]
        cases hp : process_packet E q s1 with
        | halt x s2 => rfl
        | ret u s2 => exact ih s2
      · simp only [h2, ne_eq, not_false_eq_true, if_true, emit_run, bind_run]
        by_cases h3 : rc = E.G10ERR_INVALID_PACKET
        · simp [h3]
        · simp only [h3, if_false]
          exact ih _

theorem loop_dropped (E : Env) (rc : Int) (p : Packet) (rest : List (Int × Packet)) (s : Sys)
    (h0 : rc ≠ 0) (h1 : rc ≠ -1) (h2 : rc ≠ E.G10ERR_INVALID_PACKET) :
    ∃ s1, (do burn_dek p; emit (Event.free_packet p)) s = Res.ret () s1 ∧
      s1.c.list = s.c.list ∧
      proc_packets_loop E ((rc, p) :: rest) s = proc_packets_loop E rest s1 := by
  obtain ⟨sb, hb, -, -, -, hlist⟩ := burn_dek_returns p s
  refine ⟨{ sb with trace := sb.trace ++ [Event.free_packet p] }, ?_, hlist, ?_⟩
  · simp [hb]
  · simp [proc_packets_loop, h0, h1, h2, hb]

theorem release_list_cases (E : Env) (s1 s2 : Sys) (h : release_list E s1 = Res.ret () s2) :
    (s1.c.list = [] ∧ s2 = s1) ∨
      (s1.c.list ≠ [] ∧ ∃ s3, proc_tree E 0 s1 = Res.ret () s3 ∧
        s2 = { s3 with c := { s3.c with list := [] } }) := by
  unfold release_list at h
  cases hl : s1.c.list with
  | nil =>
    left
    simp [hl] at h
    exact ⟨rfl, h.symm⟩
  | cons p rest =>
    right
    simp only [bind_run, getc_run, hl] at h
    cases hp : proc_tree E 0 s1 with
    | halt x s3 => simp [hp] at h
    | ret u s3 =>
      simp [hp] at h
      exact ⟨by simp, s3, rfl, h.symm⟩

/-- C9 (as amended): `proc_packets` returns 0 whenever it returns, also when
`parse_packet` reports the fatal error `G10ERR_INVALID_PACKET`: the error only
stops the loop and its code is not returned.  On a stream whose first result is
that error, `proc_packets` releases the packet and returns 0. -/
theorem C9_proc_packets_returns_zero (E : Env) (a : IOBUF) (p : Packet)
    (rest : List (Int × Packet)) (s : Sys)
    (h0 : E.G10ERR_INVALID_PACKET ≠ 0) (h1 : E.G10ERR_INVALID_PACKET ≠ -1) :
    proc_packets E a ((E.G10ERR_INVALID_PACKET, p) :: rest) s =
        Res.ret 0 { c := CTX.clear a, trace := s.trace ++ [Event.free_packet p] } ∧
      ∀ (stream : List (Int × Packet)) (r : Int) (s1 : Sys),
        proc_packets E a stream s = Res.ret r s1 → r = 0 := by
  refine ⟨?_, fun stream r s1 h => proc_packets_ret_zero E a stream s s1 r h⟩
  have hloop : proc_packets_loop E ((E.G10ERR_INVALID_PACKET, p) :: rest)
      { s with c := CTX.clear a } =
      Res.ret () { c := CTX.clear a, trace := s.trace ++ [Event.free_packet p] } := by
    simp [proc_packets_loop, h0, h1, burn_dek, CTX.clear]
  rw [proc_packets_run E a _ s _ hloop]
  simp [release_list, CTX.clear, proc_packets_end]

/-- C9, an instance: the stream is the fatal error followed by a signature. -/
theorem C9_proc_packets_returns_zero_witness :
    ((14 : Int) ≠ 0 ∧ (14 : Int) ≠ -1) ∧
    proc_packets (sampleEnv sampleOpt 0) { fname := [] }
        (((sampleEnv sampleOpt 0).G10ERR_INVALID_PACKET, Packet.other 0) ::
          [(0, Packet.signature (sampleSig 0))]) (sampleSys [] 0) =
        Res.ret 0 { c := CTX.clear { fname := [] },
                    trace := (sampleSys [] 0).trace ++ [Event.free_packet (Packet.other 0)] } ∧
      ∀ (stream : List (Int × Packet)) (r : Int) (s1 : Sys),
        proc_packets (sampleEnv sampleOpt 0) { fname := [] } stream (sampleSys [] 0) =
          Res.ret r s1 → r = 0 :=
  ⟨by decide, C9_proc_packets_returns_zero (sampleEnv sampleOpt 0) { fname := [] }
    (Packet.other 0) [(0, Packet.signature (sampleSig 0))] (sampleSys [] 0)
    (by decide) (by decide)⟩

/-- C9 as stated fails: `parse_packet` reports `G10ERR_INVALID_PACKET` (14) on
the first packet, and `proc_packets` returns 0, not that code. -/
theorem C9_fatal_error_code_not_returned :
    (sampleEnv sampleOpt 0).G10ERR_INVALID_PACKET = 14 ∧
    proc_packets (sampleEnv sampleOpt 0) { fname := [] }
        [(14, Packet.other 0), (0, Packet.signature (sampleSig 0))] (sampleSys [] 0) =
      Res.ret 0 { c := CTX.clear { fname := [] },
                  trace := [Event.free_packet (Packet.other 0)] } ∧
    (0 : Int) ≠ 14 := by
  decide

/-- C10 (as amended): in the loop of `proc_packets`, when `parse_packet` returns
`G10ERR_INVALID_PACKET` the loop stops, so what follows in the stream is never
looked at; when it returns another non-zero code other than -1 the packet is
released without being dispatched, the open group is unchanged and the loop
goes on with the next packet.  Whenever the loop ends, `proc_packets` runs
`release_list` once and, if that flush returns (`proc_tree` does not stop the
process), returns 0 with no open group: the list was empty already, or
`proc_tree` ran on it once and it was released. -/
theorem C10_parse_errors_and_final_flush (E : Env) (hinv0 : E.G10ERR_INVALID_PACKET ≠ 0) :
    (∀ (pre : List (Int × Packet)) (p : Packet) (post : List (Int × Packet)) (s : Sys),
      proc_packets_loop E (pre ++ (E.G10ERR_INVALID_PACKET, p) :: post) s =
        proc_packets_loop E (pre ++ [(E.G10ERR_INVALID_PACKET, p)]) s) ∧
    (∀ (rc : Int) (p : Packet) (rest : List (Int × Packet)) (s : Sys),
      rc ≠ 0 → rc ≠ -1 → rc ≠ E.G10ERR_INVALID_PACKET →
      ∃ s1, (do burn_dek p; emit (Event.free_packet p)) s = Res.ret () s1 ∧
        s1.c.list = s.c.list ∧
        proc_packets_loop E ((rc, p) :: rest) s = proc_packets_loop E rest s1) ∧
    (∀ (a : IOBUF) (stream : List (Int × Packet)) (s s1 : Sys),
      proc_packets_loop E stream { s with c := CTX.clear a } = Res.ret () s1 →
      (proc_packets E a stream s =
        match release_list E s1 with
        | Res.ret _ s2 => Res.ret 0 (proc_packets_end s2)
        | Res.halt h s2 => Res.halt h s2) ∧
      ∀ s2, release_list E s1 = Res.ret () s2 →
        (proc_packets_end s2).c.list = [] ∧
        ((s1.c.list = [] ∧ s2 = s1) ∨
          (s1.c.list ≠ [] ∧ ∃ s3, proc_tree E 0 s1 = Res.ret () s3 ∧
            s2 = { s3 with c := { s3.c with list := [] } }))) := by
  refine ⟨fun pre p post s => loop_fatal_cut E hinv0 p post pre s,
    fun rc p rest s h0 h1 h2 => loop_dropped E rc p rest s h0 h1 h2, ?_⟩
  intro a stream s s1 hloop
  refine ⟨proc_packets_run E a stream s s1 hloop, fun s2 h2 => ⟨?_, release_list_cases E s1 s2 h2⟩⟩
  simpa [proc_packets_end] using release_list_ret E s1 s2 h2

/-- C10, an instance: the signature after the fatal error is never looked at. -/
theorem C10_parse_errors_and_final_flush_witness :
    ((14 : Int) ≠ 0) ∧
    proc_packets_loop (sampleEnv sampleOpt 0)
        ([(0, Packet.public_cert sampleCert)] ++
          ((sampleEnv sampleOpt 0).G10ERR_INVALID_PACKET, Packet.other 0) ::
            [(0, Packet.signature (sampleSig 0))]) (sampleSys [] 0) =
      proc_packets_loop (sampleEnv sampleOpt 0)
        ([(0, Packet.public_cert sampleCert)] ++
          [((sampleEnv sampleOpt 0).G10ERR_INVALID_PACKET, Packet.other 0)]) (sampleSys [] 0) :=
  ⟨by decide, (C10_parse_errors_and_final_flush (sampleEnv sampleOpt 0) (by decide)).1
    [(0, Packet.public_cert sampleCert)] (Packet.other 0)
    [(0, Packet.signature (sampleSig 0))] (sampleSys [] 0)⟩

/-- C10 as stated fails: on the stream one-pass signature, literal data,
signature, in batch mode with a bad signature, the stream ends normally but the
final `release_list` does not leave an empty list: `proc_tree` ends the process
inside the flush and the group is still open. -/
theorem C10_final_flush_can_stop_the_process :
    (proc_packets (sampleEnv { sampleOpt with batch := true } 8) { fname := [] }
        [(0, Packet.onepass_sig sampleOnepass),
         (0, Packet.plaintext { name := [], data := [1] }),
         (0, Packet.signature (sampleSig 0))] (sampleSys [] 0)).stopped =
      some (Halt.g10_exit 1) ∧
    (proc_packets (sampleEnv { sampleOpt with batch := true } 8) { fname := [] }
        [(0, Packet.onepass_sig sampleOnepass),
         (0, Packet.plaintext { name := [], data := [1] }),
         (0, Packet.signature (sampleSig 0))] (sampleSys [] 0)).sys.c.list =
      [Packet.onepass_sig sampleOnepass, Packet.signature (sampleSig 0)] := by
  decide

theorem frame_refl (P : Event → Bool) (s : Sys) : frame P s s :=
  ⟨rfl, [], by simp, by simp⟩

theorem frame_trans (P : Event → Bool) (a b c : Sys) (h1 : frame P a b) (h2 : frame P b c) :
    frame P a c := by
  obtain ⟨hc1, t1, ht1, hp1⟩ := h1
  obtain ⟨hc2, t2, ht2, hp2⟩ := h2
  refine ⟨by rw [hc2, hc1], t1 ++ t2, by rw [ht2, ht1, List.append_assoc], ?_⟩
  intro e he
  rcases List.mem_append.1 he with h | h
  · exact hp1 e h
  · exact hp2 e h

theorem frame_md_refl (P : Event → Bool) (s : Sys) : frame_md P s s :=
  ⟨rfl, [], by simp, by simp⟩

theorem frame_md_trans (P : Event → Bool) (a b c : Sys) (h1 : frame_md P a b)
    (h2 : frame_md P b c) : frame_md P a c := by
  obtain ⟨hc1, t1, ht1, hp1⟩ := h1
  obtain ⟨hc2, t2, ht2, hp2⟩ := h2
  refine ⟨by rw [hc2, hc1], t1 ++ t2, by rw [ht2, ht1, List.append_assoc], ?_⟩
  intro e he
  rcases List.mem_append.1 he with h | h
  · exact hp1 e h
  · exact hp2 e h

theorem frame_to_md (P : Event → Bool) (s s1 : Sys) (h : frame P s s1) : frame_md P s s1 :=
  ⟨by rw [h.1], h.2⟩

theorem frame_mono (P Q : Event → Bool) (hPQ : ∀ e, P e = true → Q e = true) (s s1 : Sys)
    (h : frame P s s1) : frame Q s s1 := by
  obtain ⟨hc, t, ht, hp⟩ := h
  exact ⟨hc, t, ht, fun e he => hPQ e (hp e he)⟩

theorem steps_bind {α β : Type} {R : Sys → Sys → Prop}
    (ht : ∀ a b c, R a b → R b c → R a c) {x : Proc α} {f : α → Proc β}
    (hx : steps R x) (hf : ∀ a, steps R (f a)) : steps R (x >>= f) := by
  intro s
  have h1 := hx s
  simp only [bind_run]
  cases hxs : x s with
  | halt h s1 => rw [hxs] at h1; exact h1
  | ret a s1 =>
    rw [hxs] at h1
    exact ht _ _ _ h1 (hf a s1)

theorem steps_pure {α : Type} {R : Sys → Sys → Prop} (hr : ∀ s, R s s) (a : α) :
    steps R (pure a : Proc α) := fun s => hr s

theorem steps_halt {α : Type} {R : Sys → Sys → Prop} (hr : ∀ s, R s s) (h : Halt) :
    steps R (halt h : Proc α) := fun s => hr s

theorem steps_getc {R : Sys → Sys → Prop} (hr : ∀ s, R s s) : steps R getc := fun s => hr s

theorem steps_emit (P : Event → Bool) (e : Event) (he : P e = true) : steps (frame P) (emit e) :=
  fun s => ⟨rfl, [e], rfl, by simpa using he⟩

theorem steps_call {α : Type} (P : Event → Bool) (f : List Event → α) (ev : α → Event)
    (he : ∀ a, P (ev a) = true) : steps (frame P) (call f ev) :=
  fun s => ⟨rfl, [ev (f s.trace)], rfl, by simpa using he _⟩

theorem do_check_sig_steps (E : Env) (node : Nat) :
    steps (frame Event.is_check) (do_check_sig E node) := by
  have hr := frame_refl Event.is_check
  have ht := frame_trans Event.is_check
  have hfin : ∀ sig md, steps (frame Event.is_check) (do_check_sig_finish E sig md) :=
    fun sig md => steps_call _ _ _ (fun _ => rfl)
  have hkey : ∀ sig, steps (frame Event.is_check) (do_check_sig_keysig E node sig) := by
    intro sig
    unfold do_check_sig_keysig
    repeat' first
      | exact steps_pure hr _
      | exact steps_halt hr _
      | exact steps_getc hr
      | exact steps_emit _ _ rfl
      | exact hfin _ _
      | refine steps_bind ht ?_ (fun _ => ?_)
      | split
  have hcls : ∀ sig algo, steps (frame Event.is_check) (do_check_sig_class E node sig algo) := by
    intro sig algo
    unfold do_check_sig_class
    repeat' first
      | exact steps_pure hr _
      | exact steps_getc hr
      | exact steps_call _ _ _ (fun _ => rfl)
      | exact hfin _ _
      | exact hkey _
      | refine steps_bind ht ?_ (fun _ => ?_)
      | split
  unfold do_check_sig
  repeat' first
    | exact steps_pure hr _
    | exact steps_halt hr _
    | exact steps_getc hr
    | exact hcls _ _
    | refine steps_bind ht ?_ (fun _ => ?_)
    | split

theorem frame_grp_refl (s : Sys) : frame_grp s s := rfl

theorem frame_grp_trans (a b c : Sys) (h1 : frame_grp a b) (h2 : frame_grp b c) :
    frame_grp a c := by
  unfold frame_grp at *
  rw [h2, h1]

theorem frame_md_to_grp (P : Event → Bool) (s s1 : Sys) (h : frame_md P s s1) :
    frame_grp s s1 := by
  unfold frame_grp
  rw [h.1]

theorem steps_weaken {α : Type} {R Q : Sys → Sys → Prop} (hRQ : ∀ s s1, R s s1 → Q s s1)
    {x : Proc α} (hx : steps R x) : steps Q x := fun s => hRQ _ _ (hx s)

theorem steps_modc_md (P : Event → Bool) (f : CTX → CTX)
    (hf : ∀ c, f c = { c with mfx_md := (f c).mfx_md }) : steps (frame_md P) (modc f) :=
  fun s => ⟨hf s.c, [], by simp [Res.sys], by simp⟩

theorem steps_modc_grp (f : CTX → CTX)
    (hf : ∀ c, f c = { c with mfx_md := (f c).mfx_md, list := (f c).list }) :
    steps frame_grp (modc f) :=
  fun s => hf s.c

theorem do_check_sig_any (E : Env) (node : Nat) :
    steps (frame Event.any) (do_check_sig E node) :=
  steps_weaken (frame_mono _ _ (fun _ _ => rfl)) (do_check_sig_steps E node)

theorem list_node_signature_any (E : Env) (node : Nat) (sig : PKT_signature) :
    steps (frame Event.any) (list_node_signature E node sig) := by
  have hr := frame_refl Event.any
  have ht := frame_trans Event.any
  unfold list_node_signature
  repeat' first
    | exact steps_pure hr _
    | exact steps_emit _ _ rfl
    | exact do_check_sig_any E _
    | refine steps_bind ht ?_ (fun _ => ?_)
    | split

theorem list_node_sigs_any (E : Env) (l : List Packet) :
    ∀ n, steps (frame Event.any) (list_node_sigs E n l) := by
  have hr := frame_refl Event.any
  have ht := frame_trans Event.any
  induction l with
  | nil => intro n; exact steps_pure hr _
  | cons p rest ih =>
    intro n
    unfold list_node_sigs
    repeat' first
      | exact steps_pure hr _
      | exact list_node_signature_any E _ _
      | exact ih _
      | refine steps_bind ht ?_ (fun _ => ?_)
      | split

theorem print_userid_any (p : Packet) : steps (frame Event.any) (print_userid p) := by
  unfold print_userid
  split <;> exact steps_emit _ _ rfl

theorem print_fingerprint_any (pkc : Option PKT_public_cert) (skc : Option PKT_secret_cert) :
    steps (frame Event.any) (print_fingerprint pkc skc) := by
  unfold print_fingerprint
  split
  · exact steps_emit _ _ rfl
  · exact steps_emit _ _ rfl
  · exact steps_halt (frame_refl _) _

theorem list_node_uids_any (E : Env) (pkc : PKT_public_cert) (l : List Packet) :
    ∀ n any, steps (frame Event.any) (list_node_uids E pkc n l any) := by
  have hr := frame_refl Event.any
  have ht := frame_trans Event.any
  induction l with
  | nil => intro n any; exact steps_pure hr _
  | cons p rest ih =>
    intro n any
    unfold list_node_uids
    repeat' first
      | exact steps_pure hr _
      | exact steps_emit _ _ rfl
      | exact print_userid_any _
      | exact print_fingerprint_any _ _
      | exact list_node_sigs_any E _ _
      | exact ih _ _
      | refine steps_bind ht ?_ (fun _ => ?_)
      | split

theorem list_node_sec_uids_any (E : Env) (skc : PKT_secret_cert) (l : List Packet) :
    ∀ fuel n any, steps (frame Event.any) (list_node_sec_uids E skc l fuel n any) := by
  have hr := frame_refl Event.any
  have ht := frame_trans Event.any
  intro fuel
  induction fuel with
  | zero => intro n any; exact steps_pure hr _
  | succ fuel ih =>
    intro n any
    unfold list_node_sec_uids
    repeat' first
      | exact steps_pure hr _
      | exact steps_halt hr _
      | exact steps_emit _ _ rfl
      | exact print_userid_any _
      | exact print_fingerprint_any _ _
      | exact ih _ _
      | refine steps_bind ht ?_ (fun _ => ?_)
      | split

theorem list_node_any (E : Env) (node : Nat) : steps (frame Event.any) (list_node E node) := by
  have hr := frame_refl Event.any
  have ht := frame_trans Event.any
  unfold list_node
  repeat' first
    | exact steps_pure hr _
    | exact steps_getc hr
    | exact steps_emit _ _ rfl
    | exact list_node_uids_any E _ _ _ _
    | exact list_node_sec_uids_any E _ _ _ _ _
    | exact list_node_signature_any E _ _
    | refine steps_bind ht ?_ (fun _ => ?_)
    | split

theorem check_sig_and_print_any (E : Env) (node : Nat) :
    steps (frame Event.any) (check_sig_and_print E node) := by
  have hr := frame_refl Event.any
  have ht := frame_trans Event.any
  unfold check_sig_and_print
  repeat' first
    | exact steps_pure hr _
    | exact steps_halt hr _
    | exact steps_getc hr
    | exact steps_emit _ _ rfl
    | exact do_check_sig_any E _
    | refine steps_bind ht ?_ (fun _ => ?_)
    | split

theorem proc_tree_enable_md (E : Env) :
    ∀ fuel n, steps (frame_md Event.any) (proc_tree_enable E fuel n) := by
  have hr := frame_md_refl Event.any
  have ht := frame_md_trans Event.any
  intro fuel
  induction fuel with
  | zero => intro n; exact steps_pure hr _
  | succ fuel ih =>
    intro n
    unfold proc_tree_enable
    repeat' first
      | exact steps_pure hr _
      | exact steps_halt hr _
      | exact steps_getc hr
      | exact steps_modc_md _ _ (fun _ => rfl)
      | exact ih _
      | refine steps_bind ht ?_ (fun _ => ?_)
      | split

theorem proc_tree_check_md (E : Env) :
    ∀ fuel n, steps (frame_md Event.any) (proc_tree_check E fuel n) := by
  have hr := frame_md_refl Event.any
  have ht := frame_md_trans Event.any
  intro fuel
  induction fuel with
  | zero => intro n; exact steps_pure hr _
  | succ fuel ih =>
    intro n
    unfold proc_tree_check
    repeat' first
      | exact steps_pure hr _
      | exact steps_getc hr
      | exact steps_weaken (frame_to_md _) (check_sig_and_print_any E _)
      | exact ih _
      | refine steps_bind ht ?_ (fun _ => ?_)
      | split

theorem proc_tree_md (E : Env) (node : Nat) : steps (frame_md Event.any) (proc_tree E node) := by
  have hr := frame_md_refl Event.any
  have ht := frame_md_trans Event.any
  unfold proc_tree free_md_filter_context
  repeat' first
    | exact steps_pure hr _
    | exact steps_halt hr _
    | exact steps_getc hr
    | exact steps_modc_md _ _ (fun _ => rfl)
    | exact steps_weaken (frame_to_md _) (steps_emit _ _ rfl)
    | exact steps_weaken (frame_to_md _) (steps_call _ _ _ (fun _ => rfl))
    | exact steps_weaken (frame_to_md _) (check_sig_and_print_any E _)
    | exact steps_weaken (frame_to_md _) (list_node_any E _)
    | exact proc_tree_enable_md E _ _
    | exact proc_tree_check_md E _ _
    | refine steps_bind ht ?_ (fun _ => ?_)
    | split

theorem release_list_grp (E : Env) : steps frame_grp (release_list E) := by
  have hr := frame_grp_refl
  have ht := frame_grp_trans
  unfold release_list
  repeat' first
    | exact steps_pure hr _
    | exact steps_getc hr
    | exact steps_modc_grp _ (fun _ => rfl)
    | exact steps_weaken (frame_md_to_grp _) (proc_tree_md E _)
    | refine steps_bind ht ?_ (fun _ => ?_)
    | split

theorem frame_pay_refl (P : Event → Bool) (s : Sys) : frame_pay P s s :=
  ⟨rfl, rfl, [], by simp, by simp⟩

theorem frame_pay_trans (P : Event → Bool) (a b c : Sys) (h1 : frame_pay P a b)
    (h2 : frame_pay P b c) : frame_pay P a c := by
  obtain ⟨hl1, hd1, t1, ht1, hp1⟩ := h1
  obtain ⟨hl2, hd2, t2, ht2, hp2⟩ := h2
  refine ⟨by rw [hl2, hl1], by rw [hd2, hd1], t1 ++ t2,
    by rw [ht2, ht1, List.append_assoc], ?_⟩
  intro e he
  rcases List.mem_append.1 he with h | h
  · exact hp1 e h
  · exact hp2 e h

theorem frame_pay_mono (P Q : Event → Bool) (hPQ : ∀ e, P e = true → Q e = true) (s s1 : Sys)
    (h : frame_pay P s s1) : frame_pay Q s s1 := by
  obtain ⟨hl, hd, t, ht, hp⟩ := h
  exact ⟨hl, hd, t, ht, fun e he => hPQ e (hp e he)⟩

theorem total_bind {α β : Type} {R : Sys → Sys → Prop}
    (ht : ∀ a b c, R a b → R b c → R a c) {x : Proc α} {f : α → Proc β}
    (hx : total R x) (hf : ∀ a, total R (f a)) : total R (x >>= f) := by
  intro s
  obtain ⟨a, s1, h1, r1⟩ := hx s
  obtain ⟨b, s2, h2, r2⟩ := hf a s1
  exact ⟨b, s2, by simp [h1, h2], ht _ _ _ r1 r2⟩

theorem total_pure {α : Type} {R : Sys → Sys → Prop} (hr : ∀ s, R s s) (a : α) :
    total R (pure a : Proc α) := fun s => ⟨a, s, rfl, hr s⟩

theorem total_getc {R : Sys → Sys → Prop} (hr : ∀ s, R s s) : total R getc :=
  fun s => ⟨s.c, s, rfl, hr s⟩

theorem total_weaken {α : Type} {R Q : Sys → Sys → Prop} (hRQ : ∀ s s1, R s s1 → Q s s1)
    {x : Proc α} (hx : total R x) : total Q x := by
  intro s
  obtain ⟨a, s1, h1, r1⟩ := hx s
  exact ⟨a, s1, h1, hRQ _ _ r1⟩

theorem total_emit_pay (P : Event → Bool) (e : Event) (he : P e = true) :
    total (frame_pay P) (emit e) :=
  fun s => ⟨(), _, rfl, rfl, rfl, [e], rfl, by simpa using he⟩

theorem total_call_pay {α : Type} (P : Event → Bool) (f : List Event → α) (ev : α → Event)
    (he : ∀ a, P (ev a) = true) : total (frame_pay P) (call f ev) :=
  fun s => ⟨_, _, rfl, rfl, rfl, [ev (f s.trace)], rfl, by simpa using he _⟩

theorem total_modc_pay (P : Event → Bool) (f : CTX → CTX)
    (hf : ∀ c, (f c).list = c.list ∧ (f c).have_data = c.have_data) :
    total (frame_pay P) (modc f) :=
  fun s => ⟨(), _, rfl, (hf s.c).1, (hf s.c).2, [], by simp, by simp⟩

theorem free_dek_pay : total (frame_pay Event.is_decrypt_step) free_dek := by
  have hr := frame_pay_refl Event.is_decrypt_step
  have ht := frame_pay_trans Event.is_decrypt_step
  unfold free_dek
  repeat' first
    | exact total_pure hr _
    | exact total_getc hr
    | exact total_emit_pay _ _ rfl
    | exact total_modc_pay _ _ (fun _ => ⟨rfl, rfl⟩)
    | refine total_bind ht ?_ (fun _ => ?_)
    | split

theorem proc_pubkey_enc_pay (E : Env) (enc : PKT_pubkey_enc) :
    total (frame_pay Event.is_decrypt_step) (proc_pubkey_enc E enc) := by
  have hr := frame_pay_refl Event.is_decrypt_step
  have ht := frame_pay_trans Event.is_decrypt_step
  unfold proc_pubkey_enc proc_pubkey_enc_result
  repeat' first
    | exact total_pure hr _
    | exact total_getc hr
    | exact total_emit_pay _ _ rfl
    | exact total_call_pay _ _ _ (fun _ => rfl)
    | exact total_modc_pay _ _ (fun _ => ⟨rfl, rfl⟩)
    | exact free_dek_pay
    | refine total_bind ht ?_ (fun _ => ?_)
    | split

theorem proc_encrypted_pay (E : Env) (ed : PKT_encrypted) :
    total (frame_pay Event.is_decrypt_step) (proc_encrypted E ed) := by
  have hr := frame_pay_refl Event.is_decrypt_step
  have ht := frame_pay_trans Event.is_decrypt_step
  unfold proc_encrypted proc_encrypted_result
  repeat' first
    | exact total_pure hr _
    | exact total_getc hr
    | exact total_emit_pay _ _ rfl
    | exact total_call_pay _ _ _ (fun _ => rfl)
    | exact total_modc_pay _ _ (fun _ => ⟨rfl, rfl⟩)
    | exact free_dek_pay
    | refine total_bind ht ?_ (fun _ => ?_)
    | split

theorem proc_compressed_pay (E : Env) (zd : PKT_compressed) :
    total (frame_pay Event.is_decrypt_step) (proc_compressed E zd) := by
  have hr := frame_pay_refl Event.is_decrypt_step
  have ht := frame_pay_trans Event.is_decrypt_step
  unfold proc_compressed
  repeat' first
    | exact total_pure hr _
    | exact total_emit_pay _ _ rfl
    | exact total_call_pay _ _ _ (fun _ => rfl)
    | exact total_modc_pay _ _ (fun _ => ⟨rfl, rfl⟩)
    | refine total_bind ht ?_ (fun _ => ?_)
    | split

theorem proc_plaintext_pay (E : Env) (pt : PKT_plaintext) :
    total (frame_pay Event.any) (proc_plaintext E pt) := by
  have hr := frame_pay_refl Event.any
  have ht := frame_pay_trans Event.any
  unfold proc_plaintext free_md_filter_context
  repeat' first
    | exact total_pure hr _
    | exact total_getc hr
    | exact total_emit_pay _ _ rfl
    | exact total_call_pay _ _ _ (fun _ => rfl)
    | exact total_modc_pay _ _ (fun _ => ⟨rfl, rfl⟩)
    | refine total_bind ht ?_ (fun _ => ?_)
    | split

theorem total_emit_c (C : CTX → CTX → Prop) (hr : ∀ c, C c c) (e : Event) :
    total (frame_c C) (emit e) := fun s => ⟨(), _, rfl, hr s.c⟩

theorem total_call_c {α : Type} (C : CTX → CTX → Prop) (hr : ∀ c, C c c)
    (f : List Event → α) (ev : α → Event) : total (frame_c C) (call f ev) :=
  fun s => ⟨_, _, rfl, hr s.c⟩

theorem total_modc_c (C : CTX → CTX → Prop) (f : CTX → CTX) (hf : ∀ c, C c (f c)) :
    total (frame_c C) (modc f) := fun s => ⟨(), _, rfl, hf s.c⟩

theorem free_dek_flag : total (frame_c same_flag) free_dek := by
  have hr : ∀ s, frame_c same_flag s s := fun _ => rfl
  have ht : ∀ a b c, frame_c same_flag a b → frame_c same_flag b c → frame_c same_flag a c :=
    fun a b c h1 h2 => by unfold frame_c same_flag at *; rw [h2, h1]
  unfold free_dek
  repeat' first
    | exact total_pure hr _
    | exact total_getc hr
    | exact total_emit_c same_flag (fun _ => rfl) _
    | exact total_modc_c same_flag _ (fun _ => rfl)
    | refine total_bind ht ?_ (fun _ => ?_)
    | split

theorem proc_pubkey_enc_flag (E : Env) (enc : PKT_pubkey_enc) (s : Sys) :
    ∃ s1, proc_pubkey_enc E enc s = Res.ret () s1 ∧ s1.c.last_was_pubkey_enc = 1 := by
  have hr : ∀ s, frame_c same_flag s s := fun _ => rfl
  have ht : ∀ a b c, frame_c same_flag a b → frame_c same_flag b c → frame_c same_flag a c :=
    fun a b c h1 h2 => by unfold frame_c same_flag at *; rw [h2, h1]
  have htail : total (frame_c same_flag) (do
      let result ← proc_pubkey_enc_result E enc
      if result = -1 then pure ()
      else if result = 0 then
        (if E.opt.verbose > 1 then emit (Event.log_info Msg.good_dek) else pure ())
      else emit (Event.log_error (Msg.pubkey_enc_packet result))
      emit (Event.free_packet (Packet.pubkey_enc enc))) := by
    unfold proc_pubkey_enc_result
    repeat' first
      | exact total_pure hr _
      | exact total_emit_c same_flag (fun _ => rfl) _
      | exact total_call_c same_flag (fun _ => rfl) _ _
      | exact total_modc_c same_flag _ (fun _ => rfl)
      | exact free_dek_flag
      | refine total_bind ht ?_ (fun _ => ?_)
      | split
  obtain ⟨a, s1, h1, h2⟩ := htail { s with c := { s.c with last_was_pubkey_enc := 1 } }
  refine ⟨s1, ?_, h2⟩
  unfold proc_pubkey_enc
  simp only [bind_run, modc_run]
  exact h1

theorem proc_encrypted_clears (E : Env) (ed : PKT_encrypted) (s : Sys) :
    ∃ s1, proc_encrypted E ed s = Res.ret () s1 ∧ s1.c.dek = none ∧
      s1.c.last_was_pubkey_enc = 0 := by
  obtain ⟨r, s1, h1⟩ := proc_encrypted_result_returns E ed s
  unfold proc_encrypted
  simp only [bind_run, h1, free_dek_run]
  split_ifs <;> simp

theorem proc_plaintext_dek_flag (E : Env) (pt : PKT_plaintext) (s : Sys) :
    ∃ s1, proc_plaintext E pt s = Res.ret () s1 ∧ s1.c.dek = s.c.dek ∧
      s1.c.last_was_pubkey_enc = 0 := by
  unfold proc_plaintext free_md_filter_context
  simp only [bind_run, modc_run, getc_run, call_run, emit_run, pure_run]
  split_ifs <;> simp <;> split_ifs <;> simp

theorem proc_compressed_dek_flag (E : Env) (zd : PKT_compressed) (s : Sys) :
    ∃ s1, proc_compressed E zd s = Res.ret () s1 ∧ s1.c.dek = s.c.dek ∧
      s1.c.last_was_pubkey_enc = 0 := by
  unfold proc_compressed
  simp only [bind_run, modc_run, getc_run, call_run, emit_run, pure_run]
  split_ifs <;> simp

theorem steps_emit_grp (e : Event) : steps frame_grp (emit e) := fun _ => rfl

theorem add_to_list_grp (node : List Packet) : steps frame_grp (add_to_list node) := by
  have hr := frame_grp_refl
  have ht := frame_grp_trans
  unfold add_to_list
  repeat' first
    | exact steps_pure hr _
    | exact steps_halt hr _
    | exact steps_getc hr
    | exact steps_modc_grp _ (fun _ => rfl)
    | refine steps_bind ht ?_ (fun _ => ?_)
    | split

theorem add_handlers_grp (E : Env) (pkt : Packet) :
    steps frame_grp (add_public_cert E pkt) ∧ steps frame_grp (add_secret_cert E pkt) ∧
    steps frame_grp (add_user_id pkt) ∧ steps frame_grp (add_signature pkt) ∧
    steps frame_grp (add_onepass_sig E pkt) := by
  have hr := frame_grp_refl
  have ht := frame_grp_trans
  refine ⟨?_, ?_, ?_, ?_, ?_⟩
  · unfold add_public_cert
    repeat' first
      | exact steps_pure hr _
      | exact steps_modc_grp _ (fun _ => rfl)
      | exact release_list_grp E
      | refine steps_bind ht ?_ (fun _ => ?_)
  · unfold add_secret_cert
    repeat' first
      | exact steps_pure hr _
      | exact steps_modc_grp _ (fun _ => rfl)
      | exact release_list_grp E
      | refine steps_bind ht ?_ (fun _ => ?_)
  · unfold add_user_id
    repeat' first
      | exact steps_pure hr _
      | exact steps_getc hr
      | exact steps_emit_grp _
      | exact add_to_list_grp _
      | refine steps_bind ht ?_ (fun _ => ?_)
      | split
  · unfold add_signature
    repeat' first
      | exact steps_pure hr _
      | exact steps_getc hr
      | exact steps_modc_grp _ (fun _ => rfl)
      | exact add_to_list_grp _
      | refine steps_bind ht ?_ (fun _ => ?_)
      | split
  · unfold add_onepass_sig
    repeat' first
      | exact steps_pure hr _
      | exact steps_getc hr
      | exact steps_emit_grp _
      | exact steps_modc_grp _ (fun _ => rfl)
      | exact release_list_grp E
      | exact add_to_list_grp _
      | refine steps_bind ht ?_ (fun _ => ?_)
      | split

/-- What dispatching a packet does to `have_data`, the flag and the pending DEK. -/
theorem dispatch_facts (E : Env) (pkt : Packet) (s s1 : Sys) (r : Int)
    (h : dispatch E pkt s = Res.ret r s1) :
    s1.c.have_data = s.c.have_data ∧
    s1.c.last_was_pubkey_enc = flag_step E.opt.list_packets pkt s.c.last_was_pubkey_enc ∧
    (pkt.pkttype ≠ PktType.PKT_PUBKEY_ENC → pkt.pkttype ≠ PktType.PKT_ENCRYPTED →
      s1.c.dek = s.c.dek) ∧
    (pkt.pkttype = PktType.PKT_ENCRYPTED → s1.c.dek = none) := by
  have hgrp : ∀ (x : Proc Int), steps frame_grp x → x s = Res.ret r s1 →
      s1.c.have_data = s.c.have_data ∧ s1.c.last_was_pubkey_enc = s.c.last_was_pubkey_enc ∧
      s1.c.dek = s.c.dek := by
    intro x hx hxs
    have := hx s
    rw [hxs] at this
    simp only [Res.sys, frame_grp] at this
    rw [this]
    exact ⟨rfl, rfl, rfl⟩
  have hpure : ∀ v : Int, steps frame_grp (pure v : Proc Int) := fun v _ => rfl
  obtain ⟨h1, h2, h3, h4, h5⟩ := add_handlers_grp E pkt
  have henc : ∀ enc, (do proc_pubkey_enc E enc; pure (-1) : Proc Int) s = Res.ret r s1 →
      s1.c.have_data = s.c.have_data ∧ s1.c.last_was_pubkey_enc = 1 := by
    intro enc hx
    obtain ⟨a, s2, hs2, -, hd, -⟩ := proc_pubkey_enc_pay E enc s
    obtain ⟨s3, hs3, hf⟩ := proc_pubkey_enc_flag E enc s
    rw [hs3] at hs2
    simp [hs3] at hx hs2
    obtain ⟨-, rfl⟩ := hx
    obtain rfl := hs2
    exact ⟨hd, hf⟩
  have hed : ∀ ed, (do proc_encrypted E ed; pure (-1) : Proc Int) s = Res.ret r s1 →
      s1.c.have_data = s.c.have_data ∧ s1.c.last_was_pubkey_enc = 0 ∧ s1.c.dek = none := by
    intro ed hx
    obtain ⟨a, s2, hs2, -, hd, -⟩ := proc_encrypted_pay E ed s
    obtain ⟨s3, hs3, hdek, hf⟩ := proc_encrypted_clears E ed s
    rw [hs3] at hs2
    simp [hs3] at hx hs2
    obtain ⟨-, rfl⟩ := hx
    obtain rfl := hs2
    exact ⟨hd, hf, hdek⟩
  have hzd : ∀ zd, (do proc_compressed E zd; pure (-1) : Proc Int) s = Res.ret r s1 →
      s1.c.have_data = s.c.have_data ∧ s1.c.last_was_pubkey_enc = 0 ∧ s1.c.dek = s.c.dek := by
    intro zd hx
    obtain ⟨a, s2, hs2, -, hd, -⟩ := proc_compressed_pay E zd s
    obtain ⟨s3, hs3, hdek, hf⟩ := proc_compressed_dek_flag E zd s
    rw [hs3] at hs2
    simp [hs3] at hx hs2
    obtain ⟨-, rfl⟩ := hx
    obtain rfl := hs2
    exact ⟨hd, hf, hdek⟩
  have hpt : ∀ pt, (do proc_plaintext E pt; pure (-1) : Proc Int) s = Res.ret r s1 →
      s1.c.have_data = s.c.have_data ∧ s1.c.last_was_pubkey_enc = 0 ∧ s1.c.dek = s.c.dek := by
    intro pt hx
    obtain ⟨a, s2, hs2, -, hd, -⟩ := proc_plaintext_pay E pt s
    obtain ⟨s3, hs3, hdek, hf⟩ := proc_plaintext_dek_flag E pt s
    rw [hs3] at hs2
    simp [hs3] at hx hs2
    obtain ⟨-, rfl⟩ := hx
    obtain rfl := hs2
    exact ⟨hd, hf, hdek⟩
  unfold dispatch at h
  cases hm : E.opt.list_packets <;> simp only [hm, Bool.false_eq_true, if_false, if_true] at h <;>
    cases pkt <;> simp only [] at h <;> simp only [flag_step, Packet.pkttype] <;>
    first
      | exact (fun x => ⟨x.1, x.2.1, fun _ _ => x.2.2, fun hh => by simp at hh⟩) (hgrp _ h1 h)
      | exact (fun x => ⟨x.1, x.2.1, fun _ _ => x.2.2, fun hh => by simp at hh⟩) (hgrp _ h3 h)
      | exact (fun x => ⟨x.1, x.2.1, fun _ _ => x.2.2, fun hh => by simp at hh⟩) (hgrp _ h4 h)
      | exact (fun x => ⟨x.1, x.2.1, fun _ _ => x.2.2, fun hh => by simp at hh⟩) (hgrp _ h5 h)
      | exact (fun x => ⟨x.1, by simpa using x.2.1, fun _ _ => x.2.2, fun hh => by simp at hh⟩)
          (hgrp _ (hpure 0) h)
      | exact (fun x => ⟨x.1, x.2, fun hh => by simp at hh, fun hh => by simp at hh⟩) (henc _ h)
      | exact (fun x => ⟨x.1, x.2.1, fun _ hh => by simp at hh, fun _ => x.2.2⟩) (hed _ h)
      | exact (fun x => ⟨x.1, x.2.1, fun _ _ => x.2.2, fun hh => by simp at hh⟩) (hzd _ h)
      | exact (fun x => ⟨x.1, x.2.1, fun _ _ => x.2.2, fun hh => by simp at hh⟩) (hpt _ h)

theorem process_packet_run (E : Env) (pkt : Packet) (s : Sys) :
    process_packet E pkt s =
      match dispatch E pkt s with
      | Res.halt h s1 => Res.halt h s1
      | Res.ret newpkt s1 =>
        Res.ret ()
          { c := { s1.c with have_data := have_data_step pkt s1.c.have_data },
            trace := s1.trace ++ (if newpkt = 0 then [Event.free_packet pkt] else []) } := by
  unfold process_packet
  simp only [bind_run]
  cases hd : dispatch E pkt s with
  | halt h s1 => rfl
  | ret newpkt s1 =>
    simp only [have_data_step]
    by_cases hsig : pkt.pkttype = PktType.PKT_SIGNATURE
    · by_cases h1 : newpkt = -1
      · have h0 : newpkt ≠ 0 := by omega
        simp [hsig, h1]
      · by_cases h0 : newpkt = 0 <;> simp [hsig, h1, h0]
    · by_cases h1 : newpkt = -1
      · have h0 : newpkt ≠ 0 := by omega
        simp [hsig, h1]
      · by_cases h0 : newpkt = 0 <;> simp [hsig, h1, h0]

theorem process_packet_facts (E : Env) (pkt : Packet) (s s1 : Sys)
    (h : process_packet E pkt s = Res.ret () s1) :
    s1.c.have_data = have_data_step pkt s.c.have_data ∧
    s1.c.last_was_pubkey_enc = flag_step E.opt.list_packets pkt s.c.last_was_pubkey_enc ∧
    (pkt.pkttype ≠ PktType.PKT_PUBKEY_ENC → pkt.pkttype ≠ PktType.PKT_ENCRYPTED →
      s1.c.dek = s.c.dek) ∧
    (pkt.pkttype = PktType.PKT_ENCRYPTED → s1.c.dek = none) := by
  rw [process_packet_run] at h
  cases hd : dispatch E pkt s with
  | halt x s2 => simp [hd] at h
  | ret newpkt s2 =>
    obtain ⟨f1, f2, f3, f4⟩ := dispatch_facts E pkt s s2 newpkt hd
    simp only [hd, Res.ret.injEq, true_and] at h
    subst h
    exact ⟨by simp [f1], f2, f3, f4⟩

/-- C11: with no open group (`c->list == NULL`), `add_user_id` returns 0, leaves
`c->list` NULL and every other field of the context as it was (its only effect
is the error line); it starts no group.  In the loop of `proc_packets` (normal
mode) the packet is then released. -/
theorem C11_orphaned_user_id (E : Env) (pkt : Packet) (uid : PKT_user_id) (s : Sys)
    (hl : s.c.list = []) :
    add_user_id pkt s =
        Res.ret 0 { c := s.c, trace := s.trace ++ [Event.log_error Msg.orphaned_user_id] } ∧
    (E.opt.list_packets = false →
      process_packet E (Packet.user_id uid) s =
        Res.ret ()
          { c := { s.c with have_data := 0 },
            trace := s.trace ++ [Event.log_error Msg.orphaned_user_id,
              Event.free_packet (Packet.user_id uid)] }) := by
  have h1 : ∀ p, add_user_id p s =
      Res.ret 0 { c := s.c, trace := s.trace ++ [Event.log_error Msg.orphaned_user_id] } := by
    intro p
    simp [add_user_id, hl]
  refine ⟨h1 pkt, fun hE => ?_⟩
  rw [process_packet_run]
  simp [dispatch, hE, h1, have_data_step, Packet.pkttype]

/-- C11, an instance. -/
theorem C11_orphaned_user_id_witness :
    add_user_id (Packet.user_id { name := [65] }) (sampleSys [] 1) =
      Res.ret 0 { c := (sampleSys [] 1).c,
                  trace := (sampleSys [] 1).trace ++ [Event.log_error Msg.orphaned_user_id] } :=
  (C11_orphaned_user_id (sampleEnv sampleOpt 0) (Packet.user_id { name := [65] })
    { name := [65] } (sampleSys [] 1) rfl).1

theorem proc_pubkey_enc_success (E : Env) (enc : PKT_pubkey_enc) (s : Sys)
    (halgo : enc.pubkey_algo = E.PUBKEY_ALGO_ELGAMAL ∨ enc.pubkey_algo = E.PUBKEY_ALGO_RSA)
    (hdek : s.c.dek = none) (hk : (E.get_session_key s.trace enc).1 = 0) :
    proc_pubkey_enc E enc s = Res.ret ()
      { c := { s.c with last_was_pubkey_enc := 1,
                        dek := some (E.get_session_key s.trace enc).2 },
        trace := s.trace ++ [Event.get_session_key enc 0] ++
          (if E.opt.verbose > 1 then [Event.log_info Msg.good_dek] else []) ++
          [Event.free_packet (Packet.pubkey_enc enc)] } := by
  unfold proc_pubkey_enc proc_pubkey_enc_result
  simp only [bind_run, modc_run, halgo, if_true, free_dek_run, hdek, call_run, List.append_nil,
    hk, ne_eq, not_true_eq_false, if_false, pure_run]
  split_ifs <;> simp_all

theorem burn_dek_pending (pkt : Packet) (s : Sys) (d : DEK) (hd : s.c.dek = some d)
    (hp : pkt.pkttype ≠ PktType.PKT_ENCRYPTED) :
    burn_dek pkt s = Res.ret ()
      { c := { s.c with dek := none },
        trace := s.trace ++ [Event.log_error Msg.oops_valid_pubkey_enc_packet_not_followed_by_data,
          Event.m_free_dek d] } := by
  simp [burn_dek, hd, hp, free_dek_run]

theorem loop_session_key_success (E : Env) (enc : PKT_pubkey_enc) (s : Sys)
    (halgo : enc.pubkey_algo = E.PUBKEY_ALGO_ELGAMAL ∨ enc.pubkey_algo = E.PUBKEY_ALGO_RSA)
    (hk : ∀ h, (E.get_session_key h enc).1 = 0) :
    ∃ sb s1, burn_dek (Packet.pubkey_enc enc) s = Res.ret () sb ∧
      (∀ tl, proc_packets_loop E ((0, Packet.pubkey_enc enc) :: tl) s =
        proc_packets_loop E tl s1) ∧
      s1.c.dek = some (E.get_session_key sb.trace enc).2 ∧
      s1.trace = sb.trace ++ [Event.get_session_key enc 0] ++
        (if E.opt.verbose > 1 then [Event.log_info Msg.good_dek] else []) ++
        [Event.free_packet (Packet.pubkey_enc enc)] := by
  obtain ⟨sb, hb, hbd, -, -, -⟩ := burn_dek_returns (Packet.pubkey_enc enc) s
  have hbd := hbd (by simp [Packet.pkttype])
  have hp1 := proc_pubkey_enc_success E enc sb halgo hbd (hk _)
  refine ⟨sb,
    { c := { sb.c with last_was_pubkey_enc := 1,
                       dek := some (E.get_session_key sb.trace enc).2, have_data := 0 },
      trace := sb.trace ++ [Event.get_session_key enc 0] ++
        (if E.opt.verbose > 1 then [Event.log_info Msg.good_dek] else []) ++
        [Event.free_packet (Packet.pubkey_enc enc)] }, hb, ?_, rfl, rfl⟩
  intro tl
  simp [proc_packets_loop, hb, process_packet_run, dispatch_pubkey_enc, hp1, have_data_step,
    Packet.pkttype]

/-- C12: two session-key packets with supported algorithms arrive one after the
other in the loop of `proc_packets` and `get_session_key` succeeds for both.
After the first, its DEK `d1` is pending.  When the second is read, the
anomaly is logged and `d1` is released before `get_session_key` is called for
the second packet; afterwards the pending DEK is the one produced for the
second packet. -/
theorem C12_second_session_key_replaces_first (E : Env) (e1 e2 : PKT_pubkey_enc)
    (rest : List (Int × Packet)) (s : Sys)
    (h1 : e1.pubkey_algo = E.PUBKEY_ALGO_ELGAMAL ∨ e1.pubkey_algo = E.PUBKEY_ALGO_RSA)
    (h2 : e2.pubkey_algo = E.PUBKEY_ALGO_ELGAMAL ∨ e2.pubkey_algo = E.PUBKEY_ALGO_RSA)
    (hk1 : ∀ h, (E.get_session_key h e1).1 = 0)
    (hk2 : ∀ h, (E.get_session_key h e2).1 = 0) :
    ∃ (s1 s2 : Sys) (d1 : DEK) (h0 : List Event),
      proc_packets_loop E [(0, Packet.pubkey_enc e1)] s = Res.ret () s1 ∧
      d1 = (E.get_session_key h0 e1).2 ∧
      s1.c.dek = some d1 ∧
      proc_packets_loop E ((0, Packet.pubkey_enc e1) :: (0, Packet.pubkey_enc e2) :: rest) s =
        proc_packets_loop E rest s2 ∧
      s2.trace = s1.trace ++
        [Event.log_error Msg.oops_valid_pubkey_enc_packet_not_followed_by_data,
         Event.m_free_dek d1, Event.get_session_key e2 0] ++
        (if E.opt.verbose > 1 then [Event.log_info Msg.good_dek] else []) ++
        [Event.free_packet (Packet.pubkey_enc e2)] ∧
      s2.c.dek = some (E.get_session_key
        (s1.trace ++ [Event.log_error Msg.oops_valid_pubkey_enc_packet_not_followed_by_data,
          Event.m_free_dek d1]) e2).2 := by
  obtain ⟨sb, s1, hb, hstep1, hd1, ht1⟩ := loop_session_key_success E e1 s h1 hk1
  obtain ⟨sb2, s2, hb2, hstep2, hd2, ht2⟩ := loop_session_key_success E e2 s1 h2 hk2
  rw [burn_dek_pending _ s1 _ hd1 (by simp [Packet.pkttype])] at hb2
  have hsb2 := (Res.ret.inj hb2).2
  refine ⟨s1, s2, (E.get_session_key sb.trace e1).2, sb.trace, ?_, rfl, hd1, ?_, ?_, ?_⟩
  · simpa [proc_packets_loop] using hstep1 []
  · rw [hstep1, hstep2]
  · rw [ht2, ← hsb2]
    simp
  · rw [hd2, ← hsb2]

/-- C12, an instance: an RSA session-key packet followed by an ElGamal one. -/
theorem C12_second_session_key_replaces_first_witness :
    ∃ (s1 s2 : Sys) (d1 : DEK) (h0 : List Event),
      proc_packets_loop (sampleEnv sampleOpt 0)
          [(0, Packet.pubkey_enc { keyid := 7, pubkey_algo := 1, data := [5] })]
          (sampleSys [] 0) = Res.ret () s1 ∧
      d1 = ((sampleEnv sampleOpt 0).get_session_key h0
          { keyid := 7, pubkey_algo := 1, data := [5] }).2 ∧
      s1.c.dek = some d1 ∧
      proc_packets_loop (sampleEnv sampleOpt 0)
          ((0, Packet.pubkey_enc { keyid := 7, pubkey_algo := 1, data := [5] }) ::
            (0, Packet.pubkey_enc { keyid := 8, pubkey_algo := 16, data := [6] }) :: [])
          (sampleSys [] 0) =
        proc_packets_loop (sampleEnv sampleOpt 0) [] s2 ∧
      s2.trace = s1.trace ++
        [Event.log_error Msg.oops_valid_pubkey_enc_packet_not_followed_by_data,
         Event.m_free_dek d1, Event.get_session_key { keyid := 8, pubkey_algo := 16, data := [6] } 0] ++
        (if (sampleEnv sampleOpt 0).opt.verbose > 1 then [Event.log_info Msg.good_dek] else []) ++
        [Event.free_packet (Packet.pubkey_enc { keyid := 8, pubkey_algo := 16, data := [6] })] ∧
      s2.c.dek = some ((sampleEnv sampleOpt 0).get_session_key
        (s1.trace ++ [Event.log_error Msg.oops_valid_pubkey_enc_packet_not_followed_by_data,
          Event.m_free_dek d1]) { keyid := 8, pubkey_algo := 16, data := [6] }).2 :=
  C12_second_session_key_replaces_first (sampleEnv sampleOpt 0)
    { keyid := 7, pubkey_algo := 1, data := [5] } { keyid := 8, pubkey_algo := 16, data := [6] } []
    (sampleSys [] 0) (Or.inr rfl) (Or.inl rfl) (fun _ => rfl) (fun _ => rfl)

theorem dispatch_payload (E : Env) (pkt : Packet) (s : Sys)
    (hp : pkt.pkttype = PktType.PKT_PUBKEY_ENC ∨ pkt.pkttype = PktType.PKT_ENCRYPTED ∨
      pkt.pkttype = PktType.PKT_COMPRESSED ∨ pkt.pkttype = PktType.PKT_PLAINTEXT) :
    ∃ r s1, dispatch E pkt s = Res.ret r s1 ∧ s1.c.list = s.c.list ∧
      s1.c.have_data = s.c.have_data := by
  have hwrap : ∀ (x : Proc Unit) (P : Event → Bool), total (frame_pay P) x →
      ∃ r s1, (do x; pure (-1) : Proc Int) s = Res.ret r s1 ∧ s1.c.list = s.c.list ∧
        s1.c.have_data = s.c.have_data := by
    intro x P hx
    obtain ⟨a, s1, h1, hl, hd, -⟩ := hx s
    exact ⟨-1, s1, by simp [h1], hl, hd⟩
  unfold dispatch
  cases hm : E.opt.list_packets <;> simp only [Bool.false_eq_true, if_false, if_true] <;>
    cases pkt <;> simp [Packet.pkttype] at hp <;> simp only [] <;>
    first
      | exact hwrap _ _ (proc_pubkey_enc_pay E _)
      | exact hwrap _ _ (proc_encrypted_pay E _)
      | exact hwrap _ _ (proc_compressed_pay E _)
      | exact hwrap _ _ (proc_plaintext_pay E _)
      | exact ⟨0, s, rfl, rfl, rfl⟩

theorem loop_payload (E : Env) (pkt : Packet) (s : Sys)
    (hp : pkt.pkttype = PktType.PKT_PUBKEY_ENC ∨ pkt.pkttype = PktType.PKT_ENCRYPTED ∨
      pkt.pkttype = PktType.PKT_COMPRESSED ∨ pkt.pkttype = PktType.PKT_PLAINTEXT) :
    ∃ s1, (∀ rest, proc_packets_loop E ((0, pkt) :: rest) s = proc_packets_loop E rest s1) ∧
      s1.c.list = s.c.list ∧
      s1.c.have_data = (if pkt.pkttype = PktType.PKT_PLAINTEXT then 1 else 0) := by
  obtain ⟨sb, hb, -, -, -, hbl⟩ := burn_dek_returns pkt s
  obtain ⟨r, s1, hd, hl, -⟩ := dispatch_payload E pkt sb hp
  have hsig : pkt.pkttype ≠ PktType.PKT_SIGNATURE := by
    rcases hp with h | h | h | h <;> rw [h] <;> simp
  refine ⟨{ c := { s1.c with have_data := have_data_step pkt s1.c.have_data },
            trace := s1.trace ++ (if r = 0 then [Event.free_packet pkt] else []) }, ?_, ?_, ?_⟩
  · intro rest
    simp [proc_packets_loop, hb, process_packet_run, hd]
  · simp [hl, hbl]
  · simp [have_data_step, hsig]

/-- C15: the handlers `proc_pubkey_enc`, `proc_encrypted`, `proc_compressed` and
`proc_plaintext` return from every context with `c->list` and `have_data` as
they were: no node is added and the group is not flushed.  In the loop of
`proc_packets` such a packet leaves the list as it was and sets `have_data` to
1 for literal data and to 0 otherwise. -/
theorem C15_payload_handlers_leave_the_group (E : Env) (s : Sys) :
    (∀ enc, ∃ s1, proc_pubkey_enc E enc s = Res.ret () s1 ∧ s1.c.list = s.c.list ∧
      s1.c.have_data = s.c.have_data) ∧
    (∀ ed, ∃ s1, proc_encrypted E ed s = Res.ret () s1 ∧ s1.c.list = s.c.list ∧
      s1.c.have_data = s.c.have_data) ∧
    (∀ zd, ∃ s1, proc_compressed E zd s = Res.ret () s1 ∧ s1.c.list = s.c.list ∧
      s1.c.have_data = s.c.have_data) ∧
    (∀ pt, ∃ s1, proc_plaintext E pt s = Res.ret () s1 ∧ s1.c.list = s.c.list ∧
      s1.c.have_data = s.c.have_data) ∧
    (∀ enc, ∃ s1, (∀ rest, proc_packets_loop E ((0, Packet.pubkey_enc enc) :: rest) s =
        proc_packets_loop E rest s1) ∧ s1.c.list = s.c.list ∧ s1.c.have_data = 0) ∧
    (∀ ed, ∃ s1, (∀ rest, proc_packets_loop E ((0, Packet.encrypted ed) :: rest) s =
        proc_packets_loop E rest s1) ∧ s1.c.list = s.c.list ∧ s1.c.have_data = 0) ∧
    (∀ zd, ∃ s1, (∀ rest, proc_packets_loop E ((0, Packet.compressed zd) :: rest) s =
        proc_packets_loop E rest s1) ∧ s1.c.list = s.c.list ∧ s1.c.have_data = 0) ∧
    (∀ pt, ∃ s1, (∀ rest, proc_packets_loop E ((0, Packet.plaintext pt) :: rest) s =
        proc_packets_loop E rest s1) ∧ s1.c.list = s.c.list ∧ s1.c.have_data = 1) := by
  refine ⟨?_, ?_, ?_, ?_, ?_, ?_, ?_, ?_⟩
  · intro enc
    obtain ⟨a, s1, h, hl, hd, -⟩ := proc_pubkey_enc_pay E enc s
    exact ⟨s1, h, hl, hd⟩
  · intro ed
    obtain ⟨a, s1, h, hl, hd, -⟩ := proc_encrypted_pay E ed s
    exact ⟨s1, h, hl, hd⟩
  · intro zd
    obtain ⟨a, s1, h, hl, hd, -⟩ := proc_compressed_pay E zd s
    exact ⟨s1, h, hl, hd⟩
  · intro pt
    obtain ⟨a, s1, h, hl, hd, -⟩ := proc_plaintext_pay E pt s
    exact ⟨s1, h, hl, hd⟩
  · intro enc
    simpa [Packet.pkttype] using loop_payload E (Packet.pubkey_enc enc) s (by simp [Packet.pkttype])
  · intro ed
    simpa [Packet.pkttype] using loop_payload E (Packet.encrypted ed) s (by simp [Packet.pkttype])
  · intro zd
    simpa [Packet.pkttype] using loop_payload E (Packet.compressed zd) s (by simp [Packet.pkttype])
  · intro pt
    simpa [Packet.pkttype] using loop_payload E (Packet.plaintext pt) s (by simp [Packet.pkttype])

theorem burn_dek_frame (pkt : Packet) (s : Sys) :
    ∃ sb, burn_dek pkt s = Res.ret () sb ∧ sb.c = { s.c with dek := sb.c.dek } := by
  unfold burn_dek
  simp only [bind_run, getc_run]
  split_ifs
  · simp [free_dek_run]
  · exact ⟨s, rfl, rfl⟩

theorem release_list_onepass_one_sig (E : Env) (hE : E.opt.list_packets = false) (s : Sys)
    (ops : PKT_onepass_sig) (sig : PKT_signature)
    (hl : s.c.list = [Packet.onepass_sig ops, Packet.signature sig])
    (hd : s.c.have_data ≠ 0) :
    release_list E s =
      (do let _ ← check_sig_and_print E 1
          modc (fun c => { c with list := [] })) s := by
  have hchk := proc_tree_check_eq E s.c.list.length 0 s (by omega)
  rw [hl] at hchk
  simp only [List.drop_succ_cons, List.drop_zero, sig_nodes_from, check_each, zero_add] at hchk
  unfold release_list proc_tree
  simp only [bind_run, getc_run, hl, hE, Bool.false_eq_true, if_false, List.getElem?_cons_zero,
    hd]
  rw [hchk]
  simp only [bind_run]
  cases check_sig_and_print E 1 s <;> rfl

theorem loop_ok_step (E : Env) (pkt : Packet) (rest : List (Int × Packet)) (s : Sys) :
    proc_packets_loop E ((0, pkt) :: rest) s =
      (do burn_dek pkt; process_packet E pkt; proc_packets_loop E rest) s := by
  simp [proc_packets_loop]

/-- C20: in the loop of `proc_packets`, in both modes, a dispatched packet leaves
`have_data` as it was if it is a signature and otherwise sets it to 1 for
literal data and to 0 for anything else.  The assignment is made after the
handler has run, on the state the handler left: a flush inside the handler sees
the value from the packets before.  On the stream one-pass signature, literal
data, signature, in normal mode, the loop ends with the group of the one-pass
signature and the signature and with `have_data` set, so that the final flush
is exactly one call of `check_sig_and_print`, on the signature node, and no
call of `ask_for_detached_datafile`. -/
theorem C20_have_data_rule (E : Env) (hE : E.opt.list_packets = false) :
    (∀ (E1 : Env) (pkt : Packet) (s s1 : Sys), process_packet E1 pkt s = Res.ret () s1 →
      s1.c.have_data = have_data_step pkt s.c.have_data) ∧
    (∀ (E1 : Env) (pkt : Packet) (s : Sys), process_packet E1 pkt s =
      match dispatch E1 pkt s with
      | Res.halt h s1 => Res.halt h s1
      | Res.ret newpkt s1 =>
        Res.ret ()
          { c := { s1.c with have_data := have_data_step pkt s1.c.have_data },
            trace := s1.trace ++ (if newpkt = 0 then [Event.free_packet pkt] else []) }) ∧
    (∀ (a : IOBUF) (ops : PKT_onepass_sig) (pt : PKT_plaintext) (sig : PKT_signature)
        (s : Sys),
      ∃ s3, proc_packets_loop E
          [(0, Packet.onepass_sig ops), (0, Packet.plaintext pt), (0, Packet.signature sig)]
          { s with c := CTX.clear a } = Res.ret () s3 ∧
        s3.c.list = [Packet.onepass_sig ops, Packet.signature sig] ∧
        s3.c.have_data = 1 ∧
        release_list E s3 =
          (do let _ ← check_sig_and_print E 1
              modc (fun c => { c with list := [] })) s3) := by
  refine ⟨fun E1 pkt s s1 h => (process_packet_facts E1 pkt s s1 h).1,
    fun E1 pkt s => process_packet_run E1 pkt s, ?_⟩
  intro a ops pt sig s
  -- the one-pass signature opens the group
  have h1 : ∀ tl, proc_packets_loop E ((0, Packet.onepass_sig ops) :: tl)
      { s with c := CTX.clear a } =
      proc_packets_loop E tl
        { c := { CTX.clear a with list := [Packet.onepass_sig ops] }, trace := s.trace } := by
    intro tl
    simp [proc_packets_loop, burn_dek, CTX.clear, process_packet_run, dispatch, hE,
      add_onepass_sig, new_kbnode, have_data_step, Packet.pkttype]
  -- the literal data leaves the list and sets have_data
  obtain ⟨s2, h2, hl2, hd2⟩ := loop_payload E (Packet.plaintext pt)
    { c := { CTX.clear a with list := [Packet.onepass_sig ops] }, trace := s.trace }
    (by simp [Packet.pkttype])
  simp only [Packet.pkttype, if_true] at hd2
  -- the signature is appended
  obtain ⟨sb, hb, hbc⟩ := burn_dek_frame (Packet.signature sig) s2
  have hsbl : sb.c.list = [Packet.onepass_sig ops] := by rw [hbc]; simpa using hl2
  have hsbd : sb.c.have_data = 1 := by rw [hbc]; simpa using hd2
  have hdisp := dispatch_append E hE (Packet.signature sig) (Or.inr rfl) sb (by simp [hsbl])
  have h3 : process_packet E (Packet.signature sig) sb =
      Res.ret () { sb with c := { sb.c with list := sb.c.list ++ [Packet.signature sig] } } := by
    rw [process_packet_run, hdisp]
    simp [have_data_step, Packet.pkttype]
  refine ⟨{ sb with c := { sb.c with list := sb.c.list ++ [Packet.signature sig] } },
    ?_, by simp [hsbl], by simpa using hsbd, ?_⟩
  · rw [h1, h2]
    simp [proc_packets_loop, hb, h3]
  · exact release_list_onepass_one_sig E hE _ ops sig (by simp [hsbl])
      (by simp [hsbd])

/-- C20, an instance: the stream one-pass signature, literal data, signature. -/
theorem C20_have_data_rule_witness :
    ∃ s3, proc_packets_loop (sampleEnv sampleOpt 0)
        [(0, Packet.onepass_sig sampleOnepass), (0, Packet.plaintext { name := [], data := [1] }),
          (0, Packet.signature (sampleSig 0))]
        { sampleSys [] 0 with c := CTX.clear { fname := [] } } = Res.ret () s3 ∧
      s3.c.list = [Packet.onepass_sig sampleOnepass, Packet.signature (sampleSig 0)] ∧
      s3.c.have_data = 1 ∧
      release_list (sampleEnv sampleOpt 0) s3 =
        (do let _ ← check_sig_and_print (sampleEnv sampleOpt 0) 1
            modc (fun c => { c with list := [] })) s3 :=
  (C20_have_data_rule (sampleEnv sampleOpt 0) rfl).2.2 { fname := [] } sampleOnepass
    { name := [], data := [1] } (sampleSig 0) (sampleSys [] 0)

theorem loop_flag (E : Env) : ∀ (pre : List (Int × Packet)) (s s1 : Sys),
    (∀ x ∈ pre, x.1 = 0) → proc_packets_loop E pre s = Res.ret () s1 →
    s1.c.last_was_pubkey_enc =
      flag_after E.opt.list_packets (pre.map Prod.snd) s.c.last_was_pubkey_enc := by
  intro pre
  induction pre with
  | nil =>
    intro s s1 _ h
    simp [proc_packets_loop] at h
    simp [flag_after, h]
  | cons x rest ih =>
    intro s s1 hall h
    obtain ⟨rc, pkt⟩ := x
    have hrc : rc = 0 := hall (rc, pkt) (List.mem_cons_self _ _)
    subst hrc
    rw [loop_ok_step] at h
    obtain ⟨sb, hb, hbc⟩ := burn_dek_frame pkt s
    simp only [bind_run, hb] at h
    cases hp : process_packet E pkt sb with
    | halt y s2 => simp [hp] at h
    | ret u s2 =>
      rw [hp] at h
      simp only [] at h
      have hf := (process_packet_facts E pkt sb s2 hp).2.1
      have := ih s2 s1 (fun y hy => hall y (List.mem_cons_of_mem _ hy)) h
      rw [this, hf, hbc]
      simp [flag_after]

theorem flag_after_ne_zero (m : Bool) : ∀ (ps : List Packet) (f : Int),
    flag_after m ps f ≠ 0 ↔
      ((f ≠ 0 ∧ ∀ p ∈ ps, resets_flag m p = false) ∨
        ∃ a enc b, ps = a ++ Packet.pubkey_enc enc :: b ∧ ∀ p ∈ b, resets_flag m p = false) := by
  intro ps
  induction ps with
  | nil => intro f; simp [flag_after]
  | cons p ps ih =>
    intro f
    simp only [flag_after]
    rw [ih]
    constructor
    · rintro (⟨h1, h2⟩ | ⟨a, enc, b, h1, h2⟩)
      · cases p with
        | pubkey_enc enc => exact Or.inr ⟨[], enc, ps, rfl, h2⟩
        | encrypted ed => simp [flag_step] at h1
        | compressed zd => simp [flag_step] at h1
        | plaintext pt =>
          cases m with
          | true =>
            simp [flag_step] at h1
            exact Or.inl ⟨h1, by
              intro q hq
              rcases List.mem_cons.1 hq with rfl | hq
              · rfl
              · exact h2 q hq⟩
          | false => simp [flag_step] at h1
        | _ =>
          simp only [flag_step] at h1
          exact Or.inl ⟨h1, by
            intro q hq
            rcases List.mem_cons.1 hq with rfl | hq
            · rfl
            · exact h2 q hq⟩
      · exact Or.inr ⟨p :: a, enc, b, by simp [h1], h2⟩
    · rintro (⟨h1, h2⟩ | ⟨a, enc, b, h1, h2⟩)
      · have hp := h2 p (List.mem_cons_self _ _)
        have hps : ∀ q ∈ ps, resets_flag m q = false :=
          fun q hq => h2 q (List.mem_cons_of_mem _ hq)
        left
        refine ⟨?_, hps⟩
        cases p <;> simp [resets_flag] at hp <;> simp [flag_step, h1, hp]
      · cases a with
        | nil =>
          simp only [List.nil_append, List.cons.injEq] at h1
          obtain ⟨rfl, rfl⟩ := h1
          left
          exact ⟨by simp [flag_step], h2⟩
        | cons a0 a =>
          simp only [List.cons_append, List.cons.injEq] at h1
          exact Or.inr ⟨a, enc, b, h1.2, h2⟩

theorem burn_dek_dek (pkt : Packet) (s sb : Sys) (h : burn_dek pkt s = Res.ret () sb) :
    (pkt.pkttype ≠ PktType.PKT_ENCRYPTED → sb.c.dek = none) ∧
    (∀ d, sb.c.dek = some d → s.c.dek = some d) := by
  obtain ⟨sb2, hb, h1, h2, h3, -⟩ := burn_dek_returns pkt s
  rw [hb] at h
  obtain rfl := (Res.ret.inj h).2
  refine ⟨h1, fun d hd => ?_⟩
  by_cases hp : pkt.pkttype = PktType.PKT_ENCRYPTED
  · rw [h2 hp] at hd; exact hd
  · rw [h1 hp] at hd; simp at hd

theorem proc_pubkey_enc_dek (E : Env) (enc : PKT_pubkey_enc) (s s1 : Sys) (d : DEK)
    (hs : s.c.dek = none) (h : proc_pubkey_enc E enc s = Res.ret () s1)
    (hd : s1.c.dek = some d) : d = (E.get_session_key s.trace enc).2 := by
  by_cases halgo : enc.pubkey_algo = E.PUBKEY_ALGO_ELGAMAL ∨ enc.pubkey_algo = E.PUBKEY_ALGO_RSA
  · by_cases hk : (E.get_session_key s.trace enc).1 = 0
    · rw [proc_pubkey_enc_success E enc s halgo hs hk] at h
      have := (Res.ret.inj h).2
      subst this
      simpa using hd.symm
    · exfalso
      unfold proc_pubkey_enc proc_pubkey_enc_result at h
      simp [halgo, free_dek_run, hs, hk] at h
      split_ifs at h <;> simp at h <;> subst h <;> simp at hd
  · exfalso
    unfold proc_pubkey_enc proc_pubkey_enc_result at h
    simp [halgo] at h
    split_ifs at h <;> simp at h <;> subst h <;> simp [hs] at hd

theorem pending_dek_origin (E : Env) : ∀ (pre : List (Int × Packet)) (s s1 : Sys) (d : DEK),
    (∀ x ∈ pre, x.1 ≠ -1 ∧ x.1 ≠ E.G10ERR_INVALID_PACKET) →
    proc_packets_loop E pre s = Res.ret () s1 → s1.c.dek = some d →
    (s.c.dek = some d ∧ ∀ x ∈ pre, x.1 ≠ 0) ∨
      ∃ pre1 enc errs h, pre = pre1 ++ (0, Packet.pubkey_enc enc) :: errs ∧
        (∀ x ∈ errs, x.1 ≠ 0) ∧ d = (E.get_session_key h enc).2 := by
  intro pre
  induction pre with
  | nil =>
    intro s s1 d _ h hd
    simp [proc_packets_loop] at h
    left
    rw [h]
    exact ⟨hd, by simp⟩
  | cons x rest ih =>
    intro s s1 d hall h hd
    obtain ⟨rc, pkt⟩ := x
    obtain ⟨hm1, hinv⟩ := hall (rc, pkt) (List.mem_cons_self _ _)
    have hall' : ∀ y ∈ rest, y.1 ≠ -1 ∧ y.1 ≠ E.G10ERR_INVALID_PACKET :=
      fun y hy => hall y (List.mem_cons_of_mem _ hy)
    simp only [] at hm1 hinv
    obtain ⟨sb, hb, -⟩ := burn_dek_frame pkt s
    obtain ⟨hbn, hbs⟩ := burn_dek_dek pkt s sb hb
    simp only [proc_packets_loop, hm1, if_false, bind_run, hb] at h
    by_cases h0 : rc = 0
    · subst h0
      simp only [ne_eq, not_true_eq_false, if_false, bind_run] at h
      cases hp : process_packet E pkt sb with
      | halt y s2 => simp [hp] at h
      | ret u s2 =>
        rw [hp] at h
        simp only [] at h
        rcases ih s2 s1 d hall' h hd with ⟨h1, h2⟩ | ⟨pre1, enc, errs, hh, h1, h2, h3⟩
        · obtain ⟨-, -, f3, f4⟩ := process_packet_facts E pkt sb s2 hp
          right
          cases pkt with
          | pubkey_enc enc =>
            refine ⟨[], enc, rest, sb.trace, rfl, h2, ?_⟩
            have hsb : sb.c.dek = none := hbn (by simp [Packet.pkttype])
            rw [process_packet_run, dispatch_pubkey_enc] at hp
            simp only [bind_run] at hp
            cases hq : proc_pubkey_enc E enc sb with
            | halt y s3 => simp [hq] at hp
            | ret u s3 =>
              simp [hq] at hp
              subst hp
              exact proc_pubkey_enc_dek E enc sb s3 d hsb hq (by simpa using h1)
          | encrypted ed =>
            have := f4 rfl
            rw [this] at h1; simp at h1
          | _ =>
            have hsb : sb.c.dek = none := hbn (by simp [Packet.pkttype])
            have := f3 (by simp [Packet.pkttype]) (by simp [Packet.pkttype])
            rw [this, hsb] at h1; simp at h1
        · right
          exact ⟨(0, pkt) :: pre1, enc, errs, hh, by simp [h1], h2, h3⟩
    · simp only [ne_eq, h0, not_false_eq_true, if_true, bind_run, emit_run, hinv, if_false] at h
      rcases ih _ s1 d hall' h hd with ⟨h1, h2⟩ | ⟨pre1, enc, errs, hh, h1, h2, h3⟩
      · left
        refine ⟨hbs d (by simpa using h1), ?_⟩
        intro y hy
        rcases List.mem_cons.1 hy with rfl | hy
        · exact h0
        · exact h2 y hy
      · right
        exact ⟨(rc, pkt) :: pre1, enc, errs, hh, by simp [h1], h2, h3⟩

theorem proc_encrypted_result_pending (E : Env) (ed : PKT_encrypted) (s : Sys) (d : DEK)
    (hd : s.c.dek = some d) :
    proc_encrypted_result E ed s =
      Res.ret (E.decrypt_data s.trace ed (some d))
        { s with trace := s.trace ++
            [Event.decrypt_data ed (some d) (E.decrypt_data s.trace ed (some d))] } := by
  simp [proc_encrypted_result, hd]

/-- C13 (as amended): when the loop of `proc_packets` has dispatched the packets
of `pre` and is about to read the next one, `last_was_pubkey_enc` is what
`flag_after` computes: it is set by a session-key packet and cleared only by
encrypted data, compressed data and, in normal mode, literal data.  Starting
from 0 it is non-zero exactly when a session-key packet was dispatched and no
such data packet has been dispatched since; user ids, signatures, certificates
and one-pass signatures in between leave it set. -/
theorem C13_flag_set_until_next_data_packet (E : Env) (pre : List (Int × Packet))
    (s s1 : Sys) (hpre : ∀ x ∈ pre, x.1 = 0)
    (hloop : proc_packets_loop E pre s = Res.ret () s1) :
    s1.c.last_was_pubkey_enc =
        flag_after E.opt.list_packets (pre.map Prod.snd) s.c.last_was_pubkey_enc ∧
    (s.c.last_was_pubkey_enc = 0 →
      (s1.c.last_was_pubkey_enc ≠ 0 ↔
        ∃ a enc b, pre.map Prod.snd = a ++ Packet.pubkey_enc enc :: b ∧
          ∀ p ∈ b, resets_flag E.opt.list_packets p = false)) := by
  have h1 := loop_flag E pre s s1 hpre hloop
  refine ⟨h1, fun h0 => ?_⟩
  rw [h1, flag_after_ne_zero, h0]
  simp

/-- C13, an instance: after a session-key packet and a user id the flag is 1. -/
theorem C13_flag_set_until_next_data_packet_witness :
    ({ c := { CTX.clear { fname := [] } with last_was_pubkey_enc := 1 },
       trace := [Event.get_session_key { keyid := 7, pubkey_algo := 1, data := [5] } 0,
         Event.free_packet (Packet.pubkey_enc { keyid := 7, pubkey_algo := 1, data := [5] }),
         Event.log_error Msg.oops_valid_pubkey_enc_packet_not_followed_by_data,
         Event.m_free_dek { algo := 1, key := [5] },
         Event.log_error Msg.orphaned_user_id,
         Event.free_packet (Packet.user_id { name := [65] })] } : Sys).c.last_was_pubkey_enc =
      flag_after (sampleEnv sampleOpt 0).opt.list_packets
        ([(0, Packet.pubkey_enc { keyid := 7, pubkey_algo := 1, data := [5] }),
          ((0 : Int), Packet.user_id { name := [65] })].map Prod.snd)
        (sampleSys [] 0).c.last_was_pubkey_enc :=
  (C13_flag_set_until_next_data_packet (sampleEnv sampleOpt 0)
    [(0, Packet.pubkey_enc { keyid := 7, pubkey_algo := 1, data := [5] }),
      (0, Packet.user_id { name := [65] })]
    (sampleSys [] 0) _ (by decide) (by decide)).1

/-- C13 as stated fails: a session-key packet is followed by a user id and then
by encrypted data.  When the encrypted data is dispatched the packet dispatched
before it is the user id, yet `last_was_pubkey_enc` is still 1; the data is
not treated as passphrase-encrypted: `make_dek_from_passphrase` is not called
and the result is `G10ERR_NO_SECKEY` (17). -/
theorem C13_flag_survives_a_user_id :
    (proc_packets_loop (sampleEnv sampleOpt 0)
        [(0, Packet.pubkey_enc { keyid := 7, pubkey_algo := 1, data := [5] }),
         (0, Packet.user_id { name := [65] })] (sampleSys [] 0)).sys.c.last_was_pubkey_enc = 1 ∧
    (proc_packets_loop (sampleEnv sampleOpt 0)
        [(0, Packet.pubkey_enc { keyid := 7, pubkey_algo := 1, data := [5] }),
         (0, Packet.user_id { name := [65] }),
         (0, Packet.encrypted { data := [1] })] (sampleSys [] 0)).sys.trace =
      [Event.get_session_key { keyid := 7, pubkey_algo := 1, data := [5] } 0,
       Event.free_packet (Packet.pubkey_enc { keyid := 7, pubkey_algo := 1, data := [5] }),
       Event.log_error Msg.oops_valid_pubkey_enc_packet_not_followed_by_data,
       Event.m_free_dek { algo := 1, key := [5] },
       Event.log_error Msg.orphaned_user_id,
       Event.free_packet (Packet.user_id { name := [65] }),
       Event.log_error (Msg.encryption_failed 17),
       Event.free_packet (Packet.encrypted { data := [1] })] := by
  decide

/-- C17: the loop of `proc_packets` has read the results `pre` (none of them ends
the loop) from a state with no DEK pending and is about to read the next
packet.  If a DEK is pending then, it was produced by `get_session_key` for a
session-key packet of `pre` after which no packet of `pre` was dispatched (only
packets with a parse error lie between); if the next packet is encrypted data,
that pending DEK is the one `proc_encrypted` hands to `decrypt_data`.  If the
next packet is anything other than encrypted data, the pending DEK is burnt
before the handler runs: the handler starts with no DEK pending. -/
theorem C17_dek_used_only_by_the_next_packet (E : Env) (pre : List (Int × Packet))
    (s s1 : Sys) (hpre : ∀ x ∈ pre, x.1 ≠ -1 ∧ x.1 ≠ E.G10ERR_INVALID_PACKET)
    (hs : s.c.dek = none) (hloop : proc_packets_loop E pre s = Res.ret () s1) :
    (∀ d, s1.c.dek = some d →
      ∃ pre1 enc errs h, pre = pre1 ++ (0, Packet.pubkey_enc enc) :: errs ∧
        (∀ x ∈ errs, x.1 ≠ 0) ∧ d = (E.get_session_key h enc).2) ∧
    (∀ ed d, s1.c.dek = some d →
      proc_encrypted_result E ed s1 =
        Res.ret (E.decrypt_data s1.trace ed (some d))
          { s1 with trace := s1.trace ++
              [Event.decrypt_data ed (some d) (E.decrypt_data s1.trace ed (some d))] }) ∧
    (∀ pkt, pkt.pkttype ≠ PktType.PKT_ENCRYPTED →
      ∃ sb, burn_dek pkt s1 = Res.ret () sb ∧ sb.c.dek = none ∧
        ∀ rest, proc_packets_loop E ((0, pkt) :: rest) s1 =
          (do process_packet E pkt; proc_packets_loop E rest) sb) := by
  refine ⟨fun d hd => ?_, fun ed d hd => proc_encrypted_result_pending E ed s1 d hd,
    fun pkt hp => ?_⟩
  · rcases pending_dek_origin E pre s s1 d hpre hloop hd with ⟨h1, -⟩ | h
    · rw [hs] at h1; simp at h1
    · exact h
  · obtain ⟨sb, hb, -⟩ := burn_dek_frame pkt s1
    refine ⟨sb, hb, (burn_dek_dek pkt s1 sb hb).1 hp, fun rest => ?_⟩
    rw [loop_ok_step]
    simp [hb]

/-- C17, an instance: a session-key packet, then a packet with a parse error. -/
theorem C17_dek_used_only_by_the_next_packet_witness :
    ∃ pre1 enc errs h,
      [((0 : Int), Packet.pubkey_enc { keyid := 7, pubkey_algo := 1, data := [5] }),
        (2, Packet.encrypted { data := [] })] =
        pre1 ++ (0, Packet.pubkey_enc enc) :: errs ∧
      (∀ x ∈ errs, x.1 ≠ 0) ∧
      ({ algo := 1, key := [5] } : DEK) = ((sampleEnv sampleOpt 0).get_session_key h enc).2 :=
  (C17_dek_used_only_by_the_next_packet (sampleEnv sampleOpt 0)
    [(0, Packet.pubkey_enc { keyid := 7, pubkey_algo := 1, data := [5] }),
      (2, Packet.encrypted { data := [] })]
    (sampleSys [] 0)
    { c := { CTX.clear { fname := [] } with
               last_was_pubkey_enc := 1, dek := some { algo := 1, key := [5] } },
      trace := [Event.get_session_key { keyid := 7, pubkey_algo := 1, data := [5] } 0,
        Event.free_packet (Packet.pubkey_enc { keyid := 7, pubkey_algo := 1, data := [5] }),
        Event.free_packet (Packet.encrypted { data := [] })] }
    (by decide) rfl (by decide)).1 { algo := 1, key := [5] } rfl

theorem frame_list_refl (P : Event → Bool) (s : Sys) : frame_list P s s :=
  ⟨rfl, [], by simp, by simp⟩

theorem frame_list_trans (P : Event → Bool) (a b c : Sys) (h1 : frame_list P a b)
    (h2 : frame_list P b c) : frame_list P a c := by
  obtain ⟨hl1, t1, ht1, hp1⟩ := h1
  obtain ⟨hl2, t2, ht2, hp2⟩ := h2
  refine ⟨by rw [hl2, hl1], t1 ++ t2, by rw [ht2, ht1, List.append_assoc], ?_⟩
  intro e he
  rcases List.mem_append.1 he with h | h
  · exact hp1 e h
  · exact hp2 e h

theorem frame_pay_to_list (P : Event → Bool) (s s1 : Sys) (h : frame_pay P s s1) :
    frame_list P s s1 := ⟨h.1, h.2.2⟩

theorem total_emit_list (P : Event → Bool) (e : Event) (he : P e = true) :
    total (frame_list P) (emit e) :=
  fun s => ⟨(), _, rfl, rfl, [e], rfl, by simpa using he⟩

theorem total_modc_list (P : Event → Bool) (f : CTX → CTX) (hf : ∀ c, (f c).list = c.list) :
    total (frame_list P) (modc f) :=
  fun s => ⟨(), _, rfl, hf s.c, [], by simp, by simp⟩

theorem burn_dek_list (pkt : Packet) :
    total (frame_list Event.is_decrypt_step) (burn_dek pkt) := by
  have hr := frame_list_refl Event.is_decrypt_step
  have ht := frame_list_trans Event.is_decrypt_step
  unfold burn_dek
  repeat' first
    | exact total_pure hr _
    | exact total_getc hr
    | exact total_emit_list _ _ rfl
    | exact total_weaken (frame_pay_to_list _) free_dek_pay
    | refine total_bind ht ?_ (fun _ => ?_)
    | split

theorem dispatch_list_mode (E : Env) (hE : E.opt.list_packets = true) (pkt : Packet) :
    total (frame_list Event.is_decrypt_step) (dispatch E pkt) := by
  have hr := frame_list_refl Event.is_decrypt_step
  have ht := frame_list_trans Event.is_decrypt_step
  unfold dispatch
  simp only [hE, if_true]
  repeat' first
    | exact total_pure hr _
    | exact total_weaken (frame_pay_to_list _) (proc_pubkey_enc_pay E _)
    | exact total_weaken (frame_pay_to_list _) (proc_encrypted_pay E _)
    | exact total_weaken (frame_pay_to_list _) (proc_compressed_pay E _)
    | refine total_bind ht ?_ (fun _ => ?_)
    | split

theorem process_packet_list_mode (E : Env) (hE : E.opt.list_packets = true) (pkt : Packet) :
    total (frame_list Event.is_decrypt_step) (process_packet E pkt) := by
  have hr := frame_list_refl Event.is_decrypt_step
  have ht := frame_list_trans Event.is_decrypt_step
  unfold process_packet
  repeat' first
    | exact total_pure hr _
    | exact total_emit_list _ _ rfl
    | exact total_modc_list _ _ (fun _ => rfl)
    | exact dispatch_list_mode E hE _
    | refine total_bind ht ?_ (fun _ => ?_)
    | split

theorem proc_packets_loop_list_mode (E : Env) (hE : E.opt.list_packets = true) :
    ∀ stream, total (frame_list Event.is_decrypt_step) (proc_packets_loop E stream) := by
  have hr := frame_list_refl Event.is_decrypt_step
  have ht := frame_list_trans Event.is_decrypt_step
  intro stream
  induction stream with
  | nil => exact total_pure hr _
  | cons x rest ih =>
    obtain ⟨rc, pkt⟩ := x
    unfold proc_packets_loop
    repeat' first
      | exact total_pure hr _
      | exact total_emit_list _ _ rfl
      | exact burn_dek_list _
      | exact process_packet_list_mode E hE _
      | exact ih
      | refine total_bind ht ?_ (fun _ => ?_)
      | split

/-- C14 (as amended): in listing mode `proc_packets` returns 0 on every stream;
no group is ever opened, and the only effects are log lines, releases and the
calls of session-key recovery, decryption and decompression: literal data is
only released (`handle_plaintext` is never called) and nothing is listed or
verified.  A session-key packet, encrypted data and compressed data are still
handed to `proc_pubkey_enc`, `proc_encrypted` and `proc_compressed`, which call
`get_session_key`, `make_dek_from_passphrase`, `decrypt_data` and
`handle_compressed` as in normal mode; every other packet is released
unprocessed. -/
theorem C14_listing_mode (E : Env) (hE : E.opt.list_packets = true) :
    (∀ (a : IOBUF) (stream : List (Int × Packet)) (s : Sys),
      ∃ s1, proc_packets E a stream s = Res.ret 0 s1 ∧ s1.c.list = [] ∧
        ∃ t, s1.trace = s.trace ++ t ∧ ∀ e ∈ t, e.is_decrypt_step = true) ∧
    (∀ enc s, dispatch E (Packet.pubkey_enc enc) s =
      (do proc_pubkey_enc E enc; pure (-1) : Proc Int) s) ∧
    (∀ ed s, dispatch E (Packet.encrypted ed) s =
      (do proc_encrypted E ed; pure (-1) : Proc Int) s) ∧
    (∀ zd s, dispatch E (Packet.compressed zd) s =
      (do proc_compressed E zd; pure (-1) : Proc Int) s) ∧
    (∀ pkt s, pkt.pkttype ≠ PktType.PKT_PUBKEY_ENC → pkt.pkttype ≠ PktType.PKT_ENCRYPTED →
      pkt.pkttype ≠ PktType.PKT_COMPRESSED →
      process_packet E pkt s =
        Res.ret () { c := { s.c with have_data := have_data_step pkt s.c.have_data },
                     trace := s.trace ++ [Event.free_packet pkt] }) := by
  refine ⟨?_, fun enc s => dispatch_pubkey_enc E enc s, fun ed s => dispatch_encrypted E ed s,
    ?_, ?_⟩
  · intro a stream s
    obtain ⟨u, s1, h1, hl, t, ht, hp⟩ :=
      proc_packets_loop_list_mode E hE stream { s with c := CTX.clear a }
    have hl1 : s1.c.list = [] := by rw [hl]; rfl
    have hrel : release_list E s1 = Res.ret () s1 := by simp [release_list, hl1]
    rw [proc_packets_run E a stream s s1 h1, hrel]
    refine ⟨_, rfl, by simpa [proc_packets_end] using hl1, ?_⟩
    cases hd : s1.c.dek with
    | none => exact ⟨t, by simpa [proc_packets_end, hd] using ht, hp⟩
    | some d =>
      refine ⟨t ++ [Event.m_free_dek d], by simp [proc_packets_end, hd, ht], ?_⟩
      intro e he
      rcases List.mem_append.1 he with h | h
      · exact hp e h
      · simp at h; subst h; rfl
  · intro zd s
    simp [dispatch, hE]
  · intro pkt s h1 h2 h3
    rw [process_packet_run]
    cases pkt <;> simp [Packet.pkttype] at h1 h2 h3 <;> simp [dispatch, hE]

/-- C14, an instance: a listing-mode run on a stream with a certificate and
literal data only releases the packets. -/
theorem C14_listing_mode_witness :
    ∃ s1, proc_packets (sampleEnv { sampleOpt with list_packets := true } 0) { fname := [] }
        [(0, Packet.public_cert sampleCert), (0, Packet.plaintext { name := [], data := [1] })]
        (sampleSys [] 0) = Res.ret 0 s1 ∧ s1.c.list = [] ∧
      ∃ t, s1.trace = (sampleSys [] 0).trace ++ t ∧ ∀ e ∈ t, e.is_decrypt_step = true :=
  (C14_listing_mode (sampleEnv { sampleOpt with list_packets := true } 0) rfl).1 { fname := [] }
    [(0, Packet.public_cert sampleCert), (0, Packet.plaintext { name := [], data := [1] })]
    (sampleSys [] 0)

/-- C14 as stated fails: in listing mode, on the stream session-key packet,
encrypted data, compressed data, `proc_packets` calls `get_session_key`,
`decrypt_data` and `handle_compressed`; on a stream that is one encrypted data
packet it calls `make_dek_from_passphrase` and `decrypt_data`. -/
theorem C14_listing_mode_still_decrypts :
    (sampleEnv { sampleOpt with list_packets := true } 0).opt.list_packets = true ∧
    (proc_packets (sampleEnv { sampleOpt with list_packets := true } 0) { fname := [] }
        [(0, Packet.pubkey_enc { keyid := 7, pubkey_algo := 1, data := [5] }),
         (0, Packet.encrypted { data := [1] }),
         (0, Packet.compressed { algorithm := 1, data := [2] })] (sampleSys [] 0)).sys.trace =
      [Event.get_session_key { keyid := 7, pubkey_algo := 1, data := [5] } 0,
       Event.free_packet (Packet.pubkey_enc { keyid := 7, pubkey_algo := 1, data := [5] }),
       Event.decrypt_data { data := [1] } (some { algo := 1, key := [5] }) 0,
       Event.m_free_dek { algo := 1, key := [5] },
       Event.free_packet (Packet.encrypted { data := [1] }),
       Event.handle_compressed { algorithm := 1, data := [2] } 0,
       Event.free_packet (Packet.compressed { algorithm := 1, data := [2] })] ∧
    (proc_packets (sampleEnv { sampleOpt with list_packets := true } 0) { fname := [] }
        [(0, Packet.encrypted { data := [3] })] (sampleSys [] 0)).sys.trace =
      [Event.make_dek_from_passphrase { algo := 1, key := [] } 0 0,
       Event.decrypt_data { data := [3] } (some { algo := 1, key := [] }) 0,
       Event.m_free_dek { algo := 1, key := [] },
       Event.free_packet (Packet.encrypted { data := [3] })] := by
  decide

theorem stable_pure {α : Type} (a : α) : stable (pure a : Proc α) :=
  fun s s1 h => ⟨rfl, rfl, h, [], by simp [Res.sys], by simp [Res.sys]⟩

theorem stable_halt {α : Type} (h : Halt) : stable (halt h : Proc α) :=
  fun _ _ hc => ⟨rfl, rfl, hc, [], by simp [Res.sys], by simp [Res.sys]⟩

theorem stable_getc : stable getc :=
  fun s s1 h => ⟨by simp [Res.val, h], rfl, h, [], by simp [Res.sys], by simp [Res.sys]⟩

theorem stable_emit (e : Event) : stable (emit e) :=
  fun _ _ h => ⟨rfl, rfl, h, [e], rfl, rfl⟩

theorem stable_call {α : Type} (f : List Event → α) (ev : α → Event)
    (hf : ∀ h h1, f h = f h1) : stable (call f ev) := by
  intro s s1 h
  refine ⟨?_, rfl, h, [ev (f s.trace)], rfl, ?_⟩
  · simp [Res.val, hf s.trace s1.trace]
  · simp [Res.sys, hf s1.trace s.trace]

theorem stable_bind {α β : Type} {x : Proc α} {f : α → Proc β}
    (hx : stable x) (hf : ∀ a, stable (f a)) : stable (x >>= f) := by
  intro s s1 h
  have hx1 := hx s s1 h
  unfold same_run at hx1 ⊢
  simp only [bind_run]
  generalize x s = r at hx1 ⊢
  generalize x s1 = r1 at hx1 ⊢
  obtain ⟨hv, hs, hc, t, ht, ht1⟩ := hx1
  cases r with
  | halt y s2 =>
    cases r1 with
    | halt y1 s3 => exact ⟨rfl, hs, hc, t, ht, ht1⟩
    | ret a1 s3 => simp [Res.val] at hv
  | ret a s2 =>
    cases r1 with
    | halt y1 s3 => simp [Res.val] at hv
    | ret a1 s3 =>
      simp only [Res.val, Option.some.injEq] at hv
      subst hv
      simp only [Res.sys] at hc ht ht1
      obtain ⟨hv2, hs2, hc2, t2, ht2, ht21⟩ := hf a s2 s3 hc
      exact ⟨hv2, hs2, hc2, t ++ t2, by rw [ht2, ht, List.append_assoc],
        by rw [ht21, ht1, List.append_assoc]⟩

theorem do_check_sig_stable (E : Env)
    (hdig : ∀ h h1 algo, E.check_digest_algo h algo = E.check_digest_algo h1 algo)
    (hsig : ∀ h h1 sig md, E.signature_check h sig md = E.signature_check h1 sig md)
    (node : Nat) : stable (do_check_sig E node) := by
  have hfin : ∀ sig md, stable (do_check_sig_finish E sig md) :=
    fun sig md => stable_call _ _ (fun h h1 => hsig h h1 sig md)
  have hkey : ∀ sig, stable (do_check_sig_keysig E node sig) := by
    intro sig
    unfold do_check_sig_keysig
    repeat' first
      | exact stable_pure _
      | exact stable_halt _
      | exact stable_getc
      | exact stable_emit _
      | exact hfin _ _
      | refine stable_bind ?_ (fun _ => ?_)
      | split
  have hcls : ∀ sig algo, stable (do_check_sig_class E node sig algo) := by
    intro sig algo
    unfold do_check_sig_class
    repeat' first
      | exact stable_pure _
      | exact stable_getc
      | exact stable_call _ _ (fun h h1 => hdig h h1 _)
      | exact hfin _ _
      | exact hkey _
      | refine stable_bind ?_ (fun _ => ?_)
      | split
  unfold do_check_sig
  repeat' first
    | exact stable_pure _
    | exact stable_halt _
    | exact stable_getc
    | exact hcls _ _
    | refine stable_bind ?_ (fun _ => ?_)
    | split

theorem hands_pure {α : Type} (c : CTX) (d : Option (PKT_signature × Option MD)) (a : α) :
    hands c d (pure a : Proc α) :=
  fun s h => ⟨h, [], by simp [Res.sys], by simp⟩

theorem hands_halt {α : Type} (c : CTX) (d : Option (PKT_signature × Option MD)) (y : Halt) :
    hands c d (halt y : Proc α) :=
  fun s h => ⟨h, [], by simp [Res.sys], by simp⟩

theorem hands_log (c : CTX) (d : Option (PKT_signature × Option MD)) (m : Msg) :
    hands c d (emit (Event.log_error m)) :=
  fun s h => ⟨h, [Event.log_error m], rfl, by simp⟩

theorem hands_check_digest_algo (E : Env) (c : CTX) (d : Option (PKT_signature × Option MD))
    (algo : Int) :
    hands c d (call (fun h => E.check_digest_algo h algo) (Event.check_digest_algo algo)) :=
  fun s h => ⟨h, [Event.check_digest_algo algo (E.check_digest_algo s.trace algo)], rfl,
    by simp⟩

theorem hands_finish (E : Env) (c : CTX) (sig : PKT_signature) (md : Option MD) :
    hands c (some (sig, md)) (do_check_sig_finish E sig md) :=
  fun s h => ⟨h, [Event.signature_check sig md (E.signature_check s.trace sig md)], rfl,
    by
      intro a b r hm
      simp at hm
      simp [hm.1, hm.2.1]⟩

theorem hands_bind {α β : Type} {c : CTX} {d : Option (PKT_signature × Option MD)}
    {x : Proc α} {f : α → Proc β} (hx : hands c d x) (hf : ∀ a, hands c d (f a)) :
    hands c d (x >>= f) := by
  intro s h
  obtain ⟨hc, t, ht, hd⟩ := hx s h
  simp only [bind_run]
  cases hxs : x s with
  | halt y s2 =>
    rw [hxs] at hc ht
    exact ⟨hc, t, ht, hd⟩
  | ret a s2 =>
    rw [hxs] at hc ht
    simp only [Res.sys] at hc ht
    obtain ⟨hc2, t2, ht2, hd2⟩ := hf a s2 hc
    refine ⟨hc2, t ++ t2, by rw [ht2, ht, List.append_assoc], ?_⟩
    intro sig md rc he
    rcases List.mem_append.1 he with h1 | h1
    · exact hd sig md rc h1
    · exact hd2 sig md rc h1

theorem hands_getc_bind {β : Type} {c : CTX} {d : Option (PKT_signature × Option MD)}
    {f : CTX → Proc β} (hf : hands c d (f c)) : hands c d (getc >>= f) := by
  intro s h
  simp only [bind_run, getc_run]
  rw [h]
  exact hf s h

theorem do_check_sig_keysig_hands (E : Env) (node : Nat) (sig : PKT_signature) (c : CTX) :
    ∃ d, hands c d (do_check_sig_keysig E node sig) := by
  unfold do_check_sig_keysig
  suffices h : ∃ d, hands c d
      (match c.list with
        | [] => halt Halt.null_deref
        | Packet.public_cert pkc :: _ =>
          match find_prev_kbnode c.list node PktType.PKT_USER_ID with
          | some n1 =>
            match pkc.mfx_md with
            | some m =>
              match c.list[n1]? with
              | some (Packet.user_id uid) =>
                do_check_sig_finish E sig (some (md_write (md_copy m) uid.name))
              | _ => halt Halt.null_deref
            | none => halt Halt.BUG
          | none => do
            emit (Event.log_error Msg.invalid_parent_packet_for_sigclass_0x10)
            pure E.G10ERR_SIG_CLASS
        | _ :: _ => do
          emit (Event.log_error Msg.invalid_root_packet_for_sigclass_0x10)
          pure E.G10ERR_SIG_CLASS : Proc Int) by
    obtain ⟨d, hd⟩ := h
    exact ⟨d, hands_getc_bind hd⟩
  repeat' first
    | exact ⟨_, hands_finish E c _ _⟩
    | exact ⟨none, hands_halt c _ _⟩
    | exact ⟨none, hands_bind (hands_log c _ _) (fun _ => hands_pure c _ _)⟩
    | split

theorem do_check_sig_class_hands (E : Env) (node : Nat) (sig : PKT_signature) (algo : Int)
    (c : CTX) : ∃ d, hands c d (do_check_sig_class E node sig algo) := by
  unfold do_check_sig_class
  suffices h : ∃ d, hands c d
      (if sig.sig_class = 0x00 then
          do_check_sig_finish E sig (c.mfx_md.map md_copy)
        else if sig.sig_class = 0x01 then
          do_check_sig_finish E sig (c.mfx_md.map md_copy)
        else if and_not_3 sig.sig_class = 0x10 then
          do_check_sig_keysig E node sig
        else pure E.G10ERR_SIG_CLASS : Proc Int) by
    obtain ⟨d, hd⟩ := h
    refine ⟨d, hands_bind (hands_check_digest_algo E c d algo) (fun rc => ?_)⟩
    split
    · exact hands_pure c d _
    · exact hands_getc_bind hd
  repeat' first
    | exact ⟨_, hands_finish E c _ _⟩
    | exact do_check_sig_keysig_hands E node sig c
    | exact ⟨none, hands_pure c _ _⟩
    | split

theorem do_check_sig_hands (E : Env) (node : Nat) (c : CTX) :
    ∃ d, hands c d (do_check_sig E node) := by
  unfold do_check_sig
  suffices h : ∃ d, hands c d
      (match c.list[node]? with
        | none => halt Halt.null_deref
        | some (Packet.signature sig) =>
          if sig.pubkey_algo = E.PUBKEY_ALGO_ELGAMAL then
            do_check_sig_class E node sig sig.elg_digest_algo
          else if sig.pubkey_algo = E.PUBKEY_ALGO_RSA then
            do_check_sig_class E node sig sig.rsa_digest_algo
          else pure E.G10ERR_PUBKEY_ALGO
        | some _ => halt Halt.assert_failed : Proc Int) by
    obtain ⟨d, hd⟩ := h
    exact ⟨d, hands_getc_bind hd⟩
  repeat' first
    | exact do_check_sig_class_hands E node _ _ c
    | exact ⟨none, hands_halt c _ _⟩
    | exact ⟨none, hands_pure c _ _⟩
    | split

/-- C16: `do_check_sig` leaves the context as it is: `c->mfx.md` and the packets
of the list, with the digest state of the certificate, are the same before and
after a check of the node `n1`.  So a check of the node `n2` made after it hands
`signature_check` the same signature and digest as one made without it; and
with `check_digest_algo` and `signature_check` answering by their arguments
alone, it ends the same way and adds the same events, the result of
`signature_check` among them. -/
theorem C16_do_check_sig_keeps_digest_state (E : Env) (n1 n2 : Nat) (s : Sys) :
    (do_check_sig E n1 s).sys.c = s.c ∧
    (do_check_sig E n1 s).sys.c.mfx_md = s.c.mfx_md ∧
    (do_check_sig E n1 s).sys.c.list = s.c.list ∧
    (∀ rc1 s1, do_check_sig E n1 s = Res.ret rc1 s1 →
      (∀ sig md rc sig1 md1 rc1 t t1,
        (do_check_sig E n2 s).sys.trace = s.trace ++ t →
        (do_check_sig E n2 s1).sys.trace = s1.trace ++ t1 →
        Event.signature_check sig md rc ∈ t → Event.signature_check sig1 md1 rc1 ∈ t1 →
        sig1 = sig ∧ md1 = md) ∧
      ((∀ h h1 algo, E.check_digest_algo h algo = E.check_digest_algo h1 algo) →
        (∀ h h1 sig md, E.signature_check h sig md = E.signature_check h1 sig md) →
        (do_check_sig E n2 s1).val = (do_check_sig E n2 s).val ∧
        (do_check_sig E n2 s1).stopped = (do_check_sig E n2 s).stopped ∧
        ∃ t, (do_check_sig E n2 s).sys.trace = s.trace ++ t ∧
          (do_check_sig E n2 s1).sys.trace = s1.trace ++ t)) := by
  have hc := (do_check_sig_steps E n1 s).1
  refine ⟨hc, by rw [hc], by rw [hc], ?_⟩
  intro rc1 s1 h1
  rw [h1] at hc
  simp only [Res.sys] at hc
  constructor
  · intro sig md rc sig1 md1 rc2 t t1 ht ht1 he he1
    obtain ⟨d, hd⟩ := do_check_sig_hands E n2 s.c
    obtain ⟨-, u, hu, hdu⟩ := hd s rfl
    obtain ⟨-, u1, hu1, hdu1⟩ := hd s1 hc
    have e1 : t = u := List.append_cancel_left (ht.symm.trans hu)
    have e2 : t1 = u1 := List.append_cancel_left (ht1.symm.trans hu1)
    subst e1 e2
    have a := hdu sig md rc he
    have b := hdu1 sig1 md1 rc2 he1
    rw [a] at b
    simp only [Option.some.injEq, Prod.mk.injEq] at b
    exact ⟨b.1.symm, b.2.symm⟩
  · intro hdig hsig
    obtain ⟨hv, hs, -, t, ht, ht1⟩ := do_check_sig_stable E hdig hsig n2 s s1 hc.symm
    exact ⟨hv.symm, hs.symm, t, ht, ht1⟩

/-- C16, an instance: a certificate with a user id and two key signatures; the
check of the second signature returns 0 with or without a check of the first
before it. -/
theorem C16_do_check_sig_keeps_digest_state_witness :
    (do_check_sig (sampleEnv sampleOpt 0) 3
      (do_check_sig (sampleEnv sampleOpt 0) 2
        (sampleSys [Packet.public_cert sampleCert, Packet.user_id { name := [65] },
          Packet.signature (sampleSig 0x10), Packet.signature (sampleSig 0x13)] 0)).sys).val =
      (do_check_sig (sampleEnv sampleOpt 0) 3
        (sampleSys [Packet.public_cert sampleCert, Packet.user_id { name := [65] },
          Packet.signature (sampleSig 0x10), Packet.signature (sampleSig 0x13)] 0)).val ∧
    (do_check_sig (sampleEnv sampleOpt 0) 3
        (sampleSys [Packet.public_cert sampleCert, Packet.user_id { name := [65] },
          Packet.signature (sampleSig 0x10), Packet.signature (sampleSig 0x13)] 0)).val = some 0 :=
  ⟨(((C16_do_check_sig_keeps_digest_state (sampleEnv sampleOpt 0) 2 3
      (sampleSys [Packet.public_cert sampleCert, Packet.user_id { name := [65] },
        Packet.signature (sampleSig 0x10), Packet.signature (sampleSig 0x13)] 0)).2.2.2
      _ _ rfl).2 (fun _ _ _ => rfl) (fun _ _ _ _ => rfl)).1, by decide⟩

theorem do_check_sig_bare (E : Env) (s : Sys) (sig : PKT_signature) (rest : List Packet)
    (hl : s.c.list = Packet.signature sig :: rest)
    (hcls : 0x10 ≤ sig.sig_class ∧ sig.sig_class ≤ 0x13)
    (hpk : E.G10ERR_PUBKEY_ALGO ≠ 0) (hsc : E.G10ERR_SIG_CLASS ≠ 0) :
    ∃ rc t, do_check_sig E 0 s = Res.ret rc { c := s.c, trace := s.trace ++ t } ∧ rc ≠ 0 ∧
      ((rc = E.G10ERR_PUBKEY_ALGO ∧ t = []) ∨
        (rc = E.check_digest_algo s.trace (resolved_algo E sig) ∧
          t = [Event.check_digest_algo (resolved_algo E sig) rc]) ∨
        (rc = E.G10ERR_SIG_CLASS ∧
          t = [Event.check_digest_algo (resolved_algo E sig) 0,
            Event.log_error Msg.invalid_root_packet_for_sigclass_0x10])) ∧
      ∀ e ∈ t, e.no_good_sig = true := by
  have h0 : sig.sig_class ≠ 0 := by omega
  have h1 : sig.sig_class ≠ 1 := by omega
  have h2 : and_not_3 sig.sig_class = 16 := by unfold and_not_3; omega
  have hn : s.c.list[0]? = some (Packet.signature sig) := by rw [hl]; simp
  have hcl : ∀ algo, resolved_algo E sig = algo →
      ∃ rc t, do_check_sig_class E 0 sig algo s =
          Res.ret rc { c := s.c, trace := s.trace ++ t } ∧ rc ≠ 0 ∧
        ((rc = E.G10ERR_PUBKEY_ALGO ∧ t = []) ∨
          (rc = E.check_digest_algo s.trace (resolved_algo E sig) ∧
            t = [Event.check_digest_algo (resolved_algo E sig) rc]) ∨
          (rc = E.G10ERR_SIG_CLASS ∧
            t = [Event.check_digest_algo (resolved_algo E sig) 0,
              Event.log_error Msg.invalid_root_packet_for_sigclass_0x10])) ∧
        ∀ e ∈ t, e.no_good_sig = true := by
    intro algo ha
    rw [ha]
    by_cases hd : E.check_digest_algo s.trace algo = 0
    · refine ⟨E.G10ERR_SIG_CLASS, [Event.check_digest_algo algo 0,
        Event.log_error Msg.invalid_root_packet_for_sigclass_0x10], ?_, hsc,
        Or.inr (Or.inr ⟨rfl, rfl⟩), ?_⟩
      · simp [do_check_sig_class, do_check_sig_keysig, call, emit, hd, h0, h1, h2, hl]
      · intro e he
        simp at he
        rcases he with he | he <;> subst he <;> rfl
    · refine ⟨E.check_digest_algo s.trace algo,
        [Event.check_digest_algo algo (E.check_digest_algo s.trace algo)], ?_, hd,
        Or.inr (Or.inl ⟨rfl, rfl⟩), ?_⟩
      · simp [do_check_sig_class, call, hd]
      · intro e he
        simp at he
        subst he
        rfl
  unfold do_check_sig
  simp only [bind_run, getc_run, hn]
  by_cases he : sig.pubkey_algo = E.PUBKEY_ALGO_ELGAMAL
  · rw [if_pos he]
    exact hcl sig.elg_digest_algo (by simp [resolved_algo, he])
  · by_cases hr : sig.pubkey_algo = E.PUBKEY_ALGO_RSA
    · rw [if_neg he, if_pos hr]
      exact hcl sig.rsa_digest_algo (by simp [resolved_algo, he])
    · rw [if_neg he, if_neg hr]
      exact ⟨E.G10ERR_PUBKEY_ALGO, [], by simp, hpk, Or.inl ⟨rfl, rfl⟩, by simp⟩

theorem check_sig_and_print_bare (E : Env) (s : Sys) (sig : PKT_signature) (rest : List Packet)
    (hl : s.c.list = Packet.signature sig :: rest)
    (hcls : 0x10 ≤ sig.sig_class ∧ sig.sig_class ≤ 0x13)
    (hpk : E.G10ERR_PUBKEY_ALGO ≠ 0) (hsc : E.G10ERR_SIG_CLASS ≠ 0) :
    ∃ t, (check_sig_and_print E 0 s).sys.trace = s.trace ++ t ∧
      (∀ e ∈ t, e.no_good_sig = true) ∧
      (Event.write_status Status.STATUS_BADSIG ∈ t ∨
        Event.write_status Status.STATUS_ERRSIG ∈ t) := by
  obtain ⟨rc, t, hrun, hrc, -, ht⟩ := do_check_sig_bare E s sig rest hl hcls hpk hsc
  have hn : s.c.list[0]? = some (Packet.signature sig) := by rw [hl]; simp
  unfold check_sig_and_print
  simp only [bind_run, getc_run, hrun, hn, hrc, if_false]
  by_cases hb : rc = E.G10ERR_BAD_SIGN
  · refine ⟨t ++ [Event.write_status Status.STATUS_BADSIG,
      Event.log_error (Msg.bad_signature_from sig.keyid0 sig.keyid1)], ?_, ?_,
      Or.inl (by simp)⟩
    · simp only [hb, if_true, emit_run]
      split <;> simp [Res.sys, halt]
    · intro e he
      rcases List.mem_append.1 he with h | h
      · exact ht e h
      · simp at h
        rcases h with h | h <;> subst h <;> rfl
  · refine ⟨t ++ [Event.write_status Status.STATUS_ERRSIG,
      Event.log_error (Msg.cant_check_signature_made_by sig.keyid1 rc)], ?_, ?_,
      Or.inr (by simp)⟩
    · simp [hb, Res.sys, emit]
    · intro e he
      rcases List.mem_append.1 he with h | h
      · exact ht e h
      · simp at h
        rcases h with h | h <;> subst h <;> rfl

theorem check_sig_and_print_bare_after (E : Env) (s : Sys) (sig : PKT_signature)
    (rest : List Packet) (base pre : List Event)
    (hl : s.c.list = Packet.signature sig :: rest)
    (hcls : 0x10 ≤ sig.sig_class ∧ sig.sig_class ≤ 0x13)
    (hpk : E.G10ERR_PUBKEY_ALGO ≠ 0) (hsc : E.G10ERR_SIG_CLASS ≠ 0)
    (hs : s.trace = base ++ pre) (hpre : ∀ e ∈ pre, e.no_good_sig = true) :
    ∃ t, ((check_sig_and_print E 0 >>= fun _ => (pure () : Proc Unit)) s).sys.trace = base ++ t ∧
      (∀ e ∈ t, e.no_good_sig = true) ∧
      ((Event.write_status Status.STATUS_BADSIG ∈ t ∨
          Event.write_status Status.STATUS_ERRSIG ∈ t) ∨
        ∃ rc, rc ≠ 0 ∧ Event.log_error (Msg.cant_hash_datafile rc) ∈ t) := by
  obtain ⟨t, ht, hp, hst⟩ := check_sig_and_print_bare E s sig rest hl hcls hpk hsc
  have hb : ((check_sig_and_print E 0 >>= fun _ => (pure () : Proc Unit)) s).sys =
      (check_sig_and_print E 0 s).sys := by
    simp only [bind_run]
    cases check_sig_and_print E 0 s <;> rfl
  refine ⟨pre ++ t, by rw [hb, ht, hs, List.append_assoc], ?_, Or.inl ?_⟩
  · intro e he
    rcases List.mem_append.1 he with h | h
    · exact hpre e h
    · exact hp e h
  · rcases hst with h | h
    · exact Or.inl (List.mem_append.2 (Or.inr h))
    · exact Or.inr (List.mem_append.2 (Or.inr h))

theorem proc_tree_bare (E : Env) (s : Sys) (sig : PKT_signature) (rest : List Packet)
    (hl : s.c.list = Packet.signature sig :: rest)
    (hcls : 0x10 ≤ sig.sig_class ∧ sig.sig_class ≤ 0x13)
    (hpk : E.G10ERR_PUBKEY_ALGO ≠ 0) (hsc : E.G10ERR_SIG_CLASS ≠ 0) :
    ∃ t, (proc_tree E 0 s).sys.trace = s.trace ++ t ∧
      (∀ e ∈ t, e.no_good_sig = true) ∧
      (E.opt.list_packets = false →
        (Event.write_status Status.STATUS_BADSIG ∈ t ∨
          Event.write_status Status.STATUS_ERRSIG ∈ t) ∨
        ∃ rc, rc ≠ 0 ∧ Event.log_error (Msg.cant_hash_datafile rc) ∈ t) := by
  have h2 : and_not_3 sig.sig_class = 16 := by unfold and_not_3; omega
  have hn : s.c.list[0]? = some (Packet.signature sig) := by rw [hl]; simp
  unfold proc_tree
  by_cases hlp : E.opt.list_packets = true
  · exact ⟨[], by simp [hlp, Res.sys], by simp, by simp [hlp]⟩
  · have hlf : E.opt.list_packets = false := by simpa using hlp
    simp only [hlf, Bool.false_eq_true, if_false, bind_run, getc_run, hn, h2]
    by_cases hd : s.c.have_data = 0
    · simp only [hd, true_and, if_true, emit_run, free_md_filter_context, modc_run, call_run,
        bind_run, getc_run]
      generalize E.ask_for_detached_datafile (s.trace ++ [Event.log_info Msg.old_style_signature])
        (some (md_open (E.digest_algo_from_sig sig) 0)) s.c.iobuf.fname = r
      split
      · rename_i hr
        refine ⟨[Event.log_info Msg.old_style_signature,
          Event.ask_for_detached_datafile (some (md_open (E.digest_algo_from_sig sig) 0))
            s.c.iobuf.fname r.1,
          Event.log_error (Msg.cant_hash_datafile r.1)], by simp [emit, Res.sys], ?_,
          fun _ => Or.inr ⟨r.1, hr, by simp⟩⟩
        intro e he
        simp at he
        rcases he with he | he | he <;> subst he <;> rfl
      · obtain ⟨t, ht, hp, hst⟩ := check_sig_and_print_bare_after E
          { c := { s.c with mfx_md := r.2, have_data := 0 },
            trace := s.trace ++ [Event.log_info Msg.old_style_signature] ++
              [Event.ask_for_detached_datafile (some (md_open (E.digest_algo_from_sig sig) 0))
                s.c.iobuf.fname r.1] }
          sig rest s.trace
          [Event.log_info Msg.old_style_signature,
            Event.ask_for_detached_datafile (some (md_open (E.digest_algo_from_sig sig) 0))
              s.c.iobuf.fname r.1]
          hl hcls hpk hsc (by simp) (by
            intro e he
            simp at he
            rcases he with he | he <;> subst he <;> rfl)
        exact ⟨t, ht, hp, fun _ => hst⟩
    · simp only [hd, false_and, if_false]
      obtain ⟨t, ht, hp, hst⟩ := check_sig_and_print_bare_after E s sig rest s.trace []
        hl hcls hpk hsc (by simp) (by simp)
      exact ⟨t, ht, hp, fun _ => hst⟩

/-- C19: the open list starts with a signature of class 0x10 .. 0x13; the error
codes `G10ERR_PUBKEY_ALGO` and `G10ERR_SIG_CLASS` are not 0.  Then `do_check_sig`
on that root returns a non-zero result in every state with this list:
`G10ERR_PUBKEY_ALGO` with nothing called, or the non-zero result of
`check_digest_algo`, or `G10ERR_SIG_CLASS` after the line about the invalid
root packet; `signature_check` is not called.  And `proc_tree` on that root adds
neither a call of `signature_check` nor the status `STATUS_GOODSIG`; in normal
mode it emits `STATUS_BADSIG` or `STATUS_ERRSIG`, unless the detached data file
could not be hashed. -/
theorem C19_bare_key_signature_never_valid (E : Env) (s : Sys) (sig : PKT_signature)
    (rest : List Packet) (hl : s.c.list = Packet.signature sig :: rest)
    (hcls : 0x10 ≤ sig.sig_class ∧ sig.sig_class ≤ 0x13)
    (hpk : E.G10ERR_PUBKEY_ALGO ≠ 0) (hsc : E.G10ERR_SIG_CLASS ≠ 0) :
    (∀ s1 : Sys, s1.c.list = s.c.list →
      ∃ rc t, do_check_sig E 0 s1 = Res.ret rc { c := s1.c, trace := s1.trace ++ t } ∧ rc ≠ 0 ∧
        ((rc = E.G10ERR_PUBKEY_ALGO ∧ t = []) ∨
          (rc = E.check_digest_algo s1.trace (resolved_algo E sig) ∧
            t = [Event.check_digest_algo (resolved_algo E sig) rc]) ∨
          (rc = E.G10ERR_SIG_CLASS ∧
            t = [Event.check_digest_algo (resolved_algo E sig) 0,
              Event.log_error Msg.invalid_root_packet_for_sigclass_0x10])) ∧
        ∀ e ∈ t, e.no_good_sig = true) ∧
    ∃ t, (proc_tree E 0 s).sys.trace = s.trace ++ t ∧
      (∀ e ∈ t, e.no_good_sig = true) ∧
      (E.opt.list_packets = false →
        (Event.write_status Status.STATUS_BADSIG ∈ t ∨
          Event.write_status Status.STATUS_ERRSIG ∈ t) ∨
        ∃ rc, rc ≠ 0 ∧ Event.log_error (Msg.cant_hash_datafile rc) ∈ t) :=
  ⟨fun s1 h1 => do_check_sig_bare E s1 sig rest (h1.trans hl) hcls hpk hsc,
    proc_tree_bare E s sig rest hl hcls hpk hsc⟩

/-- C19, an instance: a bare signature of class 0x10 with no data before it; the
detached file is hashed, the check fails with `G10ERR_SIG_CLASS` (29) and
`STATUS_ERRSIG` is emitted. -/
theorem C19_bare_key_signature_never_valid_witness :
    (∃ t, (proc_tree (sampleEnv sampleOpt 0) 0
          (sampleSys [Packet.signature (sampleSig 0x10)] 0)).sys.trace =
        (sampleSys [Packet.signature (sampleSig 0x10)] 0).trace ++ t ∧
      (∀ e ∈ t, e.no_good_sig = true) ∧
      ((sampleEnv sampleOpt 0).opt.list_packets = false →
        (Event.write_status Status.STATUS_BADSIG ∈ t ∨
          Event.write_status Status.STATUS_ERRSIG ∈ t) ∨
        ∃ rc, rc ≠ 0 ∧ Event.log_error (Msg.cant_hash_datafile rc) ∈ t)) ∧
    (proc_tree (sampleEnv sampleOpt 0) 0
        (sampleSys [Packet.signature (sampleSig 0x10)] 0)).sys.trace =
      [Event.log_info Msg.old_style_signature,
       Event.ask_for_detached_datafile (some (md_open 1 0)) [] 0,
       Event.check_digest_algo 1 0,
       Event.log_error Msg.invalid_root_packet_for_sigclass_0x10,
       Event.write_status Status.STATUS_ERRSIG,
       Event.log_error (Msg.cant_check_signature_made_by 7 29)] :=
  ⟨(C19_bare_key_signature_never_valid (sampleEnv sampleOpt 0)
      (sampleSys [Packet.signature (sampleSig 0x10)] 0) (sampleSig 0x10) [] rfl
      (by decide) (by decide) (by decide)).2, by decide⟩

theorem proc_bind_assoc {α β γ : Type} (x : Proc α) (f : α → Proc β) (g : β → Proc γ) :
    (x >>= f) >>= g = x >>= fun a => f a >>= g := by
  funext s
  simp only [bind_run]
  cases x s <;> rfl

theorem proc_pure_bind {α β : Type} (a : α) (f : α → Proc β) :
    (pure a : Proc α) >>= f = f a := by
  funext s
  simp only [bind_run, pure_run]

theorem proc_ite_bind {α β : Type} (c : Prop) [Decidable c] (x y : Proc α) (f : α → Proc β) :
    (if c then x else y) >>= f = if c then x >>= f else y >>= f := by
  split <;> rfl

theorem list_node_uids_flat (E : Env) (pkc : PKT_public_cert) (l : List Packet) :
    ∀ n, (list_node_sigs E n l >>= fun _ => list_node_uids E pkc n l true) =
      (run_visits E pkc (visits n l true) >>= fun _ => (pure true : Proc Bool)) := by
  induction l with
  | nil =>
    intro n
    simp only [list_node_sigs, list_node_uids, visits, run_visits]
  | cons p rest ih =>
    intro n
    cases p with
    | user_id uid =>
      simp only [list_node_sigs, list_node_uids, visits, run_visits, proc_pure_bind,
        proc_bind_assoc, ih (n + 1), if_true, Bool.not_true, Bool.and_false,
        Bool.false_eq_true, if_false]
    | signature sig =>
      simp only [list_node_sigs, list_node_uids, visits, run_visits, proc_pure_bind,
        proc_bind_assoc, ih (n + 1), if_true]
    | _ =>
      simp only [list_node_sigs, list_node_uids, visits, run_visits, proc_pure_bind,
        proc_bind_assoc, ih (n + 1)]

theorem list_node_uids_visits (E : Env) (pkc : PKT_public_cert) (l : List Packet) :
    ∀ n, ∃ b, list_node_uids E pkc n l false =
      (run_visits E pkc (visits n l false) >>= fun _ => (pure b : Proc Bool)) := by
  induction l with
  | nil =>
    intro n
    exact ⟨false, by simp only [list_node_uids, visits, run_visits, proc_pure_bind]⟩
  | cons p rest ih =>
    intro n
    cases p with
    | user_id uid =>
      refine ⟨true, ?_⟩
      simp only [list_node_uids, visits, run_visits, proc_pure_bind, proc_bind_assoc,
        list_node_uids_flat E pkc rest (n + 1), Bool.false_eq_true, if_false, proc_ite_bind]
    | signature sig =>
      obtain ⟨b, hb⟩ := ih (n + 1)
      exact ⟨b, by simp only [list_node_uids, visits, hb, Bool.false_eq_true, if_false]⟩
    | _ =>
      obtain ⟨b, hb⟩ := ih (n + 1)
      exact ⟨b, by simp only [list_node_uids, visits, hb]⟩

theorem list_node_visits (E : Env) (s : Sys) (pkc : PKT_public_cert) (l : List Packet)
    (hl : s.c.list = Packet.public_cert pkc :: l) :
    ∃ b : Bool, list_node E 0 s =
      (do
        emit (Event.stdout (Out.pub_line pkc))
        run_visits E pkc (visits 1 l false)
        if b = false then emit (Event.stdout Out.no_user_id)) s := by
  obtain ⟨b, hb⟩ := list_node_uids_visits E pkc l 1
  refine ⟨b, ?_⟩
  have hn : s.c.list[0]? = some (Packet.public_cert pkc) := by rw [hl]; simp
  have hd : s.c.list.drop (0 + 1) = l := by rw [hl]; simp
  unfold list_node
  simp only [bind_run, getc_run, hn, hd, hb, emit_run, pure_run]
  cases run_visits E pkc (visits 1 l false) _ <;> rfl

theorem visits_pos (i : Nat) (sg : PKT_signature) (l : List Packet) :
    ∀ n any, Visit.sig i sg ∈ visits n l any → n ≤ i := by
  induction l with
  | nil =>
    intro n any h
    simp [visits] at h
  | cons p rest ih =>
    intro n any h
    cases p with
    | user_id uid =>
      simp only [visits, List.mem_cons] at h
      rcases h with h | h
      · cases h
      · have := ih _ _ h
        omega
    | signature sig =>
      simp only [visits] at h
      split at h
      · simp only [List.mem_cons, Visit.sig.injEq] at h
        rcases h with h | h
        · omega
        · have := ih _ _ h
          omega
      · have := ih _ _ h
        omega
    | _ =>
      simp only [visits] at h
      have := ih _ _ h
      omega

theorem exists_uid_cons (p : Packet) (rest : List Packet) (k : Nat) :
    (∃ j uid, j < k + 1 ∧ (p :: rest)[j]? = some (Packet.user_id uid)) ↔
      (∃ uid, p = Packet.user_id uid) ∨
        ∃ j uid, j < k ∧ rest[j]? = some (Packet.user_id uid) := by
  constructor
  · rintro ⟨j, uid, hj, h⟩
    cases j with
    | zero =>
      simp only [List.getElem?_cons_zero, Option.some.injEq] at h
      exact Or.inl ⟨uid, h⟩
    | succ j =>
      simp only [List.getElem?_cons_succ] at h
      exact Or.inr ⟨j, uid, by omega, h⟩
  · rintro (⟨uid, h⟩ | ⟨j, uid, hj, h⟩)
    · exact ⟨0, uid, by omega, by simp [h]⟩
    · exact ⟨j + 1, uid, by omega, by simpa using h⟩

theorem visits_mem (sg : PKT_signature) (l : List Packet) :
    ∀ k n any, Visit.sig (n + k) sg ∈ visits n l any ↔
      l[k]? = some (Packet.signature sg) ∧
        (any = true ∨ ∃ j uid, j < k ∧ l[j]? = some (Packet.user_id uid)) := by
  induction l with
  | nil =>
    intro k n any
    simp [visits]
  | cons p rest ih =>
    intro k n any
    have hpos : ∀ b, ¬ Visit.sig n sg ∈ visits (n + 1) rest b := by
      intro b h
      have := visits_pos n sg rest (n + 1) b h
      omega
    have hk : ∀ k, n + (k + 1) = n + 1 + k := by intro k; omega
    cases k with
    | zero =>
      cases p with
      | user_id uid => simp [visits, hpos]
      | signature sig =>
        cases any with
        | true =>
          simp only [visits, if_true, Nat.add_zero, List.mem_cons, Visit.sig.injEq, true_and,
            hpos, or_false, List.getElem?_cons_zero, Option.some.injEq, Packet.signature.injEq,
            true_or, and_true]
          exact eq_comm
        | false => simp [visits, hpos]
      | _ => simp [visits, hpos]
    | succ k =>
      rw [hk k, exists_uid_cons]
      cases p with
      | user_id uid => simp [visits, ih k (n + 1) true]
      | signature sig =>
        cases any with
        | true =>
          simp only [visits, if_true, List.mem_cons, Visit.sig.injEq, ih k (n + 1) true,
            List.getElem?_cons_succ, true_or, and_true]
          constructor
          · rintro (⟨h, -⟩ | h)
            · omega
            · exact h
          · exact Or.inr
        | false => simp [visits, ih k (n + 1) false]
      | _ => simp [visits, ih k (n + 1) any]

theorem visits_count (i : Nat) (sg : PKT_signature) (l : List Packet) :
    ∀ n any, (visits n l any).count (Visit.sig i sg) ≤ 1 := by
  induction l with
  | nil =>
    intro n any
    simp [visits]
  | cons p rest ih =>
    intro n any
    cases p with
    | user_id uid =>
      simp only [visits]
      rw [List.count_cons_of_ne (by simp)]
      exact ih _ _
    | signature sig =>
      simp only [visits]
      split
      · by_cases h : Visit.sig n sig = Visit.sig i sg
        · rw [h, List.count_cons_self]
          have hn : i = n := by
            simp only [Visit.sig.injEq] at h
            exact h.1.symm
          have h0 : (visits (n + 1) rest any).count (Visit.sig i sg) = 0 := by
            rw [List.count_eq_zero]
            intro hm
            have := visits_pos i sg rest (n + 1) any hm
            omega
          omega
        · rw [List.count_cons_of_ne (fun e => h e.symm)]
          exact ih _ _
      · exact ih _ _
    | _ =>
      simp only [visits]
      exact ih _ _

theorem list_node_signature_unchecked (E : Env) (node : Nat) (sig : PKT_signature) (s : Sys)
    (hls : E.opt.list_sigs = true) (hcs : E.opt.check_sigs = false) :
    list_node_signature E node sig s = Res.ret ()
      { c := s.c,
        trace := s.trace ++ [Event.stdout Out.sig_tag,
          Event.stdout (Out.sig_line ' ' sig.keyid1 sig.timestamp),
          Event.stdout (Out.signer sig.keyid0 sig.keyid1),
          Event.stdout Out.newline] } := by
  unfold list_node_signature
  simp [hls, hcs, emit]

theorem list_node_signature_stopped (E : Env) (node : Nat) (sig : PKT_signature) (s s2 : Sys)
    (y : Halt) (hls : E.opt.list_sigs = true) (hcs : E.opt.check_sigs = true)
    (hd : do_check_sig E node { s with trace := s.trace ++ [Event.stdout Out.sig_tag] } =
      Res.halt y s2) :
    list_node_signature E node sig s = Res.halt y s2 := by
  unfold list_node_signature
  simp only [hls, hcs, Bool.true_eq_false, if_false, if_true, bind_run, emit_run, hd]

theorem list_node_signature_checked (E : Env) (node : Nat) (sig : PKT_signature) (s s2 : Sys)
    (rc : Int) (hls : E.opt.list_sigs = true) (hcs : E.opt.check_sigs = true)
    (hb0 : E.G10ERR_BAD_SIGN ≠ 0) (hn0 : E.G10ERR_NO_PUBKEY ≠ 0)
    (hbn : E.G10ERR_BAD_SIGN ≠ E.G10ERR_NO_PUBKEY)
    (hd : do_check_sig E node { s with trace := s.trace ++ [Event.stdout Out.sig_tag] } =
      Res.ret rc s2) :
    ∃ ch, list_node_signature E node sig s = Res.ret ()
        { c := s2.c,
          trace := s2.trace ++ [Event.stdout (Out.sig_line ch sig.keyid1 sig.timestamp)] ++
            (if ch = '%' then [Event.stdout (Out.errstr rc)]
              else if ch = '?' then []
              else [Event.stdout (Out.signer sig.keyid0 sig.keyid1)]) ++
            [Event.stdout Out.newline] } ∧
      (ch = '!' ↔ rc = 0) ∧ (ch = '-' ↔ rc = E.G10ERR_BAD_SIGN) ∧
      (ch = '?' ↔ rc = E.G10ERR_NO_PUBKEY) ∧
      (ch = '%' ↔ rc ≠ 0 ∧ rc ≠ E.G10ERR_BAD_SIGN ∧ rc ≠ E.G10ERR_NO_PUBKEY) := by
  unfold list_node_signature
  simp only [hls, hcs, Bool.true_eq_false, if_false, if_true, bind_run, emit_run, hd, pure_run]
  by_cases h0 : rc = 0
  · subst h0
    refine ⟨'!', ?_, by simp, ?_, ?_, ?_⟩
    · simp [emit]
    · simp [hb0.symm]
    · simp [hn0.symm]
    · simp
  · by_cases h1 : rc = E.G10ERR_BAD_SIGN
    · subst h1
      refine ⟨'-', ?_, ?_, by simp, ?_, ?_⟩
      · simp [emit, h0]
      · simp [h0]
      · simp [hbn]
      · simp
    · by_cases h2 : rc = E.G10ERR_NO_PUBKEY
      · subst h2
        refine ⟨'?', ?_, ?_, ?_, by simp, ?_⟩
        · simp [emit, h0, h1]
        · simp [h0]
        · simp [h1]
        · simp
      · refine ⟨'%', ?_, ?_, ?_, ?_, ?_⟩
        · simp [emit, h0, h1, h2]
        · simp [h0]
        · simp [h1]
        · simp [h2]
        · simp [h0, h1, h2]

theorem find_prev_scan_sound (node : Nat) (t : PktType) (r : Nat) :
    ∀ (l : List Packet) (i : Nat) (acc : Option Nat),
      find_prev_scan node t i l acc = some r →
      acc = some r ∨ (i ≤ r ∧ ∃ p, l[r - i]? = some p ∧ p.pkttype = t) := by
  intro l
  induction l with
  | nil =>
    intro i acc h
    exact Or.inl h
  | cons p rest ih =>
    intro i acc h
    unfold find_prev_scan at h
    by_cases hi : i = node
    · simp only [hi, if_true] at h
      exact Or.inl h
    · simp only [hi, if_false] at h
      rcases ih (i + 1) _ h with h1 | ⟨h1, q, hq, hqt⟩
      · by_cases hp : p.pkttype = t
        · simp only [hp, if_true, Option.some.injEq] at h1
          subst h1
          exact Or.inr ⟨Nat.le_refl _, p, by simp, hp⟩
        · simp only [hp, if_false] at h1
          exact Or.inl h1
      · refine Or.inr ⟨by omega, q, ?_, hqt⟩
        have e : r - i = (r - (i + 1)) + 1 := by omega
        rw [e, List.getElem?_cons_succ]
        exact hq

theorem find_prev_kbnode_user_id (root : List Packet) (node n1 : Nat)
    (h : find_prev_kbnode root node PktType.PKT_USER_ID = some n1) :
    ∃ uid, root[n1]? = some (Packet.user_id uid) := by
  rcases find_prev_scan_sound node PktType.PKT_USER_ID n1 root 0 none h with h1 | ⟨-, p, hp, hpt⟩
  · cases h1
  · cases p <;> simp [Packet.pkttype] at hpt
    exact ⟨_, by simpa using hp⟩

theorem do_check_sig_returns (E : Env) (node : Nat) (s : Sys) (pkc : PKT_public_cert)
    (l : List Packet) (sig : PKT_signature) (m : MD)
    (hl : s.c.list = Packet.public_cert pkc :: l) (hmd : pkc.mfx_md = some m)
    (hn : s.c.list[node]? = some (Packet.signature sig)) :
    ∃ rc s2, do_check_sig E node s = Res.ret rc s2 := by
  have hkey : ∀ s1 : Sys, s1.c = s.c → ∃ rc s2, do_check_sig_keysig E node sig s1 = Res.ret rc s2 := by
    intro s1 hc
    unfold do_check_sig_keysig
    simp only [bind_run, getc_run, hc, hl]
    cases hf : find_prev_kbnode (Packet.public_cert pkc :: l) node PktType.PKT_USER_ID with
    | none => exact ⟨_, _, rfl⟩
    | some n1 =>
      obtain ⟨uid, hu⟩ := find_prev_kbnode_user_id _ _ _ hf
      simp only [hmd, hu]
      exact ⟨_, _, rfl⟩
  have hcl : ∀ algo, ∃ rc s2, do_check_sig_class E node sig algo s = Res.ret rc s2 := by
    intro algo
    unfold do_check_sig_class
    simp only [bind_run, call_run, getc_run]
    split
    · exact ⟨_, _, rfl⟩
    · simp only [bind_run, getc_run]
      split
      · exact ⟨_, _, rfl⟩
      · split
        · exact ⟨_, _, rfl⟩
        · split
          · exact hkey _ rfl
          · exact ⟨_, _, rfl⟩
  unfold do_check_sig
  simp only [bind_run, getc_run, hn]
  split
  · exact hcl _
  · split
    · exact hcl _
    · exact ⟨_, _, rfl⟩

theorem list_node_signature_returns (E : Env) (node : Nat) (s : Sys) (pkc : PKT_public_cert)
    (l : List Packet) (sig : PKT_signature)
    (hl : s.c.list = Packet.public_cert pkc :: l)
    (hn : s.c.list[node]? = some (Packet.signature sig))
    (hok : E.opt.list_sigs = false ∨ E.opt.check_sigs = false ∨ pkc.mfx_md ≠ none) :
    ∃ s1, list_node_signature E node sig s = Res.ret () s1 ∧ s1.c = s.c := by
  have hc := (list_node_signature_any E node sig s).1
  suffices h : ∃ s1, list_node_signature E node sig s = Res.ret () s1 by
    obtain ⟨s1, h1⟩ := h
    rw [h1] at hc
    exact ⟨s1, h1, hc⟩
  by_cases hls : E.opt.list_sigs = false
  · exact ⟨s, by simp [list_node_signature, hls]⟩
  · have hls1 : E.opt.list_sigs = true := by simpa using hls
    by_cases hcs : E.opt.check_sigs = false
    · exact ⟨_, list_node_signature_unchecked E node sig s hls1 hcs⟩
    · have hcs1 : E.opt.check_sigs = true := by simpa using hcs
      have hmd : pkc.mfx_md ≠ none := by
        rcases hok with h | h | h
        · exact absurd h hls
        · exact absurd h hcs
        · exact h
      obtain ⟨m, hm⟩ := Option.ne_none_iff_exists.1 hmd
      obtain ⟨rc, s2, hd⟩ := do_check_sig_returns E node
        { s with trace := s.trace ++ [Event.stdout Out.sig_tag] } pkc l sig m hl hm.symm hn
      unfold list_node_signature
      simp only [hls1, hcs1, Bool.true_eq_false, if_false, if_true, bind_run, emit_run, hd,
        pure_run]
      split_ifs <;> exact ⟨_, rfl⟩

theorem run_visits_returns (E : Env) (pkc : PKT_public_cert) (l : List Packet)
    (hok : E.opt.list_sigs = false ∨ E.opt.check_sigs = false ∨ pkc.mfx_md ≠ none) :
    ∀ (vs : List Visit) (s : Sys), s.c.list = Packet.public_cert pkc :: l →
      (∀ i sg, Visit.sig i sg ∈ vs →
        (Packet.public_cert pkc :: l)[i]? = some (Packet.signature sg)) →
      ∃ s1, run_visits E pkc vs s = Res.ret () s1 ∧ s1.c = s.c := by
  intro vs
  induction vs with
  | nil =>
    intro s _ _
    exact ⟨s, rfl, rfl⟩
  | cons v vs ih =>
    intro s hl hv
    have hvs : ∀ i sg, Visit.sig i sg ∈ vs →
        (Packet.public_cert pkc :: l)[i]? = some (Packet.signature sg) :=
      fun i sg h => hv i sg (List.mem_cons_of_mem _ h)
    cases v with
    | uid uid any =>
      simp only [run_visits, bind_run, emit_run, print_userid, print_fingerprint]
      split_ifs <;> simp only [bind_run, emit_run, pure_run] <;> exact ih _ hl hvs
    | sig n sg =>
      obtain ⟨s1, h1, hc1⟩ := list_node_signature_returns E n s pkc l sg hl
        (by rw [hl]; exact hv n sg (List.mem_cons_self _ _)) hok
      simp only [run_visits, bind_run, h1]
      obtain ⟨s2, h2, hc2⟩ := ih s1 (by rw [hc1]; exact hl) hvs
      exact ⟨s2, h2, by rw [hc2, hc1]⟩

theorem visits_nodes (pkc : PKT_public_cert) (l : List Packet) (i : Nat) (sg : PKT_signature) :
    Visit.sig i sg ∈ visits 1 l false ↔
      (Packet.public_cert pkc :: l)[i]? = some (Packet.signature sg) ∧
        ∃ j uid, j < i ∧ (Packet.public_cert pkc :: l)[j]? = some (Packet.user_id uid) := by
  cases i with
  | zero =>
    constructor
    · intro h
      have := visits_pos 0 sg l 1 false h
      omega
    · rintro ⟨h, -⟩
      simp at h
  | succ k =>
    have e : k + 1 = 1 + k := Nat.add_comm k 1
    rw [e, visits_mem sg l k 1 false, ← e, List.getElem?_cons_succ]
    simp only [Bool.false_eq_true, false_or]
    constructor
    · rintro ⟨h, j, uid, hj, hu⟩
      exact ⟨h, j + 1, uid, by omega, by simpa using hu⟩
    · rintro ⟨h, j, uid, hj, hu⟩
      cases j with
      | zero => simp at hu
      | succ j => exact ⟨h, j, uid, by omega, by simpa using hu⟩

theorem list_node_returns (E : Env) (s : Sys) (pkc : PKT_public_cert) (l : List Packet)
    (hl : s.c.list = Packet.public_cert pkc :: l)
    (hok : E.opt.list_sigs = false ∨ E.opt.check_sigs = false ∨ pkc.mfx_md ≠ none) :
    ∃ s1, list_node E 0 s = Res.ret () s1 := by
  obtain ⟨b, hb⟩ := list_node_visits E s pkc l hl
  rw [hb]
  simp only [bind_run, emit_run]
  obtain ⟨s1, h1, -⟩ := run_visits_returns E pkc l hok (visits 1 l false)
    { s with trace := s.trace ++ [Event.stdout (Out.pub_line pkc)] } hl
    (fun i sg h => ((visits_nodes pkc l i sg).1 h).1)
  rw [h1]
  split_ifs <;> exact ⟨_, rfl⟩

/-- C18 (as amended): `list_node` on a signature node is its signature branch.
With `opt.list_sigs` on, that branch prints the status character ' ' when
`opt.check_sigs` is off, and `do_check_sig` is not called; with `opt.check_sigs`
on it calls `do_check_sig` after printing the tag, and when this returns `rc`
it prints one character `ch` with `ch = '!'` iff `rc = 0`, `ch = '-'` iff
`rc = G10ERR_BAD_SIGN`, `ch = '?'` iff `rc = G10ERR_NO_PUBKEY`, `ch = '%'` iff
`rc` is none of the three; when `do_check_sig` stops the process, nothing more
is printed.  On a group rooted at a public certificate, `list_node` prints the
certificate line and then runs the steps `visits` in chain order, where a
signature node has a visit iff a user id node precedes it in the group, and no
visit is listed twice: each such node is visited once, unless an earlier visit
has stopped the process.  No visit stops the process when `opt.list_sigs` or
`opt.check_sigs` is off or the certificate carries its digest state: then
`list_node` returns.  The three codes are taken to be distinct, as the case
labels of the `switch` are. -/
theorem C18_list_node_signature_lines (E : Env)
    (hb0 : E.G10ERR_BAD_SIGN ≠ 0) (hn0 : E.G10ERR_NO_PUBKEY ≠ 0)
    (hbn : E.G10ERR_BAD_SIGN ≠ E.G10ERR_NO_PUBKEY) :
    (∀ node sig s, s.c.list[node]? = some (Packet.signature sig) →
      list_node E node s = list_node_signature E node sig s) ∧
    (∀ node sig s, E.opt.list_sigs = true → E.opt.check_sigs = false →
      list_node_signature E node sig s = Res.ret ()
        { c := s.c,
          trace := s.trace ++ [Event.stdout Out.sig_tag,
            Event.stdout (Out.sig_line ' ' sig.keyid1 sig.timestamp),
            Event.stdout (Out.signer sig.keyid0 sig.keyid1),
            Event.stdout Out.newline] }) ∧
    (∀ node sig s rc s2, E.opt.list_sigs = true → E.opt.check_sigs = true →
      do_check_sig E node { s with trace := s.trace ++ [Event.stdout Out.sig_tag] } =
        Res.ret rc s2 →
      ∃ ch, list_node_signature E node sig s = Res.ret ()
          { c := s2.c,
            trace := s2.trace ++ [Event.stdout (Out.sig_line ch sig.keyid1 sig.timestamp)] ++
              (if ch = '%' then [Event.stdout (Out.errstr rc)]
                else if ch = '?' then []
                else [Event.stdout (Out.signer sig.keyid0 sig.keyid1)]) ++
              [Event.stdout Out.newline] } ∧
        (ch = '!' ↔ rc = 0) ∧ (ch = '-' ↔ rc = E.G10ERR_BAD_SIGN) ∧
        (ch = '?' ↔ rc = E.G10ERR_NO_PUBKEY) ∧
        (ch = '%' ↔ rc ≠ 0 ∧ rc ≠ E.G10ERR_BAD_SIGN ∧ rc ≠ E.G10ERR_NO_PUBKEY)) ∧
    (∀ node sig s y s2, E.opt.list_sigs = true → E.opt.check_sigs = true →
      do_check_sig E node { s with trace := s.trace ++ [Event.stdout Out.sig_tag] } =
        Res.halt y s2 →
      list_node_signature E node sig s = Res.halt y s2) ∧
    (∀ s pkc l, s.c.list = Packet.public_cert pkc :: l →
      (∃ b : Bool, list_node E 0 s =
        (do
          emit (Event.stdout (Out.pub_line pkc))
          run_visits E pkc (visits 1 l false)
          if b = false then emit (Event.stdout Out.no_user_id)) s) ∧
      (∀ i sg, Visit.sig i sg ∈ visits 1 l false ↔
        s.c.list[i]? = some (Packet.signature sg) ∧
          ∃ j uid, j < i ∧ s.c.list[j]? = some (Packet.user_id uid)) ∧
      (∀ i sg, (visits 1 l false).count (Visit.sig i sg) ≤ 1) ∧
      ((E.opt.list_sigs = false ∨ E.opt.check_sigs = false ∨ pkc.mfx_md ≠ none) →
        ∃ s1, list_node E 0 s = Res.ret () s1)) := by
  refine ⟨?_, fun node sig s => list_node_signature_unchecked E node sig s,
    fun node sig s rc s2 hls hcs hd =>
      list_node_signature_checked E node sig s s2 rc hls hcs hb0 hn0 hbn hd,
    fun node sig s y s2 hls hcs hd => list_node_signature_stopped E node sig s s2 y hls hcs hd,
    ?_⟩
  · intro node sig s h
    unfold list_node
    simp only [bind_run, getc_run, h]
  · intro s pkc l hl
    refine ⟨list_node_visits E s pkc l hl, ?_, fun i sg => visits_count i sg l 1 false,
      list_node_returns E s pkc l hl⟩
    intro i sg
    rw [hl]
    exact visits_nodes pkc l i sg

/-- C18, an instance: a certificate with its digest state, a signature before
the user id, then a user id with one signature; the check succeeds.  The
listing returns; the signature before the user id is not listed, the one after
it is listed once, with the status character `!`. -/
theorem C18_list_node_signature_lines_witness :
    (∃ s1, list_node (sampleEnv sampleOpt 0) 0
        (sampleSys [Packet.public_cert sampleCert, Packet.signature (sampleSig 0x10),
          Packet.user_id { name := [65] }, Packet.signature (sampleSig 0x13)] 0) =
        Res.ret () s1) ∧
    (list_node (sampleEnv sampleOpt 0) 0
        (sampleSys [Packet.public_cert sampleCert, Packet.signature (sampleSig 0x10),
          Packet.user_id { name := [65] }, Packet.signature (sampleSig 0x13)] 0)).sys.trace =
      [Event.stdout (Out.pub_line sampleCert),
       Event.stdout (Out.userid [65]),
       Event.stdout Out.newline,
       Event.stdout Out.sig_tag,
       Event.check_digest_algo 1 0,
       Event.signature_check (sampleSig 0x13) (some { algos := [1], data := [65] }) 0,
       Event.stdout (Out.sig_line '!' 7 0),
       Event.stdout (Out.signer 0 7),
       Event.stdout Out.newline] :=
  ⟨((C18_list_node_signature_lines (sampleEnv sampleOpt 0) (by decide) (by decide)
      (by decide)).2.2.2.2
      (sampleSys [Packet.public_cert sampleCert, Packet.signature (sampleSig 0x10),
        Packet.user_id { name := [65] }, Packet.signature (sampleSig 0x13)] 0) sampleCert
      [Packet.signature (sampleSig 0x10), Packet.user_id { name := [65] },
        Packet.signature (sampleSig 0x13)] rfl).2.2.2
      (Or.inr (Or.inr (by decide))), by decide⟩

/-- C18 as stated fails: the certificate carries no digest state and
`opt.list_sigs` and `opt.check_sigs` are on.  The user id at position 1
precedes the signature nodes at positions 2 and 3; the visit of node 2 stops
the process at `BUG()` in `do_check_sig`, and node 3 is never visited: the
tag `sig` is printed once and no status character is printed. -/
theorem C18_second_signature_never_visited :
    (list_node (sampleEnv sampleOpt 0) 0
        (sampleSys [Packet.public_cert { sampleCert with mfx_md := none },
          Packet.user_id { name := [65] }, Packet.signature (sampleSig 0x10),
          Packet.signature (sampleSig 0x11)] 0)).stopped = some Halt.BUG ∧
    (list_node (sampleEnv sampleOpt 0) 0
        (sampleSys [Packet.public_cert { sampleCert with mfx_md := none },
          Packet.user_id { name := [65] }, Packet.signature (sampleSig 0x10),
          Packet.signature (sampleSig 0x11)] 0)).sys.trace =
      [Event.stdout (Out.pub_line { sampleCert with mfx_md := none }),
       Event.stdout (Out.userid [65]),
       Event.stdout Out.newline,
       Event.stdout Out.sig_tag,
       Event.check_digest_algo 1 0] := by
  decide

end G10
